import Mathlib

/-!
# porkbun-go: a shallow embedding of the request/response core

The Go sources are embedded as Lean definitions that keep the names of the
functions they come from.  Go strings are modelled as `String` (valid Unicode
text), `int64` and `int` as `Int` with explicit range checks where the range
matters, and a nil-able pointer as `Option`.

Layout: definitions first (path builder, JSON values and the standard-library
behaviour the code relies on, the codecs, the request pipeline), then the
theorems, one block per claim.
-/

namespace Porkbun

/-! ## Path builder (`porkbun.go`, `dns.go`, `domains.go`, `ssl.go`) -/

/-- Concrete (non-pointer, non-nil) values that the endpoint methods pass as
path segments: `string`, `int64` and the string enum `DnsRecordType`. -/
inductive Scalar where
  | str (s : String)
  | int64 (n : Int)
  | recordType (s : String)
  deriving DecidableEq, Repr

/-- A value of Go type `any` as received by the variadic `segments ...any`:
the untyped `nil`, a plain value, or a pointer (`*string`, `*int64`) that is
nil (`none`) or points to a value. -/
inductive Any where
  | nil
  | val (v : Scalar)
  | ptr (p : Option Scalar)
  deriving DecidableEq, Repr

/-- Base-10 form of an integer as printed by `%v` / `%d`: a leading `-` for
negative numbers, no sign otherwise. -/
def formatInt (n : Int) : String :=
  if n < 0 then "-" ++ Nat.repr n.natAbs else Nat.repr n.toNat

/-- The text `fmt` prints for the verb `%v`: a string is printed as is, an
`int64` in base 10, and a `DnsRecordType` through its `String()` method, which
returns the underlying string. -/
def Scalar.format : Scalar → String
  | .str s => s
  | .int64 n => formatInt n
  | .recordType s => s

/-- Go `buildPathSegments(base *string, segments ...any)`: the loop over the
segments, with the string behind `base` threaded as the accumulator.  A nil
value and a nil pointer take the `continue` branch, a non-nil pointer is
dereferenced, and `fmt.Sprintf("/%v", v)` is appended. -/
def buildPathSegments (base : String) : List Any → String
  | [] => base
  | .nil :: rest => buildPathSegments base rest
  | .ptr none :: rest => buildPathSegments base rest
  | .ptr (some v) :: rest => buildPathSegments (base ++ ("/" ++ v.format)) rest
  | .val v :: rest => buildPathSegments (base ++ ("/" ++ v.format)) rest

/-- Go `dnsPath(action string, a ...any)`. -/
def dnsPath (action : String) (a : List Any) : String :=
  buildPathSegments ("/dns/" ++ action) a

/-- Go `domainPath(action string, a ...any)`. -/
def domainPath (action : String) (a : List Any) : String :=
  buildPathSegments ("/domain/" ++ action) a

/-- Go `sslPath(action string, a ...any)`. -/
def sslPath (action : String) (a : List Any) : String :=
  buildPathSegments ("/ssl/" ++ action) a

/-- Specification side of the path builder: the value a segment contributes,
if any.  A nil value and a nil pointer are absent; a non-nil pointer stands for
the value it points to. -/
def Any.present : Any → Option Scalar
  | .nil => none
  | .val v => some v
  | .ptr p => p

/-- The rendered present segments of an argument list, in input order. -/
def presentSegments (a : List Any) : List String :=
  (a.filterMap Any.present).map Scalar.format

/-- Two consecutive `/` characters occur somewhere in the text. -/
def hasDoubleSlash : List Char → Bool
  | '/' :: '/' :: _ => true
  | _ :: rest => hasDoubleSlash rest
  | [] => false

/-- The text ends with the character `/`. -/
def endsWithSlash (l : List Char) : Bool :=
  l.getLast? == some '/'

/-- A well-formed path component: non-empty and free of `/`. -/
def IsComponent (s : String) : Prop :=
  s.data ≠ [] ∧ '/' ∉ s.data

instance (s : String) : Decidable (IsComponent s) := by
  unfold IsComponent; infer_instance

/-- Specification side: each segment preceded by a `/`, concatenated. -/
def slashJoin : List String → String
  | [] => ""
  | s :: rest => "/" ++ s ++ slashJoin rest

/-! ## JSON values and the scanner of `encoding/json` -/

deriving instance DecidableEq for Except


/-- A JSON value as the scanner delimits it; a number keeps its literal. -/
inductive JValue where
  | null
  | bool (b : Bool)
  | num (lit : String)
  | str (s : String)
  | arr (items : List JValue)
  | obj (members : List (String × JValue))
  deriving Repr, Inhabited

/-- The ways the scanner of `encoding/json` rejects an input. -/
inductive ScanError where
  /-- The input ended where a token was still to come; the message is
  `unexpected end of JSON input` -/
  | endOfInput
  /-- The input ended inside a literal, a number or an escape sequence, where
  the space the scanner feeds at the end of the input is not accepted; the
  message is that of an invalid character, the space -/
  | endInToken
  /-- The character is not accepted at its place -/
  | invalidChar (c : Char)
  /-- More than 10000 enclosing arrays and objects -/
  | exceededMaxDepth
  /-- Not an error of the scanner: the fuel of the embedding has run out -/
  | fuelExhausted
  deriving DecidableEq, Repr

def isSpace (c : Char) : Bool :=
  c == ' ' || c == '\t' || c == '\r' || c == '\n'

def skipSpace : List Char → List Char
  | [] => []
  | c :: rest => if isSpace c then skipSpace rest else c :: rest

def isDigit (c : Char) : Bool := '0' ≤ c && c ≤ '9'

def hexVal (c : Char) : Option Nat :=
  if '0' ≤ c ∧ c ≤ '9' then some (c.toNat - 48)
  else if 'a' ≤ c ∧ c ≤ 'f' then some (c.toNat - 87)
  else if 'A' ≤ c ∧ c ≤ 'F' then some (c.toNat - 55)
  else none

/-- Reads the four hexadecimal digits of a `\u` escape -/
def scanHex4 : List Char → Except ScanError (Nat × List Char)
  | a :: b :: c :: d :: rest =>
    match hexVal a with
    | none => .error (.invalidChar a)
    | some x =>
      match hexVal b with
      | none => .error (.invalidChar b)
      | some y =>
        match hexVal c with
        | none => .error (.invalidChar c)
        | some z =>
          match hexVal d with
          | none => .error (.invalidChar d)
          | some w => .ok (((x * 16 + y) * 16 + z) * 16 + w, rest)
  | [a, b, c] =>
    match hexVal a, hexVal b, hexVal c with
    | none, _, _ => .error (.invalidChar a)
    | some _, none, _ => .error (.invalidChar b)
    | some _, some _, none => .error (.invalidChar c)
    | some _, some _, some _ => .error .endInToken
  | [a, b] =>
    match hexVal a, hexVal b with
    | none, _ => .error (.invalidChar a)
    | some _, none => .error (.invalidChar b)
    | some _, some _ => .error .endInToken
  | [a] =>
    match hexVal a with
    | none => .error (.invalidChar a)
    | some _ => .error .endInToken
  | [] => .error .endInToken

def simpleEscape (c : Char) : Option Char :=
  if c = '"' then some '"'
  else if c = '\\' then some '\\'
  else if c = '/' then some '/'
  else if c = 'b' then some (Char.ofNat 8)
  else if c = 'f' then some (Char.ofNat 12)
  else if c = 'n' then some '\n'
  else if c = 'r' then some '\r'
  else if c = 't' then some '\t'
  else none

/-- A low surrogate escape at the head of the input, when there is one -/
def lowSurrogate? : List Char → Option (Nat × List Char)
  | '\\' :: 'u' :: rest =>
    match scanHex4 rest with
    | .ok (n, rest') => if 0xDC00 ≤ n ∧ n < 0xE000 then some (n, rest') else none
    | .error _ => none
  | _ => none

def scanString : Nat → List Char → Except ScanError (List Char × List Char)
  | 0, _ => .error .fuelExhausted
  | _ + 1, [] => .error .endOfInput
  | fuel + 1, c :: rest =>
    if c = '"' then .ok ([], rest)
    else if c = '\\' then
      match rest with
      | [] => .error .endInToken
      | e :: rest' =>
        if e = 'u' then
          match scanHex4 rest' with
          | .error err => .error err
          | .ok (n, rest'') =>
            if 0xD800 ≤ n ∧ n < 0xDC00 then
              match lowSurrogate? rest'' with
              | some (m, rest3) =>
                (scanString fuel rest3).map
                  (fun r => (Char.ofNat (0x10000 + (n - 0xD800) * 0x400 + (m - 0xDC00)) :: r.1, r.2))
              | none => (scanString fuel rest'').map (fun r => (Char.ofNat 0xFFFD :: r.1, r.2))
            else if 0xDC00 ≤ n ∧ n < 0xE000 then
              (scanString fuel rest'').map (fun r => (Char.ofNat 0xFFFD :: r.1, r.2))
            else (scanString fuel rest'').map (fun r => (Char.ofNat n :: r.1, r.2))
        else
          match simpleEscape e with
          | none => .error (.invalidChar e)
          | some ch => (scanString fuel rest').map (fun r => (ch :: r.1, r.2))
    else if c.toNat < 0x20 then .error (.invalidChar c)
    else (scanString fuel rest).map (fun r => (c :: r.1, r.2))


/-- The longest run of decimal digits at the head of the input -/
def spanDigits : List Char → List Char × List Char
  | [] => ([], [])
  | c :: rest =>
    if isDigit c then ((spanDigits rest).1.cons c, (spanDigits rest).2) else ([], c :: rest)

/-- At least one digit, as required after `.`, `e`, `e+` and `e-` -/
def scanDigits1 : List Char → Except ScanError (List Char × List Char)
  | [] => .error .endInToken
  | c :: rest =>
    if isDigit c then .ok (c :: (spanDigits rest).1, (spanDigits rest).2)
    else .error (.invalidChar c)

/-- Integer part of a number: `0`, or a non-zero digit followed by digits -/
def scanIntPart : List Char → Except ScanError (List Char × List Char)
  | [] => .error .endInToken
  | c :: rest =>
    if c = '0' then .ok (['0'], rest)
    else if isDigit c then .ok (c :: (spanDigits rest).1, (spanDigits rest).2)
    else .error (.invalidChar c)

def scanFraction : List Char → Except ScanError (List Char × List Char)
  | '.' :: rest => (scanDigits1 rest).map (fun r => ('.' :: r.1, r.2))
  | input => .ok ([], input)

def scanExponent : List Char → Except ScanError (List Char × List Char)
  | [] => .ok ([], [])
  | c :: rest =>
    if c = 'e' ∨ c = 'E' then
      match rest with
      | [] => .error .endInToken
      | s :: rest' =>
        if s = '+' ∨ s = '-' then (scanDigits1 rest').map (fun r => (c :: s :: r.1, r.2))
        else (scanDigits1 rest).map (fun r => (c :: r.1, r.2))
    else .ok ([], c :: rest)

/-- A JSON number literal at the head of the input; the literal text is kept -/
def scanNumber (input : List Char) : Except ScanError (List Char × List Char) :=
  match input with
  | '-' :: rest =>
    match scanIntPart rest with
    | .error e => .error e
    | .ok (i, r1) =>
      match scanFraction r1 with
      | .error e => .error e
      | .ok (f, r2) => (scanExponent r2).map (fun r => ('-' :: i ++ f ++ r.1, r.2))
  | _ =>
    match scanIntPart input with
    | .error e => .error e
    | .ok (i, r1) =>
      match scanFraction r1 with
      | .error e => .error e
      | .ok (f, r2) => (scanExponent r2).map (fun r => (i ++ f ++ r.1, r.2))

/-- The remaining letters of `true`, `false` or `null` after the first -/
def scanLiteral : List Char → List Char → Except ScanError (List Char)
  | [], input => .ok input
  | _ :: _, [] => .error .endInToken
  | e :: expected, c :: rest =>
    if c = e then scanLiteral expected rest else .error (.invalidChar c)

/-- Go `maxNestingDepth` of `encoding/json`. -/
def maxNestingDepth : Nat := 10000

mutual
/-- One JSON value at the head of the input, after optional white space;
`depth` is the number of enclosing arrays and objects -/
def parseValue : Nat → Nat → List Char → Except ScanError (JValue × List Char)
  | 0, _, _ => .error .fuelExhausted
  | fuel + 1, depth, input =>
    match skipSpace input with
    | [] => .error .endOfInput
    | c :: rest =>
      if c = '{' then
        if depth < maxNestingDepth then
          match skipSpace rest with
          | [] => .error .endOfInput
          | d :: rest' =>
            if d = '}' then .ok (.obj [], rest')
            else (parseMembers fuel (depth + 1) (d :: rest')).map (fun r => (.obj r.1, r.2))
        else .error .exceededMaxDepth
      else if c = '[' then
        if depth < maxNestingDepth then
          match skipSpace rest with
          | [] => .error .endOfInput
          | d :: rest' =>
            if d = ']' then .ok (.arr [], rest')
            else
              match parseValue fuel (depth + 1) (d :: rest') with
              | .error e => .error e
              | .ok (v, r1) =>
                (parseElements fuel (depth + 1) r1).map (fun r => (.arr (v :: r.1), r.2))
        else .error .exceededMaxDepth
      else if c = '"' then
        (scanString (rest.length + 1) rest).map (fun r => (.str (String.mk r.1), r.2))
      else if c = '-' ∨ isDigit c then
        (scanNumber (c :: rest)).map (fun r => (.num (String.mk r.1), r.2))
      else if c = 't' then (scanLiteral ['r', 'u', 'e'] rest).map (fun r => (.bool true, r))
      else if c = 'f' then (scanLiteral ['a', 'l', 's', 'e'] rest).map (fun r => (.bool false, r))
      else if c = 'n' then (scanLiteral ['u', 'l', 'l'] rest).map (fun r => (.null, r))
      else .error (.invalidChar c)
/-- The members of an object from a key on, up to and including the closing brace -/
def parseMembers : Nat → Nat → List Char → Except ScanError (List (String × JValue) × List Char)
  | 0, _, _ => .error .fuelExhausted
  | fuel + 1, depth, input =>
    match skipSpace input with
    | [] => .error .endOfInput
    | c :: rest =>
      if c = '"' then
        match scanString (rest.length + 1) rest with
        | .error e => .error e
        | .ok (key, r1) =>
          match skipSpace r1 with
          | [] => .error .endOfInput
          | colon :: r2 =>
            if colon = ':' then
              match parseValue fuel depth r2 with
              | .error e => .error e
              | .ok (v, r3) =>
                match skipSpace r3 with
                | [] => .error .endOfInput
                | sep :: r4 =>
                  if sep = ',' then
                    (parseMembers fuel depth r4).map (fun r => ((String.mk key, v) :: r.1, r.2))
                  else if sep = '}' then .ok ([(String.mk key, v)], r4)
                  else .error (.invalidChar sep)
            else .error (.invalidChar colon)
      else .error (.invalidChar c)
/-- The rest of an array after an element: further elements, each after a
comma, up to and including the closing bracket -/
def parseElements : Nat → Nat → List Char → Except ScanError (List JValue × List Char)
  | 0, _, _ => .error .fuelExhausted
  | fuel + 1, depth, input =>
    match skipSpace input with
    | [] => .error .endOfInput
    | sep :: r1 =>
      if sep = ',' then
        match parseValue fuel depth r1 with
        | .error e => .error e
        | .ok (v, r2) => (parseElements fuel depth r2).map (fun r => (v :: r.1, r.2))
      else if sep = ']' then .ok ([], r1)
      else .error (.invalidChar sep)
end


/-! ## Transport values and errors -/

/-- The `context.Context` handed to a call; the pipeline only passes it on. -/
inductive Context where
  | background
  | other (id : Nat)
  deriving DecidableEq, Repr

/-- The parts of `*http.Request` the library sets or reads. -/
structure Request where
  Method : String
  URL : String
  Header : List (String × String)
  Body : String
  ctx : Context
  deriving DecidableEq, Repr

/-- The parts of `*http.Response` the library reads.  `Body` is the text the
body stream delivers, `BodyErr` the error that ends the stream when it does not
end with `io.EOF`, and `bodyRead` records that the library has read from the
stream. -/
structure Response where
  StatusCode : Int
  Header : List (String × String)
  Body : String
  BodyErr : Option String
  bodyRead : Bool
  Request : Option Request
  deriving DecidableEq, Repr

/-- The zero value of `http.Response`, as allocated by the decoder for a nil
pointer. -/
def Response.zero : Response :=
  { StatusCode := 0, Header := [], Body := "", BodyErr := none, bodyRead := false,
    Request := none }

/-- Go `BaseResponse`: the attached transport response and the `status` field. -/
structure BaseResponse where
  HTTPResponse : Option Response
  Status : String
  deriving DecidableEq, Repr

/-- Go `ErrorResponse`: `BaseResponse` embedded, plus the `message` field. -/
structure ErrorResponse where
  BaseResponse : BaseResponse
  Message : String
  deriving DecidableEq, Repr

/-- Go `error` values that occur in the library. -/
inductive Err where
  /-- Go `io.EOF` -/
  | eof
  /-- Go `io.ErrUnexpectedEOF` -/
  | unexpectedEOF
  /-- Go `*json.SyntaxError` -/
  | jsonSyntax (e : ScanError)
  /-- Go `*json.UnmarshalTypeError`: the JSON value described by `value` does not
  fit the Go type `goType` -/
  | unmarshalType (value : String) (goType : String)
  /-- Go `*strconv.NumError` of function `fn` on input `input` -/
  | numError (fn : String) (input : String)
  /-- Go `*time.ParseError` for the given value -/
  | timeParse (value : String)
  /-- Go `errors.New(msg)` or `fmt.Errorf` without a wrapped error -/
  | text (msg : String)
  /-- Go `fmt.Errorf(pfx + "%w", inner)` -/
  | wrapped (pfx : String) (inner : Err)
  /-- Go `*ErrorResponse` -/
  | errorResponse (r : ErrorResponse)
  /-- An error of the transport or of reading a body, with its text -/
  | transport (msg : String)
  /-- The error of `http.NewRequest` for a method that is not a token -/
  | invalidMethod (method : String)
  /-- Go `*url.Error` of `url.Parse` on the given URL -/
  | urlParse (url : String)
  /-- Not an error value: the run-time panic that ends the call, carried like
  an error that stops the decoder so that it surfaces at the call -/
  | panic (msg : String)
  deriving DecidableEq, Repr

/-- Go `ErrorResponse.Error()`. -/
def ErrorResponse.Error (r : ErrorResponse) : String :=
  match r.BaseResponse.HTTPResponse with
  | none => "Error: " ++ r.Message
  | some resp =>
    match resp.Request with
    | none => "Error: " ++ r.Message
    | some req =>
      req.Method ++ " " ++ req.URL ++ ": " ++ formatInt resp.StatusCode ++ " " ++ r.Message

/-- The text of `Error()` where the embedding computes it: own errors exactly,
standard-library errors only where the text is a fixed string. -/
def Err.Error : Err → Option String
  | .eof => some "EOF"
  | .unexpectedEOF => some "unexpected EOF"
  | .jsonSyntax .endOfInput => some "unexpected end of JSON input"
  | .jsonSyntax _ => none
  | .unmarshalType _ _ => none
  | .numError _ _ => none
  | .timeParse _ => none
  | .text msg => some msg
  | .wrapped pfx inner => (Err.Error inner).map (fun m => pfx ++ m)
  | .errorResponse r => some r.Error
  | .transport msg => some msg
  | .invalidMethod _ => none
  | .urlParse _ => none
  | .panic _ => none

/-! ## Standard-library behaviour used by the codecs -/

/-- A whole JSON document as `json.Unmarshal` accepts it: one value, then only
white space.  The fuel exceeds the number of characters. -/
def parseDocument (data : List Char) : Except ScanError JValue :=
  match parseValue (data.length + 1) 0 data with
  | .error e => .error e
  | .ok (v, rest) =>
    match skipSpace rest with
    | [] => .ok v
    | c :: _ => .error (.invalidChar c)

/-- The next value of a stream as `(*json.Decoder).Decode` reads it.  `data` is
what the stream delivers and `readErr` the error that ends it, if it does not
end with `io.EOF`.  An object or array is complete at its closing bracket;
any other value is complete once a further byte or the end of the stream is
seen.  A stream with nothing but white space ends with `io.EOF`, any other
premature end with `io.ErrUnexpectedEOF`. -/
def decoderReadValue (data : List Char) (readErr : Option String) : Except Err JValue :=
  match parseValue (data.length + 1) 0 data with
  | .ok (.obj ms, _) => .ok (.obj ms)
  | .ok (.arr xs, _) => .ok (.arr xs)
  | .ok (v, []) =>
    match readErr with
    | none => .ok v
    | some e => .error (.transport e)
  | .ok (v, _ :: _) => .ok v
  | .error .endOfInput =>
    match readErr with
    | some e => .error (.transport e)
    | none => if skipSpace data = [] then .error .eof else .error .unexpectedEOF
  | .error .endInToken =>
    match readErr with
    | some e => .error (.transport e)
    | none => .error .unexpectedEOF
  | .error e => .error (.jsonSyntax e)

/-- The value part of `Value` in a `json.UnmarshalTypeError`. -/
def JValue.kind : JValue → String
  | .null => "null"
  | .bool _ => "bool"
  | .num _ => "number"
  | .str _ => "string"
  | .arr _ => "array"
  | .obj _ => "object"

/-- Numeric value of a run of decimal digits, `none` if another character occurs. -/
def digitsValue : List Char → Nat → Option Nat
  | [], acc => some acc
  | c :: rest, acc => if isDigit c then digitsValue rest (acc * 10 + (c.toNat - 48)) else none

/-- Go `strconv.ParseInt(s, 10, 64)`: an optional sign, at least one decimal
digit, nothing else, and a value within the 64-bit signed range. -/
def parseInt64 (s : String) : Option Int :=
  match s.data with
  | [] => none
  | c :: rest =>
    if c = '-' then
      match rest with
      | [] => none
      | _ :: _ =>
        match digitsValue rest 0 with
        | none => none
        | some n => if n ≤ 2 ^ 63 then some (-(n : Int)) else none
    else if c = '+' then
      match rest with
      | [] => none
      | _ :: _ =>
        match digitsValue rest 0 with
        | none => none
        | some n => if n < 2 ^ 63 then some (n : Int) else none
    else
      match digitsValue (c :: rest) 0 with
      | none => none
      | some n => if n < 2 ^ 63 then some (n : Int) else none

/-- Go `strconv.ParseBool`. -/
def parseBool (str : String) : Except Err Bool :=
  if str = "1" ∨ str = "t" ∨ str = "T" ∨ str = "TRUE" ∨ str = "true" ∨ str = "True" then
    .ok true
  else if str = "0" ∨ str = "f" ∨ str = "F" ∨ str = "FALSE" ∨ str = "false"
      ∨ str = "False" then
    .ok false
  else .error (.numError "ParseBool" str)

/-- What the decoder leaves behind for one target: the target as it stands,
the first type error it recorded while going on (`d.saveError`), and the error
that made it stop, if any.  `json.Unmarshal` returns the latter, else the
former. -/
structure Decoded (α : Type) where
  val : α
  saved : Option Err
  fatal : Option Err
  deriving Repr

/-- The error `json.Unmarshal` returns -/
def Decoded.err {α : Type} (d : Decoded α) : Option Err :=
  match d.fatal with
  | some e => some e
  | none => d.saved

/-- Keeps the first recorded error -/
def firstErr : Option Err → Option Err → Option Err
  | some e, _ => some e
  | none, e => e

/-- Storing a JSON value into a Go `string`: a string is stored, `null` leaves
the target alone, any other value records a type error. -/
def decodeString (cur : String) : JValue → Decoded String
  | .null => ⟨cur, none, none⟩
  | .str s => ⟨s, none, none⟩
  | v => ⟨cur, some (.unmarshalType v.kind "string"), none⟩

/-- Storing a JSON value into a Go `int` or `int64` (both 64 bits wide): a
number whose literal `strconv.ParseInt` accepts is stored, `null` leaves the
target alone, any other value records a type error. -/
def decodeInt (goType : String) (cur : Int) : JValue → Decoded Int
  | .null => ⟨cur, none, none⟩
  | .num lit =>
    match parseInt64 lit with
    | some n => ⟨n, none, none⟩
    | none => ⟨cur, some (.unmarshalType ("number " ++ lit) goType), none⟩
  | v => ⟨cur, some (.unmarshalType v.kind goType), none⟩

/-! ## Boolean codecs (`porkbun.go`) -/

/-- Go `BoolString.UnmarshalJSON` on the value the decoder hands over: the value
is stored into `var str string` (an error of that step is returned), then
`strconv.ParseBool(str)` decides. -/
def BoolString.decode (v : JValue) : Except Err Bool :=
  match (decodeString "" v).err with
  | some e => .error e
  | none => parseBool (decodeString "" v).val

/-- Go `BoolString.UnmarshalJSON(data)` on raw bytes: the inner `json.Unmarshal`
first checks that `data` is one JSON value. -/
def BoolString.UnmarshalJSON (data : String) : Except Err Bool :=
  match parseDocument data.data with
  | .error e => .error (.jsonSyntax e)
  | .ok v => BoolString.decode v

/-- Go `BoolNumber.UnmarshalJSON` on the value the decoder hands over: the value
is stored into `var num int` (an error of that step is returned), and the
result is `num == 1`. -/
def BoolNumber.decode (v : JValue) : Except Err Bool :=
  match (decodeInt "int" 0 v).err with
  | some e => .error e
  | none => .ok (decide ((decodeInt "int" 0 v).val = 1))

/-- Go `BoolNumber.UnmarshalJSON(data)` on raw bytes. -/
def BoolNumber.UnmarshalJSON (data : String) : Except Err Bool :=
  match parseDocument data.data with
  | .error e => .error (.jsonSyntax e)
  | .ok v => BoolNumber.decode v

/-! ## Decoding into structs (`encoding/json`) -/

/-- Go `foldRune` of `encoding/json` on the runes that can meet an ASCII field
name: a lower-case ASCII letter folds to its upper-case form, the long s
(U+017F) to `S` and the Kelvin sign (U+212A) to `K`; every other rune folds
within the non-ASCII runes and is left as it is. -/
def foldRune (c : Char) : Char :=
  if 'a' ≤ c ∧ c ≤ 'z' then Char.ofNat (c.toNat - 32)
  else if c = Char.ofNat 0x17F then 'S'
  else if c = Char.ofNat 0x212A then 'K'
  else c

/-- An object key selects the struct field of JSON name `name` (an ASCII
name): the exact name, or failing that a name that is equal after folding. -/
def keyMatches (name key : String) : Bool :=
  key.data.map foldRune == name.data.map foldRune

/-- The members of an object are stored one after the other, in input order; a
recorded type error does not stop the decoder, an error returned by an
`UnmarshalJSON` method does. -/
def decodeMembers {α : Type} (step : α → String → JValue → Decoded α) :
    List (String × JValue) → Decoded α → Decoded α
  | [], d => d
  | (k, v) :: rest, d =>
    match d.fatal with
    | some _ => d
    | none =>
      decodeMembers step rest
        ⟨(step d.val k v).val, firstErr d.saved (step d.val k v).saved, (step d.val k v).fatal⟩

/-- Storing a JSON value into a struct of Go type `goType`: the members of an
object are stored through `step`, `null` leaves the struct alone, any other
value records a type error. -/
def decodeStruct {α : Type} (goType : String) (step : α → String → JValue → Decoded α)
    (cur : α) : JValue → Decoded α
  | .obj ms => decodeMembers step ms ⟨cur, none, none⟩
  | .null => ⟨cur, none, none⟩
  | v => ⟨cur, some (.unmarshalType v.kind goType), none⟩

/-- Behaviour of the Go standard library that the embedding takes as given
instead of computing it. -/
structure Platform where
  /-- The decoder storing the members of a JSON object into an `http.Response`
  (the exported field `HTTPResponse` of `BaseResponse` carries no `json:"-"`
  tag, so the key `HTTPResponse` reaches it) -/
  decodeResponse : List (String × JValue) → Response → Decoded Response
  /-- The error of `url.Parse` on the URL handed to `http.NewRequest`, if any -/
  parseURL : String → Option Err

/-- What the pointer field `HTTPResponse` of the `ErrorResponse` under decoding
points to: nothing, the response of the call (as set by `checkResponse`), or a
response allocated by the decoder. -/
inductive RespPtr where
  | nil
  | shared
  | fresh (r : Response)
  deriving DecidableEq, Repr

/-- The `ErrorResponse` under decoding together with the response object of
the call, which it may share. -/
structure ErrorResponseState where
  Status : String
  Message : String
  ptr : RespPtr
  resp : Response
  deriving DecidableEq, Repr

/-- One member of the error envelope: `status` and `message` are string
fields; `HTTPResponse` is a pointer to `http.Response`, set to nil by `null`,
filled in place by an object (after allocation when nil) and a type error for
any other value; other keys are skipped. -/
def ErrorResponseState.setMember (P : Platform) (st : ErrorResponseState) (key : String)
    (v : JValue) : Decoded ErrorResponseState :=
  if keyMatches "HTTPResponse" key then
    match v with
    | .null => ⟨{ st with ptr := .nil }, none, none⟩
    | .obj ms =>
      match st.ptr with
      | .shared =>
        ⟨{ st with resp := (P.decodeResponse ms st.resp).val },
          (P.decodeResponse ms st.resp).saved, (P.decodeResponse ms st.resp).fatal⟩
      | .nil =>
        ⟨{ st with ptr := .fresh (P.decodeResponse ms Response.zero).val },
          (P.decodeResponse ms Response.zero).saved, (P.decodeResponse ms Response.zero).fatal⟩
      | .fresh r =>
        ⟨{ st with ptr := .fresh (P.decodeResponse ms r).val },
          (P.decodeResponse ms r).saved, (P.decodeResponse ms r).fatal⟩
    | _ => ⟨st, some (.unmarshalType v.kind "http.Response"), none⟩
  else if keyMatches "status" key then
    ⟨{ st with Status := (decodeString st.Status v).val }, (decodeString st.Status v).saved, none⟩
  else if keyMatches "message" key then
    ⟨{ st with Message := (decodeString st.Message v).val },
      (decodeString st.Message v).saved, none⟩
  else ⟨st, none, none⟩

/-- The `ErrorResponse` value a decoding state stands for. -/
def ErrorResponseState.toErrorResponse (st : ErrorResponseState) : ErrorResponse :=
  { BaseResponse :=
      { HTTPResponse :=
          match st.ptr with
          | .nil => none
          | .shared => some st.resp
          | .fresh r => some r
        Status := st.Status }
    Message := st.Message }

/-! ## `net/http` status texts -/

/-- Go `http.StatusText`: the reason phrase of a known status code, the empty
string for any other code. -/
def StatusText (code : Int) : String :=
  match code with
  | 100 => "Continue"
  | 101 => "Switching Protocols"
  | 102 => "Processing"
  | 103 => "Early Hints"
  | 200 => "OK"
  | 201 => "Created"
  | 202 => "Accepted"
  | 203 => "Non-Authoritative Information"
  | 204 => "No Content"
  | 205 => "Reset Content"
  | 206 => "Partial Content"
  | 207 => "Multi-Status"
  | 208 => "Already Reported"
  | 226 => "IM Used"
  | 300 => "Multiple Choices"
  | 301 => "Moved Permanently"
  | 302 => "Found"
  | 303 => "See Other"
  | 304 => "Not Modified"
  | 305 => "Use Proxy"
  | 307 => "Temporary Redirect"
  | 308 => "Permanent Redirect"
  | 400 => "Bad Request"
  | 401 => "Unauthorized"
  | 402 => "Payment Required"
  | 403 => "Forbidden"
  | 404 => "Not Found"
  | 405 => "Method Not Allowed"
  | 406 => "Not Acceptable"
  | 407 => "Proxy Authentication Required"
  | 408 => "Request Timeout"
  | 409 => "Conflict"
  | 410 => "Gone"
  | 411 => "Length Required"
  | 412 => "Precondition Failed"
  | 413 => "Request Entity Too Large"
  | 414 => "Request URI Too Long"
  | 415 => "Unsupported Media Type"
  | 416 => "Requested Range Not Satisfiable"
  | 417 => "Expectation Failed"
  | 418 => "I" ++ String.singleton (Char.ofNat 39) ++ "m a teapot"
  | 421 => "Misdirected Request"
  | 422 => "Unprocessable Entity"
  | 423 => "Locked"
  | 424 => "Failed Dependency"
  | 425 => "Too Early"
  | 426 => "Upgrade Required"
  | 428 => "Precondition Required"
  | 429 => "Too Many Requests"
  | 431 => "Request Header Fields Too Large"
  | 451 => "Unavailable For Legal Reasons"
  | 500 => "Internal Server Error"
  | 501 => "Not Implemented"
  | 502 => "Bad Gateway"
  | 503 => "Service Unavailable"
  | 504 => "Gateway Timeout"
  | 505 => "HTTP Version Not Supported"
  | 506 => "Variant Also Negotiates"
  | 507 => "Insufficient Storage"
  | 508 => "Loop Detected"
  | 510 => "Not Extended"
  | 511 => "Network Authentication Required"
  | _ => ""

/-! ## Response classification (`client.go`) -/

/-- The error of `json.NewDecoder(resp.Body).Decode(errorResponse)` and the
decoding state it leaves: the first value of the body is read and stored into
the `ErrorResponse`, which points to the response of the call. -/
def decodeErrorResponse (P : Platform) (resp : Response) : Option Err × ErrorResponseState :=
  match decoderReadValue resp.Body.data resp.BodyErr with
  | .error e => (some e, ⟨"", "", .shared, resp⟩)
  | .ok v =>
    ((decodeStruct "porkbun.ErrorResponse" (ErrorResponseState.setMember P)
        ⟨"", "", .shared, resp⟩ v).err,
     (decodeStruct "porkbun.ErrorResponse" (ErrorResponseState.setMember P)
        ⟨"", "", .shared, resp⟩ v).val)

/-- Go `checkResponse(resp)`: the returned error (`none` for nil) and the response
object as the call leaves it (its body has been read from when the status is
not 200). -/
def checkResponse (P : Platform) (resp : Response) : Option Err × Response :=
  if resp.StatusCode = 200 then (none, resp)
  else
    match decodeErrorResponse P { resp with bodyRead := true } with
    | (some err, st) =>
      if err ≠ Err.eof then
        (some (.text ("HTTP error " ++ formatInt st.resp.StatusCode ++ ": "
            ++ StatusText st.resp.StatusCode)), st.resp)
      else (some (.errorResponse st.toErrorResponse), st.resp)
    | (none, st) => (some (.errorResponse st.toErrorResponse), st.resp)

/-! ## Encoding (`encoding/json`, as used by `json.NewEncoder(body).Encode`) -/

/-- The lower-case hexadecimal digit of a value below 16 -/
def hexDigit (n : Nat) : Char :=
  if n < 10 then Char.ofNat (48 + n) else Char.ofNat (87 + n)

/-- One character of a string as the encoder writes it, with HTML escaping on
(the default of an `Encoder`): quote and backslash get a backslash, control
characters are written as `\b`, `\f`, `\n`, `\r`, `\t` or `\u00XX`, the
characters `<`, `>`, `&` and U+2028, U+2029 as a `\u` escape with four
lower-case hexadecimal digits. -/
def escapeChar (c : Char) : List Char :=
  if c = '"' then ['\\', '"']
  else if c = '\\' then ['\\', '\\']
  else if c = Char.ofNat 8 then ['\\', 'b']
  else if c = Char.ofNat 12 then ['\\', 'f']
  else if c = '\n' then ['\\', 'n']
  else if c = '\r' then ['\\', 'r']
  else if c = '\t' then ['\\', 't']
  else if c.toNat < 0x20 ∨ c = '<' ∨ c = '>' ∨ c = '&' then
    ['\\', 'u', '0', '0', hexDigit (c.toNat / 16), hexDigit (c.toNat % 16)]
  else if c = Char.ofNat 0x2028 then ['\\', 'u', '2', '0', '2', '8']
  else if c = Char.ofNat 0x2029 then ['\\', 'u', '2', '0', '2', '9']
  else [c]

/-- A string as a JSON string literal -/
def quoteString (s : String) : List Char :=
  '"' :: (s.data.map escapeChar).flatten ++ ['"']

mutual
/-- The compact JSON text of a value -/
def JValue.render : JValue → List Char
  | .null => "null".data
  | .bool true => "true".data
  | .bool false => "false".data
  | .num lit => lit.data
  | .str s => quoteString s
  | .arr [] => "[]".data
  | .arr (x :: xs) => '[' :: x.render ++ JValue.renderElements xs
  | .obj [] => "{}".data
  | .obj ((k, v) :: ms) => '{' :: quoteString k ++ ':' :: v.render ++ JValue.renderMembers ms
/-- The elements after the first, each after a comma, and the closing bracket -/
def JValue.renderElements : List JValue → List Char
  | [] => [']']
  | x :: xs => ',' :: x.render ++ JValue.renderElements xs
/-- The members after the first, each after a comma, and the closing brace -/
def JValue.renderMembers : List (String × JValue) → List Char
  | [] => ['}']
  | (k, v) :: ms => ',' :: quoteString k ++ ':' :: v.render ++ JValue.renderMembers ms
end

/-! ## Request values (`porkbun.go`, `dns.go`, `domains*.go`, `ssl.go`, `ping.go`) -/

/-- Go `BaseRequest`. -/
structure BaseRequest where
  SecretApiKey : String
  Apikey : String
  deriving DecidableEq, Repr

/-- Go `(*BaseRequest).SetCredentials`. -/
def BaseRequest.SetCredentials (_br : BaseRequest) (apiKey secretApiKey : String) :
    BaseRequest :=
  { Apikey := apiKey, SecretApiKey := secretApiKey }

/-- Go `DnsRecord`; `ID` is a `*int64`, `Type` a `DnsRecordType`. -/
structure DnsRecord where
  ID : Option Int
  Name : String
  Type_ : String
  Content : String
  TTL : String
  Prio : String
  Notes : String
  deriving DecidableEq, Repr

/-- Go `EditRecord`. -/
structure EditRecord where
  Name : String
  Type_ : String
  Content : String
  TTL : String
  Prio : String
  deriving DecidableEq, Repr

/-- Go `EditTypeRecord`. -/
structure EditTypeRecord where
  Content : String
  TTL : String
  Prio : String
  deriving DecidableEq, Repr

/-- Go `UrlForward`; `Type` is a `ForwardType`. -/
structure UrlForward where
  Subdomain : String
  Location : String
  Type_ : String
  IncludePath : String
  Wildcard : String
  deriving DecidableEq, Repr

/-- The request values the endpoint methods hand to `post` as `payload`: one
constructor per request struct, each with its embedded `BaseRequest`.  An
embedded pointer (`*DnsRecord`, `*EditRecord`, `*EditTypeRecord`,
`*UrlForward`) and the `*string` options may be nil, and a `NameServers` slice
may be nil. -/
inductive CredentialRequest where
  | ping (b : BaseRequest)
  | listDomains (b : BaseRequest) (Start IncludeLabels : Option String)
  | getNameServers (b : BaseRequest)
  | updateNameServers (b : BaseRequest) (NS : Option (List String))
  | getDomainURLForwarding (b : BaseRequest)
  | addDomainUrlForward (b : BaseRequest) (f : Option UrlForward)
  | deleteDomainUrlForward (b : BaseRequest)
  | getRecords (b : BaseRequest)
  | createRecord (b : BaseRequest) (r : Option DnsRecord)
  | editRecord (b : BaseRequest) (r : Option EditRecord)
  | editRecordType (b : BaseRequest) (r : Option EditTypeRecord)
  | deleteRecord (b : BaseRequest)
  | sslRetrieve (b : BaseRequest)
  deriving DecidableEq, Repr

/-- The embedded `BaseRequest` of a request value. -/
def CredentialRequest.base : CredentialRequest → BaseRequest
  | .ping b => b
  | .listDomains b _ _ => b
  | .getNameServers b => b
  | .updateNameServers b _ => b
  | .getDomainURLForwarding b => b
  | .addDomainUrlForward b _ => b
  | .deleteDomainUrlForward b => b
  | .getRecords b => b
  | .createRecord b _ => b
  | .editRecord b _ => b
  | .editRecordType b _ => b
  | .deleteRecord b => b
  | .sslRetrieve b => b

/-- Go `SetCredentials` as promoted from the embedded `BaseRequest`: the embedded
value is replaced, the other fields stay. -/
def CredentialRequest.SetCredentials (r : CredentialRequest) (apiKey secretApiKey : String) :
    CredentialRequest :=
  match r with
  | .ping b => .ping (b.SetCredentials apiKey secretApiKey)
  | .listDomains b s i => .listDomains (b.SetCredentials apiKey secretApiKey) s i
  | .getNameServers b => .getNameServers (b.SetCredentials apiKey secretApiKey)
  | .updateNameServers b ns => .updateNameServers (b.SetCredentials apiKey secretApiKey) ns
  | .getDomainURLForwarding b => .getDomainURLForwarding (b.SetCredentials apiKey secretApiKey)
  | .addDomainUrlForward b f => .addDomainUrlForward (b.SetCredentials apiKey secretApiKey) f
  | .deleteDomainUrlForward b => .deleteDomainUrlForward (b.SetCredentials apiKey secretApiKey)
  | .getRecords b => .getRecords (b.SetCredentials apiKey secretApiKey)
  | .createRecord b r => .createRecord (b.SetCredentials apiKey secretApiKey) r
  | .editRecord b r => .editRecord (b.SetCredentials apiKey secretApiKey) r
  | .editRecordType b r => .editRecordType (b.SetCredentials apiKey secretApiKey) r
  | .deleteRecord b => .deleteRecord (b.SetCredentials apiKey secretApiKey)
  | .sslRetrieve b => .sslRetrieve (b.SetCredentials apiKey secretApiKey)

/-- A member that is written only when the string is not empty (`omitempty`) -/
def omitEmpty (key : String) (s : String) : List (String × JValue) :=
  if s = "" then [] else [(key, .str s)]

/-- A `*string` member with `omitempty`: written only when the pointer is not nil -/
def omitNil (key : String) (s : Option String) : List (String × JValue) :=
  match s with
  | none => []
  | some v => [(key, .str v)]

/-- The members of `BaseRequest`, in field order -/
def BaseRequest.members (b : BaseRequest) : List (String × JValue) :=
  [("secretapikey", .str b.SecretApiKey), ("apikey", .str b.Apikey)]

/-- The members of `DnsRecord`, in field order -/
def DnsRecord.members (r : DnsRecord) : List (String × JValue) :=
  (match r.ID with
    | none => []
    | some n => [("id", JValue.num (formatInt n))])
  ++ [("name", .str r.Name), ("type", .str r.Type_), ("content", .str r.Content)]
  ++ omitEmpty "ttl" r.TTL ++ omitEmpty "prio" r.Prio ++ omitEmpty "notes" r.Notes

/-- The members of `EditRecord`, in field order -/
def EditRecord.members (r : EditRecord) : List (String × JValue) :=
  [("name", .str r.Name), ("type", .str r.Type_), ("content", .str r.Content)]
  ++ omitEmpty "ttl" r.TTL ++ omitEmpty "prio" r.Prio

/-- The members of `EditTypeRecord`, in field order -/
def EditTypeRecord.members (r : EditTypeRecord) : List (String × JValue) :=
  [("content", .str r.Content)] ++ omitEmpty "ttl" r.TTL ++ omitEmpty "prio" r.Prio

/-- The members of `UrlForward`, in field order -/
def UrlForward.members (f : UrlForward) : List (String × JValue) :=
  [("subdomain", .str f.Subdomain), ("location", .str f.Location), ("type", .str f.Type_),
    ("includePath", .str f.IncludePath), ("wildcard", .str f.Wildcard)]

/-- Members of an embedded struct pointer: none when the pointer is nil -/
def embedded {α : Type} (members : α → List (String × JValue)) : Option α →
    List (String × JValue)
  | none => []
  | some r => members r

/-- The members the encoder writes for a request value: the fields of the
embedded structs and the own fields, in declaration order. -/
def CredentialRequest.members : CredentialRequest → List (String × JValue)
  | .ping b => b.members
  | .listDomains b s i => b.members ++ omitNil "start" s ++ omitNil "includeLabels" i
  | .getNameServers b => b.members
  | .updateNameServers b ns =>
    b.members ++ [("ns", match ns with
      | none => .null
      | some l => .arr (l.map JValue.str))]
  | .getDomainURLForwarding b => b.members
  | .addDomainUrlForward b f => b.members ++ embedded UrlForward.members f
  | .deleteDomainUrlForward b => b.members
  | .getRecords b => b.members
  | .createRecord b r => b.members ++ embedded DnsRecord.members r
  | .editRecord b r => b.members ++ embedded EditRecord.members r
  | .editRecordType b r => b.members ++ embedded EditTypeRecord.members r
  | .deleteRecord b => b.members
  | .sslRetrieve b => b.members

/-- A `payload interface{}` of `newRequest`: a request value with the
`ApiKeyAcceptor` capability, or any other value, given by what
`json.Marshal` makes of it. -/
inductive Payload where
  | credential (r : CredentialRequest)
  | plain (json : Except Err JValue)
  deriving Repr

/-! ## Client and request pipeline (`client.go`) -/

def Version : String := "1.0.0"
def defaultBaseURL : String := "https://api.porkbun.com/api/json/v3"
def ipv4OnlyBaseURL : String := "https://api-ipv4.porkbun.com/api/json/v3"
def defaultUserAgent : String := "porkbun-go/" ++ Version

/-- Go `HTTPClient`: the `Do` method of the injected transport. -/
abbrev HTTPClient : Type := Request → Except Err Response

/-- Go `Options`. -/
structure Options where
  HttpClient : Option HTTPClient
  ApiKey : String
  SecretApiKey : String
  IPv4Only : Bool
  UserAgent : String

/-- Go `Client` (the service handles only point back to the client). -/
structure Client where
  httpClient : HTTPClient
  baseURL : String
  userAgent : String
  secret : String
  apiKey : String

/-- Go `NewClient(options)`; `defaultClient` stands for `&http.Client{}`. -/
def NewClient (defaultClient : HTTPClient) (options : Options) : Client :=
  { httpClient :=
      match options.HttpClient with
      | some h => h
      | none => defaultClient
    apiKey := options.ApiKey
    secret := options.SecretApiKey
    userAgent := options.UserAgent
    baseURL := if options.IPv4Only then ipv4OnlyBaseURL else defaultBaseURL }

/-- Go `formatUserAgent(customUserAgent)`. -/
def formatUserAgent (customUserAgent : String) : String :=
  if customUserAgent = "" then defaultUserAgent
  else customUserAgent ++ " " ++ defaultUserAgent

/-- Token characters of an HTTP method (`net/http`): ASCII letters, digits and
the punctuation of RFC 7230 tokens -/
def isTokenChar (c : Char) : Bool :=
  ('a' ≤ c && c ≤ 'z') || ('A' ≤ c && c ≤ 'Z') || ('0' ≤ c && c ≤ '9')
    || "!#$%&*+-.^_|~".data.contains c || c == Char.ofNat 39 || c == Char.ofNat 96

/-- Go `http.NewRequest(method, url, body)`: an empty method stands for `GET`,
the method must be a token and the URL must parse; the request carries the
background context. -/
def httpNewRequest (P : Platform) (method url body : String) : Except Err Request :=
  if ¬ ((if method = "" then "GET" else method).data.all isTokenChar) then
    .error (.invalidMethod method)
  else
    match P.parseURL url with
    | some e => .error e
    | none =>
      .ok { Method := if method = "" then "GET" else method, URL := url, Header := [],
            Body := body, ctx := .background }

/-- The bytes `json.NewEncoder(body).Encode(payload)` writes: the compact JSON
text of the payload and a newline; a request value with the `ApiKeyAcceptor`
capability first receives the credentials of the client. -/
def encodePayload (apiKey secret : String) : Payload → Except Err String
  | .credential r =>
    .ok (String.mk ((JValue.obj (r.SetCredentials apiKey secret).members).render ++ ['\n']))
  | .plain (.ok v) => .ok (String.mk (v.render ++ ['\n']))
  | .plain (.error e) => .error e

/-- Go `(*Client).newRequest(method, path, payload)`. -/
def Client.newRequest (P : Platform) (c : Client) (method path : String)
    (payload : Option Payload) : Except Err Request :=
  match (match payload with
      | none => Except.ok ""
      | some p => encodePayload c.apiKey c.secret p) with
  | .error e => .error e
  | .ok body =>
    match httpNewRequest P method (c.baseURL ++ path) body with
    | .error e => .error e
    | .ok req =>
      .ok { req with Header := [("Content-Type", "application/json"),
                                 ("Accept", "application/json"),
                                 ("User-Agent", formatUserAgent c.userAgent)] }

/-- Go `json.Unmarshal(raw, obj)`: `raw` must be one JSON document; the value is
then stored into the target, which keeps what was stored before an error. -/
def unmarshal {α : Type} (decode : α → JValue → Decoded α) (raw : String) (obj : α) :
    α × Option Err :=
  match parseDocument raw.data with
  | .error e => (obj, some (.jsonSyntax e))
  | .ok v => ((decode obj v).val, (decode obj v).err)

/-- What a call of the pipeline leaves: the returned response and error, the
decode target as it stands, and the requests handed to the transport. -/
structure CallResult (α : Type) where
  resp : Option Response
  err : Option Err
  obj : α
  sent : List Request

/-- Go `(*Client).request(ctx, req, obj)`.  `decode` is `none` for a nil `obj`,
else the way the decoder stores a value into the target `obj`. -/
def Client.request {α : Type} (P : Platform) (c : Client) (ctx : Option Context)
    (req : Request) (decode : Option (α → JValue → Decoded α)) (obj : α) : CallResult α :=
  match ctx with
  | none => ⟨none, some (.text "context must be non-nil"), obj, []⟩
  | some cx =>
    match c.httpClient { req with ctx := cx } with
    | .error e => ⟨none, some e, obj, [{ req with ctx := cx }]⟩
    | .ok resp =>
      match checkResponse P resp with
      | (some err, resp1) => ⟨some resp1, some err, obj, [{ req with ctx := cx }]⟩
      | (none, resp1) =>
        match decode with
        | none => ⟨some resp1, none, obj, [{ req with ctx := cx }]⟩
        | some dec =>
          match resp1.BodyErr with
          | some e => ⟨none, some (.transport e), obj, [{ req with ctx := cx }]⟩
          | none =>
            ⟨some { resp1 with bodyRead := true }, (unmarshal dec resp1.Body obj).2,
              (unmarshal dec resp1.Body obj).1, [{ req with ctx := cx }]⟩

/-- Go `(*Client).makeRequest(ctx, method, path, payload, obj)`. -/
def Client.makeRequest {α : Type} (P : Platform) (c : Client) (ctx : Option Context)
    (method path : String) (payload : Option Payload)
    (decode : Option (α → JValue → Decoded α)) (obj : α) : CallResult α :=
  match c.newRequest P method path payload with
  | .error e => ⟨none, some e, obj, []⟩
  | .ok req =>
    match (c.request P ctx req decode obj).err with
    | some e => ⟨none, some e, (c.request P ctx req decode obj).obj,
        (c.request P ctx req decode obj).sent⟩
    | none => ⟨(c.request P ctx req decode obj).resp, none,
        (c.request P ctx req decode obj).obj, (c.request P ctx req decode obj).sent⟩

/-- Go `(*Client).post(ctx, path, payload, obj)`. -/
def Client.post {α : Type} (P : Platform) (c : Client) (ctx : Option Context)
    (path : String) (payload : Option Payload)
    (decode : Option (α → JValue → Decoded α)) (obj : α) : CallResult α :=
  c.makeRequest P ctx "POST" path payload decode obj

/-! ## Endpoint methods (`ping.go`, `domains*.go`, `dns.go`, `ssl.go`, `pricing.go`) -/

/-- Go `DomainListOptions`. -/
structure DomainListOptions where
  Start : Option String
  IncludeLabels : Option String
  deriving DecidableEq, Repr

/-- A call of an endpoint method with its arguments other than the context.
Pointer arguments are `Option`s; `UpdateNameServers` dereferences its pointer,
so its argument is the slice itself (nil or not). -/
inductive EndpointCall where
  | Ping
  | ListDomains (options : Option DomainListOptions)
  | GetNameServers (domain : String)
  | UpdateNameServers (domain : String) (newNameservers : Option (List String))
  | GetDomainURLForwarding (domain : String)
  | AddDomainUrlForward (domain : String) (forwardAttributes : Option UrlForward)
  | DeleteDomainUrlForward (domain : String) (recordId : String)
  | GetRecords (domain : String) (recordId : Option Int)
  | GetRecordsByType (domain : String) (recordType : String) (subdomain : Option String)
  | CreateRecord (domain : String) (record : Option DnsRecord)
  | EditRecord (domain : String) (recordId : Int) (record : Option EditRecord)
  | EditRecordByType (domain : String) (recordType : String) (subdomain : Option String)
      (record : Option EditTypeRecord)
  | DeleteRecord (domain : String) (recordId : Int)
  | DeleteRecordByType (domain : String) (recordType : String) (subdomain : Option String)
  | SslRetrieve (domain : String)
  | ListPricing
  deriving DecidableEq, Repr

/-- A `*string` argument as a path segment -/
def strPtr (s : Option String) : Any := .ptr (s.map Scalar.str)

/-- The path each endpoint method builds. -/
def EndpointCall.path : EndpointCall → String
  | .Ping => "/ping"
  | .ListDomains _ => domainPath "listAll" []
  | .GetNameServers domain => domainPath "getNs" [.val (.str domain)]
  | .UpdateNameServers domain _ => domainPath "updateNs" [.val (.str domain)]
  | .GetDomainURLForwarding domain => domainPath "getUrlForwarding" [.val (.str domain)]
  | .AddDomainUrlForward domain _ => domainPath "addUrlForward" [.val (.str domain)]
  | .DeleteDomainUrlForward domain recordId =>
    domainPath "deleteUrlForward" [.val (.str domain), .val (.str recordId)]
  | .GetRecords domain recordId =>
    dnsPath "retrieve" [.val (.str domain), .ptr (recordId.map Scalar.int64)]
  | .GetRecordsByType domain recordType subdomain =>
    dnsPath "retrieveByNameType"
      [.val (.str domain), .val (.recordType recordType), strPtr subdomain]
  | .CreateRecord domain _ => dnsPath "create" [.val (.str domain)]
  | .EditRecord domain recordId _ => dnsPath "edit" [.val (.str domain), .val (.int64 recordId)]
  | .EditRecordByType domain recordType subdomain _ =>
    dnsPath "editByNameType"
      [.val (.str domain), .val (.recordType recordType), strPtr subdomain]
  | .DeleteRecord domain recordId =>
    dnsPath "delete" [.val (.str domain), .val (.int64 recordId)]
  | .DeleteRecordByType domain recordType subdomain =>
    dnsPath "deleteByNameType"
      [.val (.str domain), .val (.recordType recordType), strPtr subdomain]
  | .SslRetrieve domain => sslPath "retrieve" [.val (.str domain)]
  | .ListPricing => "/pricing/get"

/-- The zero `BaseRequest` of a freshly made request value -/
def BaseRequest.zero : BaseRequest := { SecretApiKey := "", Apikey := "" }

/-- The request value each endpoint method hands to `post`; `ListPricing`
passes nil. -/
def EndpointCall.payload : EndpointCall → Option Payload
  | .Ping => some (.credential (.ping .zero))
  | .ListDomains none => some (.credential (.listDomains .zero none none))
  | .ListDomains (some o) => some (.credential (.listDomains .zero o.Start o.IncludeLabels))
  | .GetNameServers _ => some (.credential (.getNameServers .zero))
  | .UpdateNameServers _ ns => some (.credential (.updateNameServers .zero ns))
  | .GetDomainURLForwarding _ => some (.credential (.getDomainURLForwarding .zero))
  | .AddDomainUrlForward _ f => some (.credential (.addDomainUrlForward .zero f))
  | .DeleteDomainUrlForward _ _ => some (.credential (.deleteDomainUrlForward .zero))
  | .GetRecords _ _ => some (.credential (.getRecords .zero))
  | .GetRecordsByType _ _ _ => some (.credential (.getRecords .zero))
  | .CreateRecord _ r => some (.credential (.createRecord .zero r))
  | .EditRecord _ _ r => some (.credential (.editRecord .zero r))
  | .EditRecordByType _ _ _ r => some (.credential (.editRecordType .zero r))
  | .DeleteRecord _ _ => some (.credential (.deleteRecord .zero))
  | .DeleteRecordByType _ _ _ => some (.credential (.deleteRecord .zero))
  | .SslRetrieve _ => some (.credential (.sslRetrieve .zero))
  | .ListPricing => none

/-- The typed response of an endpoint method: its zero value (`&T{}`), the way
the decoder stores a JSON value into it, and the assignment
`response.HTTPResponse = resp`. -/
structure ResponseType (α : Type) where
  zero : α
  decode : α → JValue → Decoded α
  attach : α → Option Response → α

/-- What an endpoint method returns: the typed response (`none` for a nil
pointer) and the error, together with the requests handed to the transport. -/
structure EndpointResult (α : Type) where
  response : Option α
  err : Option Err
  sent : List Request

/-- The body shared by the endpoint methods: `post` to the path with the
request value and the zero response as decode target; on error the response is
returned as it stands (`ListPricing` returns nil instead), otherwise the
transport response is attached to it. -/
def Client.call {α : Type} (P : Platform) (c : Client) (ctx : Option Context)
    (e : EndpointCall) (t : ResponseType α) : EndpointResult α :=
  let r := c.post P ctx e.path e.payload (some t.decode) t.zero
  match r.err with
  | some err => ⟨if e = .ListPricing then none else some r.obj, some err, r.sent⟩
  | none => ⟨some (t.attach r.obj r.resp), none, r.sent⟩

/-! ## Typed responses (`porkbun.go`, `ping.go`, `dns.go`) -/

/-- Storing a JSON value into the pointer field `HTTPResponse`: `null` sets it
to nil, an object is stored into the response it points to (allocated first
when nil), any other value records a type error. -/
def decodeResponsePtr (P : Platform) (cur : Option Response) : JValue → Decoded (Option Response)
  | .null => ⟨none, none, none⟩
  | .obj ms =>
    ⟨some (P.decodeResponse ms (cur.getD Response.zero)).val,
      (P.decodeResponse ms (cur.getD Response.zero)).saved,
      (P.decodeResponse ms (cur.getD Response.zero)).fatal⟩
  | v => ⟨cur, some (.unmarshalType v.kind "http.Response"), none⟩

/-- One member stored into a `BaseResponse`: the fields `HTTPResponse` and
`status`; `none` when the key selects neither. -/
def BaseResponse.setMember (P : Platform) (b : BaseResponse) (key : String) (v : JValue) :
    Option (Decoded BaseResponse) :=
  if keyMatches "HTTPResponse" key then
    some ⟨{ b with HTTPResponse := (decodeResponsePtr P b.HTTPResponse v).val },
      (decodeResponsePtr P b.HTTPResponse v).saved, (decodeResponsePtr P b.HTTPResponse v).fatal⟩
  else if keyMatches "status" key then
    some ⟨{ b with Status := (decodeString b.Status v).val }, (decodeString b.Status v).saved,
      none⟩
  else none

/-- Go `PingResponse`. -/
structure PingResponse where
  BaseResponse : BaseResponse
  YourIP : String
  deriving DecidableEq, Repr

/-- One member stored into a `PingResponse`. -/
def PingResponse.setMember (P : Platform) (r : PingResponse) (key : String) (v : JValue) :
    Decoded PingResponse :=
  match BaseResponse.setMember P r.BaseResponse key v with
  | some d => ⟨{ r with BaseResponse := d.val }, d.saved, d.fatal⟩
  | none =>
    if keyMatches "yourIp" key then
      ⟨{ r with YourIP := (decodeString r.YourIP v).val }, (decodeString r.YourIP v).saved, none⟩
    else ⟨r, none, none⟩

/-- The response type of `Ping`. -/
def PingResponse.type (P : Platform) : ResponseType PingResponse where
  zero := ⟨⟨none, ""⟩, ""⟩
  decode := decodeStruct "porkbun.PingResponse" (PingResponse.setMember P)
  attach := fun r resp => { r with BaseResponse := { r.BaseResponse with HTTPResponse := resp } }

/-- Go `DeleteRecordResponse`: the embedded `BaseResponse` only. -/
structure DeleteRecordResponse where
  BaseResponse : BaseResponse
  deriving DecidableEq, Repr

/-- One member stored into a `DeleteRecordResponse`. -/
def DeleteRecordResponse.setMember (P : Platform) (r : DeleteRecordResponse) (key : String)
    (v : JValue) : Decoded DeleteRecordResponse :=
  match BaseResponse.setMember P r.BaseResponse key v with
  | some d => ⟨{ BaseResponse := d.val }, d.saved, d.fatal⟩
  | none => ⟨r, none, none⟩

/-- The response type of `DeleteRecord` and `DeleteRecordByType`. -/
def DeleteRecordResponse.type (P : Platform) : ResponseType DeleteRecordResponse where
  zero := ⟨⟨none, ""⟩⟩
  decode := decodeStruct "porkbun.DeleteRecordResponse" (DeleteRecordResponse.setMember P)
  attach := fun r resp => { BaseResponse := { r.BaseResponse with HTTPResponse := resp } }

/-! ## A concrete platform and helpers of the statements -/

/-- The check of percent escapes that `url.Parse` applies to a path or
fragment: every `%` is followed by two hexadecimal digits. -/
def validEscapes : List Char → Bool
  | [] => true
  | c :: rest =>
    if c = '%' then
      match rest with
      | a :: b :: rest2 => (hexVal a).isSome && (hexVal b).isSome && validEscapes rest2
      | _ => false
    else validEscapes rest

/-- The text before the first occurrence of a character. -/
def beforeChar (c : Char) (l : List Char) : List Char :=
  l.takeWhile (fun d => d != c)

/-- The text after the first occurrence of a character (empty when absent). -/
def afterChar (c : Char) (l : List Char) : List Char :=
  (l.dropWhile (fun d => d != c)).drop 1

/-- The checks of `url.Parse` that can fail on a URL made of a scheme, a host
of letters, digits, `.` and `-`, and a path with optional query and fragment
(the shape of every URL built from the two base URLs): no ASCII control
character before the fragment, and well-formed percent escapes in the path and
in the fragment. -/
def Platform.sampleParseURL (url : String) : Option Err :=
  if (beforeChar '#' url.data).any (fun c => c.toNat < 0x20 || c.toNat == 0x7f) then
    some (.urlParse url)
  else if ¬ validEscapes (beforeChar '?' (beforeChar '#' url.data)) then some (.urlParse url)
  else if ¬ validEscapes (afterChar '#' url.data) then some (.urlParse url)
  else none

/-- A platform on which the definitions can be evaluated: `url.Parse` is given
by `Platform.sampleParseURL`, and of the fields of `http.Response` the decoder
stores `StatusCode`.  The theorems below hold for every platform. -/
def Platform.sample : Platform where
  decodeResponse := fun ms r =>
    decodeMembers
      (fun (r : Response) k v =>
        if keyMatches "StatusCode" k then
          ⟨{ r with StatusCode := (decodeInt "int" r.StatusCode v).val },
            (decodeInt "int" r.StatusCode v).saved, none⟩
        else ⟨r, none, none⟩)
      ms ⟨r, none, none⟩
  parseURL := Platform.sampleParseURL

/-- The string a struct field of JSON name `name` holds after the members of an
object have been stored one after the other, starting from `cur`. -/
def storeLast (name : String) : List (String × JValue) → String → String
  | [], cur => cur
  | (k, v) :: rest, cur =>
    storeLast name rest (if keyMatches name k then (decodeString cur v).val else cur)

/-- The members of an object whose key selects the field of JSON name `name`. -/
def membersFor (name : String) (ms : List (String × JValue)) : List (String × JValue) :=
  ms.filter (fun kv => keyMatches name kv.1)

/-- A transport that answers every request with the given status code and
body, and attaches the request to the response. -/
def fixedTransport (code : Int) (body : String) : HTTPClient :=
  fun req =>
    .ok { StatusCode := code, Header := [], Body := body, BodyErr := none, bodyRead := false,
          Request := some req }

/-- A client with credentials `1234` / `5678`, as set up by the tests, on the
default base URL and the given transport. -/
def testClient (h : HTTPClient) : Client :=
  { httpClient := h, baseURL := defaultBaseURL, userAgent := "", secret := "5678",
    apiKey := "1234" }

/-- The value holds an object under a key that selects the field
`HTTPResponse`, so that decoding it reaches into the attached response. -/
def addressesResponse : JValue → Bool
  | .obj ms =>
    ms.any (fun kv => keyMatches "HTTPResponse" kv.1 &&
      (match kv.2 with
        | .obj _ => true
        | _ => false))
  | _ => false

/-- The error, if any, is a `json.UnmarshalTypeError`. -/
def IsTypeErr (o : Option Err) : Prop :=
  ∀ e, o = some e → ∃ a b, e = Err.unmarshalType a b

/-- The words `strconv.ParseBool` reads as true. -/
def boolTrueWords : List String := ["1", "t", "T", "TRUE", "true", "True"]

/-- The words `strconv.ParseBool` reads as false. -/
def boolFalseWords : List String := ["0", "f", "F", "FALSE", "false", "False"]

/-- The bounds of `int64` (and of `int` on a 64-bit platform). -/
def inInt64 (n : Int) : Prop := -(2 : Int) ^ 63 ≤ n ∧ n < (2 : Int) ^ 63

instance (n : Int) : Decidable (inInt64 n) := by
  unfold inInt64; infer_instance

/-! ## Helpers of the round-trip statements -/

/-- A character that ends a number literal. -/
def endsNumber (d : Char) : Prop :=
  isDigit d = false ∧ d ≠ '.' ∧ d ≠ 'e' ∧ d ≠ 'E'

/-- The values the request encoders write as members: a string, `null`, an
integer in base 10, or an array of strings. -/
inductive FlatValue : JValue → Prop where
  | str (s : String) : FlatValue (.str s)
  | null : FlatValue .null
  | int (n : Int) : FlatValue (.num (formatInt n))
  | strs (l : List String) : FlatValue (.arr (l.map JValue.str))

/-- Fuel that parsing a flat value takes. -/
def vsize : JValue → Nat
  | .arr xs => xs.length + 2
  | _ => 1

/-- Fuel that parsing a list of members takes. -/
def msize : List (String × JValue) → Nat
  | [] => 1
  | (_, v) :: ms => vsize v + 1 + msize ms

/-- A character that follows a value inside an array or object. -/
def endsValue (d : Char) : Prop := d = ',' ∨ d = '}' ∨ d = ']'

/-- The value a JSON object holds under a key once decoded into a Go map
(`map[string]interface{}`): the value of the last member with that key. -/
def objectGet (key : String) : List (String × JValue) → Option JValue
  | [] => none
  | (k, v) :: rest =>
    match objectGet key rest with
    | some w => some w
    | none => if k = key then some v else none

/-- The members a request value adds to those of its `BaseRequest`. -/
def CredentialRequest.ownMembers (r : CredentialRequest) : List (String × JValue) :=
  (r.members).drop 2

/-- A member a request value writes besides the credentials: a flat value
under a key other than `apikey` and `secretapikey`. -/
def OwnMember (kv : String × JValue) : Prop :=
  FlatValue kv.2 ∧ kv.1 ≠ "apikey" ∧ kv.1 ≠ "secretapikey"

/-! ## Timestamps (`time.Parse` with the layout of `domains.go`) -/

/-- A parsed `time.Time` in UTC, by its calendar fields. -/
structure Time where
  year : Nat
  month : Nat
  day : Nat
  hour : Nat
  min : Nat
  sec : Nat
  nsec : Nat
  deriving DecidableEq, Repr

/-- The zero `time.Time`: January 1 of year 1, 00:00:00 UTC. -/
def Time.zero : Time := ⟨1, 1, 1, 0, 0, 0, 0⟩

/-- Go `getnum(s, fixed)` of package `time`: one or two leading decimal digits;
with `fixed` exactly two are required. -/
def getnum (s : List Char) (fixed : Bool) : Option (Nat × List Char) :=
  match s with
  | [] => none
  | a :: rest =>
    if isDigit a then
      match rest with
      | [] => if fixed then none else some (a.toNat - 48, [])
      | b :: rest2 =>
        if isDigit b then some ((a.toNat - 48) * 10 + (b.toNat - 48), rest2)
        else if fixed then none
        else some (a.toNat - 48, b :: rest2)
    else none

/-- The year of layout element `2006`: exactly four decimal digits. -/
def getYear (s : List Char) : Option (Nat × List Char) :=
  match s with
  | a :: b :: c :: d :: rest =>
    if isDigit a && isDigit b && isDigit c && isDigit d then
      some ((((a.toNat - 48) * 10 + (b.toNat - 48)) * 10 + (c.toNat - 48)) * 10
        + (d.toNat - 48), rest)
    else none
  | _ => none

/-- Go `skip(value, prefix)` for a one-character prefix other than a space. -/
def skipChar (c : Char) (s : List Char) : Option (List Char) :=
  match s with
  | [] => none
  | a :: rest => if a = c then some rest else none

/-- Go `cutspace`: drops leading spaces. -/
def cutspace : List Char → List Char
  | [] => []
  | a :: rest => if a = ' ' then cutspace rest else a :: rest

/-- Go `skip(value, " ")`: a space of the layout stands for a run of spaces; a
value that goes on with another character is rejected. -/
def skipSpaces (s : List Char) : Option (List Char) :=
  match s with
  | [] => some []
  | a :: rest => if a = ' ' then some (cutspace rest) else none

/-- The fractional second that may follow the seconds although the layout has
none: a period or comma and at least one digit; the digits give nanoseconds
(at most nine are used). -/
def fractionalSecond (s : List Char) : Nat × List Char :=
  match s with
  | p :: d :: rest =>
    if (p = '.' ∨ p = ',') ∧ isDigit d = true then
      (((digitsValue ((d :: (spanDigits rest).1).take 9) 0).getD 0)
          * 10 ^ (9 - ((d :: (spanDigits rest).1).take 9).length),
        (spanDigits rest).2)
    else (0, p :: d :: rest)
  | _ => (0, s)

/-- Go `daysIn(month, year)`. -/
def daysIn (month year : Nat) : Nat :=
  if month = 2 then
    if year % 4 = 0 ∧ (year % 100 ≠ 0 ∨ year % 400 = 0) then 29 else 28
  else if month = 4 ∨ month = 6 ∨ month = 9 ∨ month = 11 then 30
  else 31

/-- Go `time.Parse("2006-01-02 15:04:05", value)`: the elements of the layout
are read one after the other (year of four digits, month and day of two, hour
of one or two, minute and second of two, with the separators in between), each
with its range check; an optional fractional second follows; nothing may be
left; the day must exist in the month. -/
def timeParse (value : String) : Except Err Time :=
  match getYear value.data with
  | none => .error (.timeParse value)
  | some (year, v1) =>
    match (skipChar '-' v1).bind (fun v => getnum v true) with
    | none => .error (.timeParse value)
    | some (month, v2) =>
      if month = 0 ∨ 12 < month then .error (.timeParse value)
      else
        match (skipChar '-' v2).bind (fun v => getnum v true) with
        | none => .error (.timeParse value)
        | some (day, v3) =>
          match (skipSpaces v3).bind (fun v => getnum v false) with
          | none => .error (.timeParse value)
          | some (hour, v4) =>
            if 24 ≤ hour then .error (.timeParse value)
            else
              match (skipChar ':' v4).bind (fun v => getnum v true) with
              | none => .error (.timeParse value)
              | some (min, v5) =>
                if 60 ≤ min then .error (.timeParse value)
                else
                  match (skipChar ':' v5).bind (fun v => getnum v true) with
                  | none => .error (.timeParse value)
                  | some (sec, v6) =>
                    if 60 ≤ sec then .error (.timeParse value)
                    else if (fractionalSecond v6).2 ≠ [] then .error (.timeParse value)
                    else if day < 1 ∨ daysIn month year < day then .error (.timeParse value)
                    else .ok ⟨year, month, day, hour, min, sec, (fractionalSecond v6).1⟩

/-! ## Slices (`encoding/json`) -/

/-- A Go slice under decoding: `none` is the nil slice; otherwise the elements
within the length and the elements kept behind it in the backing array (left
there by an earlier, longer decode of the same field). -/
structure GoSlice (α : Type) where
  live : List α
  spare : List α
  deriving DecidableEq, Repr

/-- The elements of a JSON array stored one after the other into the existing
elements of the backing array (`old`), or into a zero element where there is
none.  A fatal error stops after the element that raised it. -/
def decodeElems {α : Type} (dec : α → JValue → Decoded α) (zero : α) :
    List JValue → List α → Decoded (List α)
  | [], _ => ⟨[], none, none⟩
  | x :: xs, old =>
    match (dec (old.head?.getD zero) x).fatal with
    | some e => ⟨[(dec (old.head?.getD zero) x).val], (dec (old.head?.getD zero) x).saved, some e⟩
    | none =>
      ⟨(dec (old.head?.getD zero) x).val :: (decodeElems dec zero xs old.tail).val,
        firstErr (dec (old.head?.getD zero) x).saved (decodeElems dec zero xs old.tail).saved,
        (decodeElems dec zero xs old.tail).fatal⟩

/-- The backing array of a slice: the elements within and behind the length. -/
def backing {α : Type} : Option (GoSlice α) → List α
  | none => []
  | some s => s.live ++ s.spare

/-- The length of a slice. -/
def sliceLen {α : Type} : Option (GoSlice α) → Nat
  | none => 0
  | some s => s.live.length

/-- Storing a JSON value into a slice of Go type `goType`: `null` makes it nil,
the empty array makes it a new empty slice, a longer array is stored element by
element into the backing array and the length is set to the number of
elements; any other value records a type error. -/
def decodeSlice {α : Type} (goType : String) (dec : α → JValue → Decoded α) (zero : α)
    (cur : Option (GoSlice α)) : JValue → Decoded (Option (GoSlice α))
  | .null => ⟨none, none, none⟩
  | .arr [] => ⟨some ⟨[], []⟩, none, none⟩
  | .arr (x :: xs) =>
    match (decodeElems dec zero (x :: xs) (backing cur)).fatal with
    | none =>
      ⟨some ⟨(decodeElems dec zero (x :: xs) (backing cur)).val,
          (backing cur).drop (xs.length + 1)⟩,
        (decodeElems dec zero (x :: xs) (backing cur)).saved, none⟩
    | some e =>
      ⟨some ⟨(decodeElems dec zero (x :: xs) (backing cur)).val
            ++ ((backing cur).take (sliceLen cur)).drop
                (decodeElems dec zero (x :: xs) (backing cur)).val.length,
          (backing cur).drop
            (max (sliceLen cur) (decodeElems dec zero (x :: xs) (backing cur)).val.length)⟩,
        (decodeElems dec zero (x :: xs) (backing cur)).saved, some e⟩
  | v => ⟨cur, some (.unmarshalType v.kind goType), none⟩

/-! ## Domains (`domains.go`) -/

/-- Go `Label`. -/
structure Label where
  ID : String
  Title : String
  Color : String
  deriving DecidableEq, Repr

/-- One member stored into a `Label`. -/
def Label.setMember (l : Label) (key : String) (v : JValue) : Decoded Label :=
  if keyMatches "id" key then
    ⟨{ l with ID := (decodeString l.ID v).val }, (decodeString l.ID v).saved, none⟩
  else if keyMatches "title" key then
    ⟨{ l with Title := (decodeString l.Title v).val }, (decodeString l.Title v).saved, none⟩
  else if keyMatches "color" key then
    ⟨{ l with Color := (decodeString l.Color v).val }, (decodeString l.Color v).saved, none⟩
  else ⟨l, none, none⟩

/-- Go `Domain`. -/
structure Domain where
  Domain_ : String
  Status : String
  TLD : String
  CreateDate : Time
  ExpireDate : Time
  SecurityLock : Bool
  WhoisPrivacy : Bool
  AutoRenew : Bool
  NotLocal : Bool
  Labels : Option (GoSlice Label)
  deriving DecidableEq, Repr

/-- The zero `Domain`. -/
def Domain.zero : Domain :=
  ⟨"", "", "", Time.zero, Time.zero, false, false, false, false, none⟩

/-- The temporary struct of `Domain.UnmarshalJSON`: the two dates as strings,
which hide the date fields of the embedded `*Alias`, and the domain behind the
alias pointer. -/
structure DomainAux where
  CreateDate : String
  ExpireDate : String
  Alias : Domain
  deriving DecidableEq, Repr

/-- A value stored through an `UnmarshalJSON` method that yields a boolean: an
error of the method stops the decoder. -/
def decodeBoolVia (codec : JValue → Except Err Bool) (cur : Bool) (v : JValue) : Decoded Bool :=
  match codec v with
  | .ok b => ⟨b, none, none⟩
  | .error e => ⟨cur, none, some e⟩

/-- One member stored into the temporary struct. -/
def DomainAux.setMember (aux : DomainAux) (key : String) (v : JValue) : Decoded DomainAux :=
  if keyMatches "createDate" key then
    ⟨{ aux with CreateDate := (decodeString aux.CreateDate v).val },
      (decodeString aux.CreateDate v).saved, none⟩
  else if keyMatches "expireDate" key then
    ⟨{ aux with ExpireDate := (decodeString aux.ExpireDate v).val },
      (decodeString aux.ExpireDate v).saved, none⟩
  else if keyMatches "domain" key then
    ⟨{ aux with Alias := { aux.Alias with Domain_ := (decodeString aux.Alias.Domain_ v).val } },
      (decodeString aux.Alias.Domain_ v).saved, none⟩
  else if keyMatches "status" key then
    ⟨{ aux with Alias := { aux.Alias with Status := (decodeString aux.Alias.Status v).val } },
      (decodeString aux.Alias.Status v).saved, none⟩
  else if keyMatches "tld" key then
    ⟨{ aux with Alias := { aux.Alias with TLD := (decodeString aux.Alias.TLD v).val } },
      (decodeString aux.Alias.TLD v).saved, none⟩
  else if keyMatches "securityLock" key then
    ⟨{ aux with Alias := { aux.Alias with
          SecurityLock := (decodeBoolVia BoolString.decode aux.Alias.SecurityLock v).val } },
      none, (decodeBoolVia BoolString.decode aux.Alias.SecurityLock v).fatal⟩
  else if keyMatches "whoisPrivacy" key then
    ⟨{ aux with Alias := { aux.Alias with
          WhoisPrivacy := (decodeBoolVia BoolString.decode aux.Alias.WhoisPrivacy v).val } },
      none, (decodeBoolVia BoolString.decode aux.Alias.WhoisPrivacy v).fatal⟩
  else if keyMatches "autoRenew" key then
    ⟨{ aux with Alias := { aux.Alias with
          AutoRenew := (decodeBoolVia BoolNumber.decode aux.Alias.AutoRenew v).val } },
      none, (decodeBoolVia BoolNumber.decode aux.Alias.AutoRenew v).fatal⟩
  else if keyMatches "notLocal" key then
    ⟨{ aux with Alias := { aux.Alias with
          NotLocal := (decodeBoolVia BoolNumber.decode aux.Alias.NotLocal v).val } },
      none, (decodeBoolVia BoolNumber.decode aux.Alias.NotLocal v).fatal⟩
  else if keyMatches "labels" key then
    ⟨{ aux with Alias := { aux.Alias with
          Labels := (decodeSlice "[]porkbun.Label" (decodeStruct "porkbun.Label" Label.setMember)
            ⟨"", "", ""⟩ aux.Alias.Labels v).val } },
      (decodeSlice "[]porkbun.Label" (decodeStruct "porkbun.Label" Label.setMember)
            ⟨"", "", ""⟩ aux.Alias.Labels v).saved,
      (decodeSlice "[]porkbun.Label" (decodeStruct "porkbun.Label" Label.setMember)
            ⟨"", "", ""⟩ aux.Alias.Labels v).fatal⟩
  else ⟨aux, none, none⟩

/-- The step `json.Unmarshal(data, &aux)` of `Domain.UnmarshalJSON`: the value
stored into the temporary struct, whose alias pointer is the domain. -/
def decodeDomainAux (d : Domain) (v : JValue) : Decoded DomainAux :=
  decodeStruct "struct" DomainAux.setMember ⟨"", "", d⟩ v

/-- Go `(*Domain).UnmarshalJSON` on the value the decoder hands over.  The value
is stored into the temporary struct (an error of that step is returned); a
`null` sets the pointer `aux` itself to nil, so that reading `aux.CreateDate`
panics; then the two dates are parsed in turn, each error wrapped with the name
of its field.  The result is the domain as it stands and the error, if any. -/
def Domain.UnmarshalJSON (d : Domain) (v : JValue) : Domain × Option Err :=
  match (decodeDomainAux d v).err with
  | some e => ((decodeDomainAux d v).val.Alias, some e)
  | none =>
    match v with
    | .null => (d, some (.panic "nil pointer dereference"))
    | _ =>
      match timeParse (decodeDomainAux d v).val.CreateDate with
      | .error e =>
        ({ (decodeDomainAux d v).val.Alias with CreateDate := Time.zero },
          some (.wrapped "error parsing CreateDate: " e))
      | .ok t1 =>
        match timeParse (decodeDomainAux d v).val.ExpireDate with
        | .error e =>
          ({ (decodeDomainAux d v).val.Alias with CreateDate := t1, ExpireDate := Time.zero },
            some (.wrapped "error parsing ExpireDate: " e))
        | .ok t2 =>
          ({ (decodeDomainAux d v).val.Alias with CreateDate := t1, ExpireDate := t2 }, none)

/-- The decoder storing a value into a `Domain`: it calls `UnmarshalJSON`, whose
error stops it. -/
def Domain.decode (d : Domain) (v : JValue) : Decoded Domain :=
  ⟨(Domain.UnmarshalJSON d v).1, none, (Domain.UnmarshalJSON d v).2⟩

/-- Go `json.Unmarshal(data, &domain)` on raw bytes, as in the tests. -/
def unmarshalDomain (data : String) (d : Domain) : Domain × Option Err :=
  unmarshal Domain.decode data d

/-- The value of two decimal digits. -/
def twoDigits (a b : Char) : Nat := (a.toNat - 48) * 10 + (b.toNat - 48)

/-- The value of four decimal digits. -/
def fourDigits (a b c d : Char) : Nat :=
  (((a.toNat - 48) * 10 + (b.toNat - 48)) * 10 + (c.toNat - 48)) * 10 + (d.toNat - 48)

/-- The text is of the fixed form `YYYY-MM-DD HH:MM:SS`: nineteen characters,
digits at the places of the letters. -/
def isLayoutText (s : String) : Bool :=
  match s.data with
  | [y1, y2, y3, y4, p1, m1, m2, p2, d1, d2, p3, h1, h2, p4, n1, n2, p5, s1, s2] =>
    isDigit y1 && isDigit y2 && isDigit y3 && isDigit y4 && p1 == '-' && isDigit m1
      && isDigit m2 && p2 == '-' && isDigit d1 && isDigit d2 && p3 == ' ' && isDigit h1
      && isDigit h2 && p4 == ':' && isDigit n1 && isDigit n2 && p5 == ':' && isDigit s1
      && isDigit s2
  | _ => false

/-! ## DNS records (`dns.go`) -/

/-- Go `DnsRecordType.IsValid`: the `switch` over the twelve constants. -/
def DnsRecordType.IsValid (rt : String) : Bool :=
  if rt = "A" ∨ rt = "MX" ∨ rt = "CNAME" ∨ rt = "ALIAS" ∨ rt = "TXT" ∨ rt = "NS"
      ∨ rt = "AAAA" ∨ rt = "SRV" ∨ rt = "TLSA" ∨ rt = "CAA" ∨ rt = "HTTPS" ∨ rt = "SVCB" then
    true
  else false

/-- The twelve record types of the specification. -/
def recordTypeNames : List String :=
  ["A", "MX", "CNAME", "ALIAS", "TXT", "NS", "AAAA", "SRV", "TLSA", "CAA", "HTTPS", "SVCB"]

/-- Storing a JSON value into a field of a named string type (`DnsRecordType`,
`ForwardType`): as `decodeString`, the type error naming the Go type. -/
def decodeStringAs (goType : String) (cur : String) : JValue → Decoded String
  | .null => ⟨cur, none, none⟩
  | .str s => ⟨s, none, none⟩
  | v => ⟨cur, some (.unmarshalType v.kind goType), none⟩

/-- Storing a JSON value into a `*string`: `null` makes it nil, a string is
stored behind the pointer, any other value records a type error. -/
def decodeStringPtr (cur : Option String) : JValue → Decoded (Option String)
  | .null => ⟨none, none, none⟩
  | .str s => ⟨some s, none, none⟩
  | v => ⟨cur, some (.unmarshalType v.kind "string"), none⟩

/-- The zero `DnsRecord`. -/
def DnsRecord.zero : DnsRecord := ⟨none, "", "", "", "", "", ""⟩

/-- The temporary struct of `DnsRecord.UnmarshalJSON`: the identifier as a
`*string`, which hides the `ID` of the embedded `*Alias`, and the record behind
the alias pointer. -/
structure DnsRecordAux where
  ID : Option String
  Alias : DnsRecord
  deriving DecidableEq, Repr

/-- One member stored into the temporary struct. -/
def DnsRecordAux.setMember (aux : DnsRecordAux) (key : String) (v : JValue) :
    Decoded DnsRecordAux :=
  if keyMatches "id" key then
    ⟨{ aux with ID := (decodeStringPtr aux.ID v).val }, (decodeStringPtr aux.ID v).saved, none⟩
  else if keyMatches "name" key then
    ⟨{ aux with Alias := { aux.Alias with Name := (decodeString aux.Alias.Name v).val } },
      (decodeString aux.Alias.Name v).saved, none⟩
  else if keyMatches "type" key then
    ⟨{ aux with Alias := { aux.Alias with
          Type_ := (decodeStringAs "porkbun.DnsRecordType" aux.Alias.Type_ v).val } },
      (decodeStringAs "porkbun.DnsRecordType" aux.Alias.Type_ v).saved, none⟩
  else if keyMatches "content" key then
    ⟨{ aux with Alias := { aux.Alias with Content := (decodeString aux.Alias.Content v).val } },
      (decodeString aux.Alias.Content v).saved, none⟩
  else if keyMatches "ttl" key then
    ⟨{ aux with Alias := { aux.Alias with TTL := (decodeString aux.Alias.TTL v).val } },
      (decodeString aux.Alias.TTL v).saved, none⟩
  else if keyMatches "prio" key then
    ⟨{ aux with Alias := { aux.Alias with Prio := (decodeString aux.Alias.Prio v).val } },
      (decodeString aux.Alias.Prio v).saved, none⟩
  else if keyMatches "notes" key then
    ⟨{ aux with Alias := { aux.Alias with Notes := (decodeString aux.Alias.Notes v).val } },
      (decodeString aux.Alias.Notes v).saved, none⟩
  else ⟨aux, none, none⟩

/-- The step `json.Unmarshal(data, &aux)` of `DnsRecord.UnmarshalJSON`. -/
def decodeDnsRecordAux (d : DnsRecord) (v : JValue) : Decoded DnsRecordAux :=
  decodeStruct "struct" DnsRecordAux.setMember ⟨none, d⟩ v

/-- Go `(*DnsRecord).UnmarshalJSON` on the value the decoder hands over.  The
value is stored into the temporary struct (an error of that step is returned);
a `null` sets the pointer `aux` itself to nil, so that reading `aux.ID` panics;
a non-nil `aux.ID` is parsed with `strconv.ParseInt(_, 10, 64)` and stored. -/
def DnsRecord.UnmarshalJSON (d : DnsRecord) (v : JValue) : DnsRecord × Option Err :=
  match (decodeDnsRecordAux d v).err with
  | some e => ((decodeDnsRecordAux d v).val.Alias, some e)
  | none =>
    match v with
    | .null => (d, some (.panic "nil pointer dereference"))
    | _ =>
      match (decodeDnsRecordAux d v).val.ID with
      | none => ((decodeDnsRecordAux d v).val.Alias, none)
      | some s =>
        match parseInt64 s with
        | none => ((decodeDnsRecordAux d v).val.Alias, some (.numError "ParseInt" s))
        | some n => ({ (decodeDnsRecordAux d v).val.Alias with ID := some n }, none)

/-- The decoder storing a value into a `DnsRecord`: it calls `UnmarshalJSON`,
whose error stops it. -/
def DnsRecord.decode (d : DnsRecord) (v : JValue) : Decoded DnsRecord :=
  ⟨(DnsRecord.UnmarshalJSON d v).1, none, (DnsRecord.UnmarshalJSON d v).2⟩

/-- Go `json.Unmarshal(data, &record)` on raw bytes. -/
def unmarshalDnsRecord (data : String) (d : DnsRecord) : DnsRecord × Option Err :=
  unmarshal DnsRecord.decode data d

/-! ## Pricing (`pricing.go`) -/

/-- Go `Coupon`. -/
structure Coupon where
  Code : String
  MaxPerUser : Int
  FirstYearOnly : String
  Type_ : String
  Amount : Int
  deriving DecidableEq, Repr

/-- The zero `Coupon`. -/
def Coupon.zero : Coupon := ⟨"", 0, "", "", 0⟩

/-- One member stored into a `Coupon`. -/
def Coupon.setMember (c : Coupon) (key : String) (v : JValue) : Decoded Coupon :=
  if keyMatches "code" key then
    ⟨{ c with Code := (decodeString c.Code v).val }, (decodeString c.Code v).saved, none⟩
  else if keyMatches "max_per_user" key then
    ⟨{ c with MaxPerUser := (decodeInt "int64" c.MaxPerUser v).val },
      (decodeInt "int64" c.MaxPerUser v).saved, none⟩
  else if keyMatches "first_year_only" key then
    ⟨{ c with FirstYearOnly := (decodeString c.FirstYearOnly v).val },
      (decodeString c.FirstYearOnly v).saved, none⟩
  else if keyMatches "type" key then
    ⟨{ c with Type_ := (decodeString c.Type_ v).val }, (decodeString c.Type_ v).saved, none⟩
  else if keyMatches "amount" key then
    ⟨{ c with Amount := (decodeInt "int64" c.Amount v).val },
      (decodeInt "int64" c.Amount v).saved, none⟩
  else ⟨c, none, none⟩

/-- The decoder storing a value into a `Coupon`. -/
def Coupon.decode (c : Coupon) (v : JValue) : Decoded Coupon :=
  decodeStruct "porkbun.Coupon" Coupon.setMember c v

/-- A Go map with string keys as its entries, one per key. -/
abbrev GoMap (α : Type) : Type := List (String × α)

/-- Go `m[key] = value`: the entry of the key is replaced, or added. -/
def mapSet {α : Type} (key : String) (value : α) : GoMap α → GoMap α
  | [] => [(key, value)]
  | (k, w) :: rest => if k = key then (k, value) :: rest else (k, w) :: mapSet key value rest

/-- Go `m[key]`, when present. -/
def mapGet {α : Type} (key : String) : GoMap α → Option α
  | [] => none
  | (k, w) :: rest => if k = key then some w else mapGet key rest

/-- The members of an object stored into a map: each value is stored into a
zero element, which then becomes the entry of its key; a fatal error stops
before the entry is written. -/
def decodeMapMembers {α : Type} (dec : α → JValue → Decoded α) (zero : α) :
    List (String × JValue) → Decoded (GoMap α) → Decoded (GoMap α)
  | [], d => d
  | (k, v) :: rest, d =>
    match d.fatal with
    | some _ => d
    | none =>
      match (dec zero v).fatal with
      | some e => ⟨d.val, firstErr d.saved (dec zero v).saved, some e⟩
      | none =>
        decodeMapMembers dec zero rest
          ⟨mapSet k (dec zero v).val d.val, firstErr d.saved (dec zero v).saved, none⟩

/-- Storing a JSON value into a map of Go type `goType` (`none` is the nil
map): `null` makes it nil, the members of an object are stored into the map
(made first when nil), any other value records a type error. -/
def decodeMap {α : Type} (goType : String) (dec : α → JValue → Decoded α) (zero : α)
    (cur : Option (GoMap α)) : JValue → Decoded (Option (GoMap α))
  | .null => ⟨none, none, none⟩
  | .obj ms =>
    ⟨some (decodeMapMembers dec zero ms ⟨cur.getD [], none, none⟩).val,
      (decodeMapMembers dec zero ms ⟨cur.getD [], none, none⟩).saved,
      (decodeMapMembers dec zero ms ⟨cur.getD [], none, none⟩).fatal⟩
  | v => ⟨cur, some (.unmarshalType v.kind goType), none⟩

/-- Storing a JSON value into a `[]interface{}`, of which only the length is
used: `null` is the nil slice, an array gives one element for each of its
elements, any other value records a type error. -/
def decodeAnySlice : JValue → Decoded (Option Nat)
  | .null => ⟨none, none, none⟩
  | .arr xs => ⟨some xs.length, none, none⟩
  | v => ⟨none, some (.unmarshalType v.kind "[]interface {}"), none⟩

/-- Go `(*Coupons).UnmarshalJSON` on the value the decoder hands over: first
the value is stored into a new `map[string]Coupon`, and with no error that map
is the result; otherwise the value is stored into a new `[]interface{}`, and
with no error and length zero the result is the nil map; otherwise the error
`coupons field has an unexpected type`. -/
def Coupons.UnmarshalJSON (c : Option (GoMap Coupon)) (v : JValue) :
    Option (GoMap Coupon) × Option Err :=
  match (decodeMap "map[string]porkbun.Coupon" Coupon.decode Coupon.zero none v).err with
  | none => ((decodeMap "map[string]porkbun.Coupon" Coupon.decode Coupon.zero none v).val, none)
  | some _ =>
    if (decodeAnySlice v).err = none ∧ (decodeAnySlice v).val.getD 0 = 0 then (none, none)
    else (c, some (.text "coupons field has an unexpected type"))

/-- The decoder storing a value into a `Coupons`. -/
def Coupons.decode (c : Option (GoMap Coupon)) (v : JValue) : Decoded (Option (GoMap Coupon)) :=
  ⟨(Coupons.UnmarshalJSON c v).1, none, (Coupons.UnmarshalJSON c v).2⟩

/-- Go `json.Unmarshal(data, &coupons)` on raw bytes. -/
def unmarshalCoupons (data : String) (c : Option (GoMap Coupon)) :
    Option (GoMap Coupon) × Option Err :=
  unmarshal Coupons.decode data c

/-- Go `Pricing`. -/
structure Pricing where
  Registration : String
  Renewal : String
  Transfer : String
  Coupons : Option (GoMap Coupon)
  SpecialType : Option String
  deriving DecidableEq, Repr

/-- The zero `Pricing`. -/
def Pricing.zero : Pricing := ⟨"", "", "", none, none⟩

/-- One member stored into a `Pricing`. -/
def Pricing.setMember (p : Pricing) (key : String) (v : JValue) : Decoded Pricing :=
  if keyMatches "registration" key then
    ⟨{ p with Registration := (decodeString p.Registration v).val },
      (decodeString p.Registration v).saved, none⟩
  else if keyMatches "renewal" key then
    ⟨{ p with Renewal := (decodeString p.Renewal v).val }, (decodeString p.Renewal v).saved,
      none⟩
  else if keyMatches "transfer" key then
    ⟨{ p with Transfer := (decodeString p.Transfer v).val }, (decodeString p.Transfer v).saved,
      none⟩
  else if keyMatches "coupons" key then
    ⟨{ p with Coupons := (Coupons.decode p.Coupons v).val }, none,
      (Coupons.decode p.Coupons v).fatal⟩
  else if keyMatches "specialType" key then
    ⟨{ p with SpecialType := (decodeStringPtr p.SpecialType v).val },
      (decodeStringPtr p.SpecialType v).saved, none⟩
  else ⟨p, none, none⟩

/-- The decoder storing a value into a `Pricing`. -/
def Pricing.decode (p : Pricing) (v : JValue) : Decoded Pricing :=
  decodeStruct "porkbun.Pricing" Pricing.setMember p v

/-- The `*string` a struct field of JSON name `name` holds after the members of
an object have been stored one after the other, starting from `cur`. -/
def storeLastPtr (name : String) : List (String × JValue) → Option String → Option String
  | [], cur => cur
  | (k, v) :: rest, cur =>
    storeLastPtr name rest (if keyMatches name k then (decodeStringPtr cur v).val else cur)

/-- The wire form of a coupon record: the five fields under their JSON names,
the two numbers in base 10. -/
def couponJSON (c : Coupon) : JValue :=
  .obj [("code", .str c.Code), ("max_per_user", .num (formatInt c.MaxPerUser)),
    ("first_year_only", .str c.FirstYearOnly), ("type", .str c.Type_),
    ("amount", .num (formatInt c.Amount))]

/-- A JSON value that is neither an object nor `null`. -/
def isScalarOrArray : JValue → Bool
  | .obj _ => false
  | .null => false
  | _ => true

/-! ## Typed responses of the other endpoints -/

/-- Go `ListDomainsResponse`. -/
structure ListDomainsResponse where
  BaseResponse : BaseResponse
  Domains : Option (GoSlice Domain)
  deriving DecidableEq, Repr

/-- One member stored into a `ListDomainsResponse`. -/
def ListDomainsResponse.setMember (P : Platform) (r : ListDomainsResponse) (key : String)
    (v : JValue) : Decoded ListDomainsResponse :=
  match BaseResponse.setMember P r.BaseResponse key v with
  | some d => ⟨{ r with BaseResponse := d.val }, d.saved, d.fatal⟩
  | none =>
    if keyMatches "domains" key then
      ⟨{ r with Domains :=
            (decodeSlice "[]porkbun.Domain" Domain.decode Domain.zero r.Domains v).val },
        (decodeSlice "[]porkbun.Domain" Domain.decode Domain.zero r.Domains v).saved,
        (decodeSlice "[]porkbun.Domain" Domain.decode Domain.zero r.Domains v).fatal⟩
    else ⟨r, none, none⟩

/-- The response type of `ListDomains`. -/
def ListDomainsResponse.type (P : Platform) : ResponseType ListDomainsResponse where
  zero := ⟨⟨none, ""⟩, none⟩
  decode := decodeStruct "porkbun.ListDomainsResponse" (ListDomainsResponse.setMember P)
  attach := fun r resp => { r with BaseResponse := { r.BaseResponse with HTTPResponse := resp } }

/-- Go `GetNameServersResponse`; `NS` is a `NameServers`, a slice of strings. -/
structure GetNameServersResponse where
  BaseResponse : BaseResponse
  NS : Option (GoSlice String)
  deriving DecidableEq, Repr

/-- One member stored into a `GetNameServersResponse`. -/
def GetNameServersResponse.setMember (P : Platform) (r : GetNameServersResponse) (key : String)
    (v : JValue) : Decoded GetNameServersResponse :=
  match BaseResponse.setMember P r.BaseResponse key v with
  | some d => ⟨{ r with BaseResponse := d.val }, d.saved, d.fatal⟩
  | none =>
    if keyMatches "ns" key then
      ⟨{ r with NS := (decodeSlice "porkbun.NameServers" decodeString "" r.NS v).val },
        (decodeSlice "porkbun.NameServers" decodeString "" r.NS v).saved,
        (decodeSlice "porkbun.NameServers" decodeString "" r.NS v).fatal⟩
    else ⟨r, none, none⟩

/-- The response type of `GetNameServers`. -/
def GetNameServersResponse.type (P : Platform) : ResponseType GetNameServersResponse where
  zero := ⟨⟨none, ""⟩, none⟩
  decode := decodeStruct "porkbun.GetNameServersResponse" (GetNameServersResponse.setMember P)
  attach := fun r resp => { r with BaseResponse := { r.BaseResponse with HTTPResponse := resp } }

/-- Go `UpdateNameServersResponse`: the embedded `BaseResponse` only. -/
structure UpdateNameServersResponse where
  BaseResponse : BaseResponse
  deriving DecidableEq, Repr

/-- One member stored into an `UpdateNameServersResponse`. -/
def UpdateNameServersResponse.setMember (P : Platform) (r : UpdateNameServersResponse)
    (key : String) (v : JValue) : Decoded UpdateNameServersResponse :=
  match BaseResponse.setMember P r.BaseResponse key v with
  | some d => ⟨{ BaseResponse := d.val }, d.saved, d.fatal⟩
  | none => ⟨r, none, none⟩

/-- The response type of `UpdateNameServers`. -/
def UpdateNameServersResponse.type (P : Platform) : ResponseType UpdateNameServersResponse where
  zero := ⟨⟨none, ""⟩⟩
  decode :=
    decodeStruct "porkbun.UpdateNameServersResponse" (UpdateNameServersResponse.setMember P)
  attach := fun r resp => { BaseResponse := { r.BaseResponse with HTTPResponse := resp } }

/-- Go `UrlForwardData`: the `id` and the embedded `UrlForward`. -/
structure UrlForwardData where
  Id : String
  UrlForward : UrlForward
  deriving DecidableEq, Repr

/-- The zero `UrlForwardData`. -/
def UrlForwardData.zero : UrlForwardData := ⟨"", ⟨"", "", "", "", ""⟩⟩

/-- One member stored into a `UrlForwardData`. -/
def UrlForwardData.setMember (d : UrlForwardData) (key : String) (v : JValue) :
    Decoded UrlForwardData :=
  if keyMatches "id" key then
    ⟨{ d with Id := (decodeString d.Id v).val }, (decodeString d.Id v).saved, none⟩
  else if keyMatches "subdomain" key then
    ⟨{ d with UrlForward :=
          { d.UrlForward with Subdomain := (decodeString d.UrlForward.Subdomain v).val } },
      (decodeString d.UrlForward.Subdomain v).saved, none⟩
  else if keyMatches "location" key then
    ⟨{ d with UrlForward :=
          { d.UrlForward with Location := (decodeString d.UrlForward.Location v).val } },
      (decodeString d.UrlForward.Location v).saved, none⟩
  else if keyMatches "type" key then
    ⟨{ d with UrlForward :=
          { d.UrlForward with
            Type_ := (decodeStringAs "porkbun.ForwardType" d.UrlForward.Type_ v).val } },
      (decodeStringAs "porkbun.ForwardType" d.UrlForward.Type_ v).saved, none⟩
  else if keyMatches "includePath" key then
    ⟨{ d with UrlForward :=
          { d.UrlForward with IncludePath := (decodeString d.UrlForward.IncludePath v).val } },
      (decodeString d.UrlForward.IncludePath v).saved, none⟩
  else if keyMatches "wildcard" key then
    ⟨{ d with UrlForward :=
          { d.UrlForward with Wildcard := (decodeString d.UrlForward.Wildcard v).val } },
      (decodeString d.UrlForward.Wildcard v).saved, none⟩
  else ⟨d, none, none⟩

/-- Go `GetDomainURLForwardingResponse`. -/
structure GetDomainURLForwardingResponse where
  BaseResponse : BaseResponse
  Forwards : Option (GoSlice UrlForwardData)
  deriving DecidableEq, Repr

/-- One member stored into a `GetDomainURLForwardingResponse`. -/
def GetDomainURLForwardingResponse.setMember (P : Platform)
    (r : GetDomainURLForwardingResponse) (key : String) (v : JValue) :
    Decoded GetDomainURLForwardingResponse :=
  match BaseResponse.setMember P r.BaseResponse key v with
  | some d => ⟨{ r with BaseResponse := d.val }, d.saved, d.fatal⟩
  | none =>
    if keyMatches "forwards" key then
      ⟨{ r with Forwards :=
            (decodeSlice "[]porkbun.UrlForwardData"
              (decodeStruct "porkbun.UrlForwardData" UrlForwardData.setMember)
              UrlForwardData.zero r.Forwards v).val },
        (decodeSlice "[]porkbun.UrlForwardData"
              (decodeStruct "porkbun.UrlForwardData" UrlForwardData.setMember)
              UrlForwardData.zero r.Forwards v).saved,
        (decodeSlice "[]porkbun.UrlForwardData"
              (decodeStruct "porkbun.UrlForwardData" UrlForwardData.setMember)
              UrlForwardData.zero r.Forwards v).fatal⟩
    else ⟨r, none, none⟩

/-- The response type of `GetDomainURLForwarding`. -/
def GetDomainURLForwardingResponse.type (P : Platform) :
    ResponseType GetDomainURLForwardingResponse where
  zero := ⟨⟨none, ""⟩, none⟩
  decode := decodeStruct "porkbun.GetDomainURLForwardingResponse"
    (GetDomainURLForwardingResponse.setMember P)
  attach := fun r resp => { r with BaseResponse := { r.BaseResponse with HTTPResponse := resp } }

/-- Go `AddDomainUrlForwardResponse`: the embedded `BaseResponse` only. -/
structure AddDomainUrlForwardResponse where
  BaseResponse : BaseResponse
  deriving DecidableEq, Repr

/-- One member stored into an `AddDomainUrlForwardResponse`. -/
def AddDomainUrlForwardResponse.setMember (P : Platform) (r : AddDomainUrlForwardResponse)
    (key : String) (v : JValue) : Decoded AddDomainUrlForwardResponse :=
  match BaseResponse.setMember P r.BaseResponse key v with
  | some d => ⟨{ BaseResponse := d.val }, d.saved, d.fatal⟩
  | none => ⟨r, none, none⟩

/-- The response type of `AddDomainUrlForward`. -/
def AddDomainUrlForwardResponse.type (P : Platform) :
    ResponseType AddDomainUrlForwardResponse where
  zero := ⟨⟨none, ""⟩⟩
  decode :=
    decodeStruct "porkbun.AddDomainUrlForwardResponse" (AddDomainUrlForwardResponse.setMember P)
  attach := fun r resp => { BaseResponse := { r.BaseResponse with HTTPResponse := resp } }

/-- Go `DeleteDomainUrlForwardResponse`: the embedded `BaseResponse` only. -/
structure DeleteDomainUrlForwardResponse where
  BaseResponse : BaseResponse
  deriving DecidableEq, Repr

/-- One member stored into a `DeleteDomainUrlForwardResponse`. -/
def DeleteDomainUrlForwardResponse.setMember (P : Platform)
    (r : DeleteDomainUrlForwardResponse) (key : String) (v : JValue) :
    Decoded DeleteDomainUrlForwardResponse :=
  match BaseResponse.setMember P r.BaseResponse key v with
  | some d => ⟨{ BaseResponse := d.val }, d.saved, d.fatal⟩
  | none => ⟨r, none, none⟩

/-- The response type of `DeleteDomainUrlForward`. -/
def DeleteDomainUrlForwardResponse.type (P : Platform) :
    ResponseType DeleteDomainUrlForwardResponse where
  zero := ⟨⟨none, ""⟩⟩
  decode := decodeStruct "porkbun.DeleteDomainUrlForwardResponse"
    (DeleteDomainUrlForwardResponse.setMember P)
  attach := fun r resp => { BaseResponse := { r.BaseResponse with HTTPResponse := resp } }

/-- Go `GetRecordsResponse`. -/
structure GetRecordsResponse where
  BaseResponse : BaseResponse
  Records : Option (GoSlice DnsRecord)
  deriving DecidableEq, Repr

/-- One member stored into a `GetRecordsResponse`. -/
def GetRecordsResponse.setMember (P : Platform) (r : GetRecordsResponse) (key : String)
    (v : JValue) : Decoded GetRecordsResponse :=
  match BaseResponse.setMember P r.BaseResponse key v with
  | some d => ⟨{ r with BaseResponse := d.val }, d.saved, d.fatal⟩
  | none =>
    if keyMatches "records" key then
      ⟨{ r with Records :=
            (decodeSlice "[]porkbun.DnsRecord" DnsRecord.decode DnsRecord.zero r.Records v).val },
        (decodeSlice "[]porkbun.DnsRecord" DnsRecord.decode DnsRecord.zero r.Records v).saved,
        (decodeSlice "[]porkbun.DnsRecord" DnsRecord.decode DnsRecord.zero r.Records v).fatal⟩
    else ⟨r, none, none⟩

/-- The response type of `GetRecords` and `GetRecordsByType`. -/
def GetRecordsResponse.type (P : Platform) : ResponseType GetRecordsResponse where
  zero := ⟨⟨none, ""⟩, none⟩
  decode := decodeStruct "porkbun.GetRecordsResponse" (GetRecordsResponse.setMember P)
  attach := fun r resp => { r with BaseResponse := { r.BaseResponse with HTTPResponse := resp } }

/-- Go `CreateRecordResponse`. -/
structure CreateRecordResponse where
  BaseResponse : BaseResponse
  ID : Int
  deriving DecidableEq, Repr

/-- One member stored into a `CreateRecordResponse`. -/
def CreateRecordResponse.setMember (P : Platform) (r : CreateRecordResponse) (key : String)
    (v : JValue) : Decoded CreateRecordResponse :=
  match BaseResponse.setMember P r.BaseResponse key v with
  | some d => ⟨{ r with BaseResponse := d.val }, d.saved, d.fatal⟩
  | none =>
    if keyMatches "id" key then
      ⟨{ r with ID := (decodeInt "int64" r.ID v).val }, (decodeInt "int64" r.ID v).saved, none⟩
    else ⟨r, none, none⟩

/-- The response type of `CreateRecord`. -/
def CreateRecordResponse.type (P : Platform) : ResponseType CreateRecordResponse where
  zero := ⟨⟨none, ""⟩, 0⟩
  decode := decodeStruct "porkbun.CreateRecordResponse" (CreateRecordResponse.setMember P)
  attach := fun r resp => { r with BaseResponse := { r.BaseResponse with HTTPResponse := resp } }

/-- Go `EditRecordResponse`: the embedded `BaseResponse` only. -/
structure EditRecordResponse where
  BaseResponse : BaseResponse
  deriving DecidableEq, Repr

/-- One member stored into an `EditRecordResponse`. -/
def EditRecordResponse.setMember (P : Platform) (r : EditRecordResponse) (key : String)
    (v : JValue) : Decoded EditRecordResponse :=
  match BaseResponse.setMember P r.BaseResponse key v with
  | some d => ⟨{ BaseResponse := d.val }, d.saved, d.fatal⟩
  | none => ⟨r, none, none⟩

/-- The response type of `EditRecord` and `EditRecordByType`. -/
def EditRecordResponse.type (P : Platform) : ResponseType EditRecordResponse where
  zero := ⟨⟨none, ""⟩⟩
  decode := decodeStruct "porkbun.EditRecordResponse" (EditRecordResponse.setMember P)
  attach := fun r resp => { BaseResponse := { r.BaseResponse with HTTPResponse := resp } }

/-- Go `SslRetrieveResponse`. -/
structure SslRetrieveResponse where
  BaseResponse : BaseResponse
  Certificatechain : String
  Privatekey : String
  Publickey : String
  deriving DecidableEq, Repr

/-- One member stored into an `SslRetrieveResponse`. -/
def SslRetrieveResponse.setMember (P : Platform) (r : SslRetrieveResponse) (key : String)
    (v : JValue) : Decoded SslRetrieveResponse :=
  match BaseResponse.setMember P r.BaseResponse key v with
  | some d => ⟨{ r with BaseResponse := d.val }, d.saved, d.fatal⟩
  | none =>
    if keyMatches "certificatechain" key then
      ⟨{ r with Certificatechain := (decodeString r.Certificatechain v).val },
        (decodeString r.Certificatechain v).saved, none⟩
    else if keyMatches "privatekey" key then
      ⟨{ r with Privatekey := (decodeString r.Privatekey v).val },
        (decodeString r.Privatekey v).saved, none⟩
    else if keyMatches "publickey" key then
      ⟨{ r with Publickey := (decodeString r.Publickey v).val },
        (decodeString r.Publickey v).saved, none⟩
    else ⟨r, none, none⟩

/-- The response type of `Retrieve` of the SSL service. -/
def SslRetrieveResponse.type (P : Platform) : ResponseType SslRetrieveResponse where
  zero := ⟨⟨none, ""⟩, "", "", ""⟩
  decode := decodeStruct "porkbun.SslRetrieveResponse" (SslRetrieveResponse.setMember P)
  attach := fun r resp => { r with BaseResponse := { r.BaseResponse with HTTPResponse := resp } }

/-- Go `PricingResponse`. -/
structure PricingResponse where
  BaseResponse : BaseResponse
  Pricing : Option (GoMap Pricing)
  deriving DecidableEq, Repr

/-- One member stored into a `PricingResponse`. -/
def PricingResponse.setMember (P : Platform) (r : PricingResponse) (key : String)
    (v : JValue) : Decoded PricingResponse :=
  match BaseResponse.setMember P r.BaseResponse key v with
  | some d => ⟨{ r with BaseResponse := d.val }, d.saved, d.fatal⟩
  | none =>
    if keyMatches "pricing" key then
      ⟨{ r with Pricing :=
            (decodeMap "map[string]porkbun.Pricing" Pricing.decode Pricing.zero r.Pricing v).val },
        (decodeMap "map[string]porkbun.Pricing" Pricing.decode Pricing.zero r.Pricing v).saved,
        (decodeMap "map[string]porkbun.Pricing" Pricing.decode Pricing.zero r.Pricing v).fatal⟩
    else ⟨r, none, none⟩

/-- The response type of `ListPricing`. -/
def PricingResponse.type (P : Platform) : ResponseType PricingResponse where
  zero := ⟨⟨none, ""⟩, none⟩
  decode := decodeStruct "porkbun.PricingResponse" (PricingResponse.setMember P)
  attach := fun r resp => { r with BaseResponse := { r.BaseResponse with HTTPResponse := resp } }

/-- The typed response an endpoint method returns, one constructor per response
struct. -/
inductive TypedResponse where
  | ping (r : PingResponse)
  | listDomains (r : ListDomainsResponse)
  | getNameServers (r : GetNameServersResponse)
  | updateNameServers (r : UpdateNameServersResponse)
  | getDomainURLForwarding (r : GetDomainURLForwardingResponse)
  | addDomainUrlForward (r : AddDomainUrlForwardResponse)
  | deleteDomainUrlForward (r : DeleteDomainUrlForwardResponse)
  | getRecords (r : GetRecordsResponse)
  | createRecord (r : CreateRecordResponse)
  | editRecord (r : EditRecordResponse)
  | deleteRecord (r : DeleteRecordResponse)
  | sslRetrieve (r : SslRetrieveResponse)
  | pricing (r : PricingResponse)
  deriving DecidableEq, Repr

/-- The embedded `BaseResponse` of a typed response. -/
def TypedResponse.base : TypedResponse → BaseResponse
  | .ping r => r.BaseResponse
  | .listDomains r => r.BaseResponse
  | .getNameServers r => r.BaseResponse
  | .updateNameServers r => r.BaseResponse
  | .getDomainURLForwarding r => r.BaseResponse
  | .addDomainUrlForward r => r.BaseResponse
  | .deleteDomainUrlForward r => r.BaseResponse
  | .getRecords r => r.BaseResponse
  | .createRecord r => r.BaseResponse
  | .editRecord r => r.BaseResponse
  | .deleteRecord r => r.BaseResponse
  | .sslRetrieve r => r.BaseResponse
  | .pricing r => r.BaseResponse

/-- A response type seen through one constructor of `TypedResponse`: the
target of the decoder is always the struct the method allocated, so a value of
another constructor is left alone. -/
def ResponseType.lift {α : Type} (t : ResponseType α) (wrap : α → TypedResponse)
    (unwrap : TypedResponse → Option α) : ResponseType TypedResponse where
  zero := wrap t.zero
  decode := fun r v =>
    match unwrap r with
    | some a => ⟨wrap (t.decode a v).val, (t.decode a v).saved, (t.decode a v).fatal⟩
    | none => ⟨r, none, none⟩
  attach := fun r resp =>
    match unwrap r with
    | some a => wrap (t.attach a resp)
    | none => r

/-- The response type each endpoint method allocates and decodes into. -/
def EndpointCall.responseType (P : Platform) : EndpointCall → ResponseType TypedResponse
  | .Ping => (PingResponse.type P).lift .ping
      (fun r => match r with
        | .ping a => some a
        | _ => none)
  | .ListDomains _ => (ListDomainsResponse.type P).lift .listDomains
      (fun r => match r with
        | .listDomains a => some a
        | _ => none)
  | .GetNameServers _ => (GetNameServersResponse.type P).lift .getNameServers
      (fun r => match r with
        | .getNameServers a => some a
        | _ => none)
  | .UpdateNameServers _ _ => (UpdateNameServersResponse.type P).lift .updateNameServers
      (fun r => match r with
        | .updateNameServers a => some a
        | _ => none)
  | .GetDomainURLForwarding _ =>
    (GetDomainURLForwardingResponse.type P).lift .getDomainURLForwarding
      (fun r => match r with
        | .getDomainURLForwarding a => some a
        | _ => none)
  | .AddDomainUrlForward _ _ => (AddDomainUrlForwardResponse.type P).lift .addDomainUrlForward
      (fun r => match r with
        | .addDomainUrlForward a => some a
        | _ => none)
  | .DeleteDomainUrlForward _ _ =>
    (DeleteDomainUrlForwardResponse.type P).lift .deleteDomainUrlForward
      (fun r => match r with
        | .deleteDomainUrlForward a => some a
        | _ => none)
  | .GetRecords _ _ => (GetRecordsResponse.type P).lift .getRecords
      (fun r => match r with
        | .getRecords a => some a
        | _ => none)
  | .GetRecordsByType _ _ _ => (GetRecordsResponse.type P).lift .getRecords
      (fun r => match r with
        | .getRecords a => some a
        | _ => none)
  | .CreateRecord _ _ => (CreateRecordResponse.type P).lift .createRecord
      (fun r => match r with
        | .createRecord a => some a
        | _ => none)
  | .EditRecord _ _ _ => (EditRecordResponse.type P).lift .editRecord
      (fun r => match r with
        | .editRecord a => some a
        | _ => none)
  | .EditRecordByType _ _ _ _ => (EditRecordResponse.type P).lift .editRecord
      (fun r => match r with
        | .editRecord a => some a
        | _ => none)
  | .DeleteRecord _ _ => (DeleteRecordResponse.type P).lift .deleteRecord
      (fun r => match r with
        | .deleteRecord a => some a
        | _ => none)
  | .DeleteRecordByType _ _ _ => (DeleteRecordResponse.type P).lift .deleteRecord
      (fun r => match r with
        | .deleteRecord a => some a
        | _ => none)
  | .SslRetrieve _ => (SslRetrieveResponse.type P).lift .sslRetrieve
      (fun r => match r with
        | .sslRetrieve a => some a
        | _ => none)
  | .ListPricing => (PricingResponse.type P).lift .pricing
      (fun r => match r with
        | .pricing a => some a
        | _ => none)

/-- An endpoint method called with a context and its other arguments: the
shared body run with the response type of the method. -/
def Client.endpoint (P : Platform) (c : Client) (ctx : Option Context) (e : EndpointCall) :
    EndpointResult TypedResponse :=
  c.call P ctx e (e.responseType P)

/-- A transport that answers every request with the given status code, headers
and body, and attaches the request to the response. -/
def serverTransport (code : Int) (header : List (String × String)) (body : String) :
    HTTPClient :=
  fun req =>
    .ok { StatusCode := code, Header := header, Body := body, BodyErr := none,
          bodyRead := false, Request := some req }

/-- The typed result an endpoint method returns with an error when the decoder
has not run: the zero response, or nil for `ListPricing`. -/
def untouched {α : Type} (e : EndpointCall) (t : ResponseType α) : Option α :=
  if e = .ListPricing then none else some t.zero

/-! ## Helpers of the statements on typed responses -/

/-- The wire form of a label. -/
def Label.json (l : Label) : JValue :=
  .obj [("id", .str l.ID), ("title", .str l.Title), ("color", .str l.Color)]

/-- A domain as the API sends it: the texts, the two dates in the format of the
API, the string flags (`"1"` / `"0"`), the numeric flags (`1` / `0`) and the
labels, which may be left out. -/
structure DomainWire where
  domain : String
  status : String
  tld : String
  createDate : String
  expireDate : String
  securityLock : Bool
  whoisPrivacy : Bool
  autoRenew : Bool
  notLocal : Bool
  labels : Option (List Label)
  deriving DecidableEq, Repr

/-- The JSON object of a domain on the wire. -/
def DomainWire.json (w : DomainWire) : JValue :=
  .obj ([("domain", .str w.domain), ("status", .str w.status), ("tld", .str w.tld),
      ("createDate", .str w.createDate), ("expireDate", .str w.expireDate),
      ("securityLock", .str (if w.securityLock then "1" else "0")),
      ("whoisPrivacy", .str (if w.whoisPrivacy then "1" else "0")),
      ("autoRenew", .num (if w.autoRenew then "1" else "0")),
      ("notLocal", .num (if w.notLocal then "1" else "0"))]
    ++ (match w.labels with
        | none => []
        | some ls => [("labels", .arr (ls.map Label.json))]))

/-- The time a text parses to, the zero time when it does not parse. -/
def parsedTime (s : String) : Time :=
  match timeParse s with
  | .ok t => t
  | .error _ => Time.zero

/-- The `Domain` a wire domain stands for. -/
def DomainWire.toDomain (w : DomainWire) : Domain :=
  { Domain_ := w.domain, Status := w.status, TLD := w.tld,
    CreateDate := parsedTime w.createDate, ExpireDate := parsedTime w.expireDate,
    SecurityLock := w.securityLock, WhoisPrivacy := w.whoisPrivacy,
    AutoRenew := w.autoRenew, NotLocal := w.notLocal,
    Labels := w.labels.map (fun ls => ⟨ls, []⟩) }

/-- Both dates of a wire domain are accepted by `time.Parse`. -/
def DomainWire.datesOk (w : DomainWire) : Bool :=
  (match timeParse w.createDate with
    | .ok _ => true
    | .error _ => false)
  && (match timeParse w.expireDate with
    | .ok _ => true
    | .error _ => false)

/-- The success envelope of `ListDomains` for the given domains. -/
def domainsEnvelope (ws : List DomainWire) : JValue :=
  .obj [("status", .str "SUCCESS"), ("domains", .arr (ws.map DomainWire.json))]

/-- No member of a JSON object selects the field `HTTPResponse`; true of every
value that is not an object. -/
def noResponseKey : JValue → Bool
  | .obj ms => ms.all (fun kv => !keyMatches "HTTPResponse" kv.1)
  | _ => true

/-! # Lemmas and theorems -/

/-! ## Path builder -/

theorem String.append_assoc3 (a b c : String) : a ++ (b ++ c) = a ++ b ++ c := by
  apply String.ext; simp [String.data_append, List.append_assoc]

theorem String.append_empty_right (a : String) : a ++ "" = a := by
  apply String.ext; simp [String.data_append]

theorem buildPathSegments_eq (base : String) (a : List Any) :
    buildPathSegments base a = base ++ slashJoin (presentSegments a) := by
  induction a generalizing base with
  | nil => simp [buildPathSegments, presentSegments, slashJoin, String.append_empty_right]
  | cons v rest ih =>
    rcases v with _ | v | (_ | v)
    · simpa [buildPathSegments, presentSegments, Any.present] using ih base
    · simp only [buildPathSegments, ih]
      simp [presentSegments, Any.present, slashJoin, String.append_assoc3]
    · simpa [buildPathSegments, presentSegments, Any.present] using ih base
    · simp only [buildPathSegments, ih]
      simp [presentSegments, Any.present, slashJoin, String.append_assoc3]

theorem slashJoin_data (l : List String) :
    (slashJoin l).data = (l.map (fun s => '/' :: s.data)).flatten := by
  induction l with
  | nil => rfl
  | cons s rest ih => simp [slashJoin, String.data_append, ih]

theorem hasDoubleSlash_cons (c : Char) (l : List Char) :
    hasDoubleSlash (c :: l) = ((c == '/' && l.head? == some '/') || hasDoubleSlash l) := by
  by_cases hc : c = '/'
  · subst hc
    cases l with
    | nil => simp [hasDoubleSlash]
    | cons d l =>
      by_cases hd : d = '/'
      · subst hd; simp [hasDoubleSlash]
      · rw [hasDoubleSlash]
        · simp [hd]
        · intros; simp_all
  · cases l with
    | nil => simp [hasDoubleSlash, hc]
    | cons d l =>
      rw [hasDoubleSlash]
      · simp [hc]
      · intros; simp_all

theorem hasDoubleSlash_append (x y : List Char) :
    hasDoubleSlash (x ++ y)
      = (hasDoubleSlash x || hasDoubleSlash y
          || (x.getLast? == some '/' && y.head? == some '/')) := by
  induction x with
  | nil => simp [hasDoubleSlash]
  | cons c x ih =>
    rw [List.cons_append, hasDoubleSlash_cons, hasDoubleSlash_cons, ih]
    cases x with
    | nil =>
      cases y with
      | nil => simp [hasDoubleSlash]
      | cons e y => simp [hasDoubleSlash, Bool.or_comm]
    | cons d x =>
      simp only [List.cons_append, List.head?_cons, List.getLast?_cons_cons]
      cases hasDoubleSlash (d :: x) <;> cases hasDoubleSlash y <;> simp

theorem hasDoubleSlash_of_not_mem (y : List Char) (h : '/' ∉ y) :
    hasDoubleSlash y = false := by
  induction y with
  | nil => rfl
  | cons c y ih =>
    rw [hasDoubleSlash_cons, ih (fun hm => h (List.mem_cons_of_mem _ hm))]
    have : c ≠ '/' := fun hc => h (by simp [hc])
    simp [this]

theorem intercalate_slash_cons (p : List Char) (ps : List (List Char)) :
    ['/'].intercalate (p :: ps) = p ++ (ps.map (fun q => '/' :: q)).flatten := by
  induction ps generalizing p with
  | nil => simp [List.intercalate]
  | cons q ps ih =>
    have h := ih q
    simp only [List.intercalate, List.intersperse_cons_cons, List.flatten_cons,
      List.map_cons] at h ⊢
    rw [h]; simp

theorem getLast?_ne_slash_of_not_mem (p : List Char) (h : '/' ∉ p) :
    p.getLast? ≠ some '/' := by
  intro hl
  exact h (List.mem_of_getLast?_eq_some hl)

theorem slashPieces_good (pieces : List (List Char))
    (h : ∀ p ∈ pieces, p ≠ [] ∧ '/' ∉ p) :
    hasDoubleSlash ((pieces.map (fun q => '/' :: q)).flatten) = false
      ∧ ((pieces.map (fun q => '/' :: q)).flatten).getLast? ≠ some '/' := by
  induction pieces with
  | nil => simp [hasDoubleSlash]
  | cons p ps ih =>
    obtain ⟨hp1, hp2⟩ := h p (List.mem_cons_self _ _)
    obtain ⟨ih1, ih2⟩ := ih (fun q hq => h q (List.mem_cons_of_mem _ hq))
    have hlast := getLast?_ne_slash_of_not_mem p hp2
    have hhead : p.head? ≠ some '/' := by
      intro hh; exact hp2 (List.mem_of_mem_head? (by simp [hh]))
    simp only [List.map_cons, List.flatten_cons, List.cons_append]
    constructor
    · rw [hasDoubleSlash_cons, hasDoubleSlash_append, ih1, hasDoubleSlash_of_not_mem p hp2]
      have h1 : (p ++ (ps.map (fun q => '/' :: q)).flatten).head? = p.head? := by
        cases p with
        | nil => exact absurd rfl hp1
        | cons c p => rfl
      rw [h1]
      simp [hlast, hhead]
    · rw [← List.cons_append]
      by_cases hne : (ps.map (fun q => '/' :: q)).flatten = []
      · rw [hne, List.append_nil]
        cases p with
        | nil => exact absurd rfl hp1
        | cons c p => rw [List.getLast?_cons_cons]; exact hlast
      · rw [List.getLast?_append_of_ne_nil _ hne]; exact ih2

theorem buildPathSegments_split (ns action : String) (a : List Any)
    (hns : IsComponent ns) (hact : IsComponent action)
    (hseg : ∀ s ∈ presentSegments a, IsComponent s) :
    (buildPathSegments ("/" ++ ns ++ "/" ++ action) a).data.splitOn '/'
        = [] :: ns.data :: action.data :: (presentSegments a).map String.data
      ∧ hasDoubleSlash (buildPathSegments ("/" ++ ns ++ "/" ++ action) a).data = false
      ∧ endsWithSlash (buildPathSegments ("/" ++ ns ++ "/" ++ action) a).data = false := by
  have hpieces : ∀ p ∈ ns.data :: action.data :: (presentSegments a).map String.data,
      p ≠ [] ∧ '/' ∉ p := by
    intro p hp
    simp only [List.mem_cons, List.mem_map] at hp
    rcases hp with rfl | rfl | ⟨s, hs, rfl⟩
    · exact hns
    · exact hact
    · exact hseg s hs
  have hdata : (buildPathSegments ("/" ++ ns ++ "/" ++ action) a).data
      = ((ns.data :: action.data :: (presentSegments a).map String.data).map
          (fun q => '/' :: q)).flatten := by
    rw [buildPathSegments_eq]
    simp [String.data_append, slashJoin_data, List.map_map, Function.comp_def]
  obtain ⟨h1, h2⟩ := slashPieces_good _ hpieces
  rw [hdata]
  refine ⟨?_, h1, ?_⟩
  · have hi := intercalate_slash_cons []
      (ns.data :: action.data :: (presentSegments a).map String.data)
    rw [List.nil_append] at hi
    rw [← hi]
    apply List.splitOn_intercalate
    · intro l hl
      rcases List.mem_cons.mp hl with rfl | hl
      · simp
      · exact (hpieces l hl).2
    · simp
  · simpa [endsWithSlash] using h2

/-- C1: for every action and every list of optional segments, `dnsPath`,
`domainPath` and `sslPath` return `/<namespace>/<action>` followed, for each
present segment in input order, by `/` and the segment's string form; a nil
value and a nil pointer contribute nothing, a non-nil pointer is rendered as
the value it points to, a string is rendered as itself and an integer in base
10.  The two paths of the repository's test are included. -/
theorem path_builder_renders_present_segments (action : String) (a : List Any) :
    dnsPath action a = "/dns/" ++ action ++ slashJoin (presentSegments a)
      ∧ domainPath action a = "/domain/" ++ action ++ slashJoin (presentSegments a)
      ∧ sslPath action a = "/ssl/" ++ action ++ slashJoin (presentSegments a)
      ∧ presentSegments (Any.nil :: a) = presentSegments a
      ∧ presentSegments (Any.ptr none :: a) = presentSegments a
      ∧ (∀ v, presentSegments (Any.ptr (some v) :: a) = v.format :: presentSegments a)
      ∧ (∀ v, presentSegments (Any.val v :: a) = v.format :: presentSegments a)
      ∧ (∀ s, (Scalar.str s).format = s)
      ∧ (∀ s, (Scalar.recordType s).format = s)
      ∧ (Scalar.int64 421766139).format = "421766139"
      ∧ dnsPath "retrieve" [] = "/dns/retrieve"
      ∧ dnsPath "retrieveByNameType" [Any.val (Scalar.str "example.com"), Any.nil]
          = "/dns/retrieveByNameType/example.com"
      ∧ dnsPath "retrieveByNameType"
          [Any.val (Scalar.str "example.com"), Any.val (Scalar.recordType "ALIAS"),
            Any.ptr (some (Scalar.str "www"))]
          = "/dns/retrieveByNameType/example.com/ALIAS/www" := by
  refine ⟨buildPathSegments_eq _ _, buildPathSegments_eq _ _, buildPathSegments_eq _ _,
    rfl, rfl, fun _ => rfl, fun _ => rfl, fun _ => rfl, fun _ => rfl, by decide, by decide,
    by decide, by decide⟩

/-- C2, the claim as stated fails: a present segment that is the empty string
is still appended, so `domainPath("getNs", "")` ends with `/` and
`domainPath("deleteUrlForward", "", "7")` contains `//`. -/
theorem path_builder_empty_segment_counterexample :
    domainPath "getNs" [Any.val (Scalar.str "")] = "/domain/getNs/"
      ∧ endsWithSlash (domainPath "getNs" [Any.val (Scalar.str "")]).data = true
      ∧ domainPath "deleteUrlForward" [Any.val (Scalar.str ""), Any.val (Scalar.str "7")]
          = "/domain/deleteUrlForward//7"
      ∧ hasDoubleSlash
          (domainPath "deleteUrlForward"
            [Any.val (Scalar.str ""), Any.val (Scalar.str "7")]).data = true := by
  decide

/-- C2 as amended: when the action and every present segment render to a
non-empty text without `/`, the path splits at `/` into exactly the namespace,
the action and the present segments in input order (absent ones leave no empty
component), it has no two consecutive `/` and does not end with `/`.  Stated
for the three path functions. -/
theorem path_builder_exact_components (action : String) (a : List Any)
    (hact : IsComponent action) (hseg : ∀ s ∈ presentSegments a, IsComponent s) :
    ((domainPath action a).data.splitOn '/'
        = [] :: "domain".data :: action.data :: (presentSegments a).map String.data
      ∧ hasDoubleSlash (domainPath action a).data = false
      ∧ endsWithSlash (domainPath action a).data = false)
    ∧ ((dnsPath action a).data.splitOn '/'
        = [] :: "dns".data :: action.data :: (presentSegments a).map String.data
      ∧ hasDoubleSlash (dnsPath action a).data = false
      ∧ endsWithSlash (dnsPath action a).data = false)
    ∧ ((sslPath action a).data.splitOn '/'
        = [] :: "ssl".data :: action.data :: (presentSegments a).map String.data
      ∧ hasDoubleSlash (sslPath action a).data = false
      ∧ endsWithSlash (sslPath action a).data = false) := by
  refine ⟨?_, ?_, ?_⟩
  · exact buildPathSegments_split "domain" action a (by decide) hact hseg
  · exact buildPathSegments_split "dns" action a (by decide) hact hseg
  · exact buildPathSegments_split "ssl" action a (by decide) hact hseg

theorem path_builder_exact_components_witness :
    (domainPath "deleteUrlForward"
        [Any.val (Scalar.str "example.com"), Any.nil, Any.ptr none,
          Any.ptr (some (Scalar.int64 7))]).data.splitOn '/'
      = ["".data, "domain".data, "deleteUrlForward".data, "example.com".data, "7".data] :=
  (path_builder_exact_components "deleteUrlForward"
    [Any.val (Scalar.str "example.com"), Any.nil, Any.ptr none,
      Any.ptr (some (Scalar.int64 7))]
    (by decide) (by decide)).1.1

/-! ## Response classification -/

/-- C3: `checkResponse` returns no error if and only if the status code is
exactly 200; for every other status code (201 and 204 included) it returns an
error, whatever the body holds and whatever the platform does. -/
theorem checkResponse_ok_iff_status_200 (P : Platform) (resp : Response) :
    ((checkResponse P resp).1 = none ↔ resp.StatusCode = 200)
      ∧ (∀ (body : String), (checkResponse P { resp with StatusCode := 201, Body := body }).1 ≠ none)
      ∧ (∀ (body : String), (checkResponse P { resp with StatusCode := 204, Body := body }).1 ≠ none) := by
  have key : ∀ r : Response, r.StatusCode ≠ 200 → (checkResponse P r).1 ≠ none := by
    intro r hr
    unfold checkResponse
    rw [if_neg hr]
    split
    · split <;> simp
    · simp
  refine ⟨⟨?_, ?_⟩, ?_, ?_⟩
  · intro h
    by_contra hne
    exact key resp hne h
  · intro h
    simp [checkResponse, h]
  · intro body; exact key _ (by simp)
  · intro body; exact key _ (by simp)

theorem firstErr_none_right (sv : Option Err) : firstErr sv none = sv := by
  cases sv <;> rfl

theorem keyMatches_status_message (k : String) (h : keyMatches "status" k = true) :
    keyMatches "message" k = false := by
  unfold keyMatches at h ⊢
  rw [beq_iff_eq] at h
  rw [h]
  decide

theorem storeLast_filter (name : String) (ms : List (String × JValue)) (cur : String) :
    storeLast name ms cur = storeLast name (membersFor name ms) cur := by
  induction ms generalizing cur with
  | nil => rfl
  | cons kv rest ih =>
    obtain ⟨k, v⟩ := kv
    by_cases hk : keyMatches name k = true
    · simp [membersFor, List.filter_cons, hk, storeLast] at ih ⊢
      exact ih _
    · simp [membersFor, List.filter_cons, hk, storeLast] at ih ⊢
      exact ih _

theorem storeLast_single (name : String) (ms : List (String × JValue)) (cur k s : String)
    (h : membersFor name ms = [(k, JValue.str s)]) : storeLast name ms cur = s := by
  have hk : keyMatches name k = true := by
    have hm : (k, JValue.str s) ∈ membersFor name ms := by rw [h]; simp
    simpa using (List.mem_filter.mp hm).2
  rw [storeLast_filter, h]
  simp [storeLast, hk, decodeString]

/-- Storing the members of an envelope that does not address `HTTPResponse`
and holds strings under `status` and `message`: no error, the response and the
pointer to it are left alone. -/
theorem decodeMembers_envelope (P : Platform) (ms : List (String × JValue))
    (st : ErrorResponseState) (sv : Option Err)
    (hH : ∀ kv ∈ ms, keyMatches "HTTPResponse" kv.1 = false)
    (hS : ∀ kv ∈ ms, keyMatches "status" kv.1 = true → ∃ s, kv.2 = JValue.str s)
    (hM : ∀ kv ∈ ms, keyMatches "message" kv.1 = true → ∃ s, kv.2 = JValue.str s) :
    decodeMembers (ErrorResponseState.setMember P) ms ⟨st, sv, none⟩
      = ⟨⟨storeLast "status" ms st.Status, storeLast "message" ms st.Message, st.ptr, st.resp⟩,
          sv, none⟩ := by
  induction ms generalizing st sv with
  | nil => rfl
  | cons kv rest ih =>
    obtain ⟨k, v⟩ := kv
    have hH1 : keyMatches "HTTPResponse" k = false := hH (k, v) (List.mem_cons_self _ _)
    have hHr : ∀ kv ∈ rest, keyMatches "HTTPResponse" kv.1 = false :=
      fun kv h => hH kv (List.mem_cons_of_mem _ h)
    have hSr : ∀ kv ∈ rest, keyMatches "status" kv.1 = true → ∃ s, kv.2 = JValue.str s :=
      fun kv h => hS kv (List.mem_cons_of_mem _ h)
    have hMr : ∀ kv ∈ rest, keyMatches "message" kv.1 = true → ∃ s, kv.2 = JValue.str s :=
      fun kv h => hM kv (List.mem_cons_of_mem _ h)
    by_cases hs : keyMatches "status" k = true
    · obtain ⟨s, rfl⟩ := hS (k, v) (List.mem_cons_self _ _) hs
      have hm := keyMatches_status_message k hs
      have step : ErrorResponseState.setMember P st k (JValue.str s)
          = ⟨{ st with Status := s }, none, none⟩ := by
        simp [ErrorResponseState.setMember, hH1, hs, decodeString]
      have h := ih { st with Status := s } sv hHr hSr hMr
      simp only [decodeMembers, step, firstErr_none_right, storeLast, hs, hm, decodeString]
      simpa using h
    · by_cases hm : keyMatches "message" k = true
      · obtain ⟨s, rfl⟩ := hM (k, v) (List.mem_cons_self _ _) hm
        have step : ErrorResponseState.setMember P st k (JValue.str s)
            = ⟨{ st with Message := s }, none, none⟩ := by
          simp [ErrorResponseState.setMember, hH1, hs, hm, decodeString]
        have h := ih { st with Message := s } sv hHr hSr hMr
        simp only [decodeMembers, step, firstErr_none_right, storeLast, hs, hm, decodeString]
        simpa using h
      · have step : ErrorResponseState.setMember P st k v = ⟨st, none, none⟩ := by
          simp [ErrorResponseState.setMember, hH1, hs, hm]
        have h := ih st sv hHr hSr hMr
        simp only [decodeMembers, step, firstErr_none_right, storeLast, hs, hm]
        simpa using h

theorem checkResponse_envelope (P : Platform) (resp : Response)
    (ms : List (String × JValue)) (s m : String)
    (hcode : resp.StatusCode ≠ 200)
    (hbody : decoderReadValue resp.Body.data resp.BodyErr = .ok (.obj ms))
    (hS : membersFor "status" ms = [("status", .str s)])
    (hM : membersFor "message" ms = [("message", .str m)])
    (hH : membersFor "HTTPResponse" ms = []) :
    checkResponse P resp
      = (some (.errorResponse ⟨⟨some { resp with bodyRead := true }, s⟩, m⟩),
          { resp with bodyRead := true }) := by
  have hH1 : ∀ kv ∈ ms, keyMatches "HTTPResponse" kv.1 = false := by
    intro kv hkv
    by_contra hne
    have : kv ∈ membersFor "HTTPResponse" ms :=
      List.mem_filter.mpr ⟨hkv, by simpa using hne⟩
    rw [hH] at this
    exact absurd this (List.not_mem_nil _)
  have hS1 : ∀ kv ∈ ms, keyMatches "status" kv.1 = true → ∃ s, kv.2 = JValue.str s := by
    intro kv hkv hk
    have : kv ∈ membersFor "status" ms := List.mem_filter.mpr ⟨hkv, by simpa using hk⟩
    rw [hS] at this
    simp at this
    exact ⟨s, by rw [this]⟩
  have hM1 : ∀ kv ∈ ms, keyMatches "message" kv.1 = true → ∃ s, kv.2 = JValue.str s := by
    intro kv hkv hk
    have : kv ∈ membersFor "message" ms := List.mem_filter.mpr ⟨hkv, by simpa using hk⟩
    rw [hM] at this
    simp at this
    exact ⟨m, by rw [this]⟩
  have hdec := decodeMembers_envelope P ms ⟨"", "", .shared, { resp with bodyRead := true }⟩
    none hH1 hS1 hM1
  rw [storeLast_single "status" ms "" "status" s hS,
    storeLast_single "message" ms "" "message" m hM] at hdec
  unfold checkResponse
  rw [if_neg hcode]
  unfold decodeErrorResponse
  simp only [hbody, decodeStruct, hdec]
  rfl

/-- C4, the claim as stated fails: a body that is a JSON object with the string
fields `status` and `message` and a further key `HTTPResponse` holding a number
does not decode, so the error is the generic one, not an `ErrorResponse`; and
with a further key `Status` the later value replaces the one of `status`. -/
theorem error_envelope_extra_key_counterexample :
    decoderReadValue
        "\x7b\"status\":\"ERROR\",\"message\":\"boom\",\"HTTPResponse\":1\x7d".data none
      = .ok (.obj [("status", .str "ERROR"), ("message", .str "boom"),
          ("HTTPResponse", .num "1")])
    ∧ (checkResponse Platform.sample
        { StatusCode := 500, Header := [],
          Body := "\x7b\"status\":\"ERROR\",\"message\":\"boom\",\"HTTPResponse\":1\x7d",
          BodyErr := none, bodyRead := false, Request := none }).1
      = some (.text "HTTP error 500: Internal Server Error")
    ∧ (checkResponse Platform.sample
        { StatusCode := 500, Header := [],
          Body := "\x7b\"status\":\"ERROR\",\"message\":\"boom\",\"Status\":\"OK\"\x7d",
          BodyErr := none, bodyRead := false, Request := none }).1
      = some (.errorResponse
          ⟨⟨some { StatusCode := 500, Header := [],
                   Body := "\x7b\"status\":\"ERROR\",\"message\":\"boom\",\"Status\":\"OK\"\x7d",
                   BodyErr := none, bodyRead := true, Request := none }, "OK"⟩, "boom"⟩) :=
  ⟨rfl, by decide, by decide⟩

/-- C4 as amended: for every non-200 status code and every body whose (first)
JSON value is an object in which `status` occurs once with the string `s`,
`message` once with the string `m`, no other key equals `status` or `message`
up to letter case, and no key equals `HTTPResponse` up to letter case, the
error returned by `checkResponse`, and so by `makeRequest`, is the
`ErrorResponse` with Status `s` and Message `m`, the response attached. -/
theorem error_envelope_yields_error_response {α : Type} (P : Platform) (c : Client)
    (cx : Context) (method path : String) (payload : Option Payload)
    (decode : Option (α → JValue → Decoded α)) (obj : α) (req : Request) (resp : Response)
    (ms : List (String × JValue)) (s m : String)
    (hreq : c.newRequest P method path payload = .ok req)
    (hdo : c.httpClient { req with ctx := cx } = .ok resp)
    (hcode : resp.StatusCode ≠ 200)
    (hbody : decoderReadValue resp.Body.data resp.BodyErr = .ok (.obj ms))
    (hS : membersFor "status" ms = [("status", .str s)])
    (hM : membersFor "message" ms = [("message", .str m)])
    (hH : membersFor "HTTPResponse" ms = []) :
    (checkResponse P resp).1
        = some (.errorResponse ⟨⟨some { resp with bodyRead := true }, s⟩, m⟩)
      ∧ (c.makeRequest P (some cx) method path payload decode obj).err
        = some (.errorResponse ⟨⟨some { resp with bodyRead := true }, s⟩, m⟩) := by
  have hc := checkResponse_envelope P resp ms s m hcode hbody hS hM hH
  refine ⟨by rw [hc], ?_⟩
  simp [Client.makeRequest, hreq, Client.request, hdo, hc]

theorem error_envelope_yields_error_response_witness :
    ((testClient (fixedTransport 500
          "\x7b\"status\":\"ERROR\",\"message\":\"Internal Server Error\"\x7d")).makeRequest
        Platform.sample (some Context.background) "POST" "/domain/listAll" none
        (none : Option (Unit → JValue → Decoded Unit)) ()).err
      = some (.errorResponse
          ⟨⟨some { StatusCode := 500, Header := [],
                   Body := "\x7b\"status\":\"ERROR\",\"message\":\"Internal Server Error\"\x7d",
                   BodyErr := none, bodyRead := true,
                   Request := some
                     { Method := "POST",
                       URL := "https://api.porkbun.com/api/json/v3/domain/listAll",
                       Header := [("Content-Type", "application/json"),
                         ("Accept", "application/json"), ("User-Agent", "porkbun-go/1.0.0")],
                       Body := "", ctx := Context.background } }, "ERROR"⟩,
            "Internal Server Error"⟩) :=
  (error_envelope_yields_error_response Platform.sample
    (testClient (fixedTransport 500
      "\x7b\"status\":\"ERROR\",\"message\":\"Internal Server Error\"\x7d"))
    Context.background "POST" "/domain/listAll" none none ()
    { Method := "POST", URL := "https://api.porkbun.com/api/json/v3/domain/listAll",
      Header := [("Content-Type", "application/json"), ("Accept", "application/json"),
        ("User-Agent", "porkbun-go/1.0.0")],
      Body := "", ctx := Context.background }
    { StatusCode := 500, Header := [],
      Body := "\x7b\"status\":\"ERROR\",\"message\":\"Internal Server Error\"\x7d",
      BodyErr := none, bodyRead := false,
      Request := some
        { Method := "POST", URL := "https://api.porkbun.com/api/json/v3/domain/listAll",
          Header := [("Content-Type", "application/json"), ("Accept", "application/json"),
            ("User-Agent", "porkbun-go/1.0.0")],
          Body := "", ctx := Context.background } }
    [("status", .str "ERROR"), ("message", .str "Internal Server Error")]
    "ERROR" "Internal Server Error"
    (by decide) rfl (by decide) rfl rfl rfl rfl).2

theorem isTypeErr_none : IsTypeErr none := by
  intro e h; cases h

theorem isTypeErr_some (a b : String) : IsTypeErr (some (Err.unmarshalType a b)) := by
  intro e h; cases h; exact ⟨a, b, rfl⟩

theorem isTypeErr_firstErr (x y : Option Err) (hx : IsTypeErr x) (hy : IsTypeErr y) :
    IsTypeErr (firstErr x y) := by
  cases x with
  | none => exact hy
  | some e => exact hx

theorem decodeString_saved (cur : String) (v : JValue) : IsTypeErr (decodeString cur v).saved := by
  cases v <;> first | exact isTypeErr_none | exact isTypeErr_some _ _

/-- One member that does not hold an object under `HTTPResponse`: the response
of the call is left alone, decoding goes on, and a recorded error is a type
error. -/
theorem setMember_plain (P : Platform) (st : ErrorResponseState) (k : String) (v : JValue)
    (h : (keyMatches "HTTPResponse" k &&
      (match v with
        | .obj _ => true
        | _ => false)) = false) :
    (ErrorResponseState.setMember P st k v).val.resp = st.resp
      ∧ (ErrorResponseState.setMember P st k v).fatal = none
      ∧ IsTypeErr (ErrorResponseState.setMember P st k v).saved := by
  unfold ErrorResponseState.setMember
  by_cases hk : keyMatches "HTTPResponse" k = true
  · rw [if_pos hk]
    cases v with
    | obj ms => simp [hk] at h
    | null => exact ⟨rfl, rfl, isTypeErr_none⟩
    | bool b => exact ⟨rfl, rfl, isTypeErr_some _ _⟩
    | num l => exact ⟨rfl, rfl, isTypeErr_some _ _⟩
    | str s => exact ⟨rfl, rfl, isTypeErr_some _ _⟩
    | arr xs => exact ⟨rfl, rfl, isTypeErr_some _ _⟩
  · rw [if_neg hk]
    by_cases hs : keyMatches "status" k = true
    · rw [if_pos hs]; exact ⟨rfl, rfl, decodeString_saved _ _⟩
    · rw [if_neg hs]
      by_cases hm : keyMatches "message" k = true
      · rw [if_pos hm]; exact ⟨rfl, rfl, decodeString_saved _ _⟩
      · rw [if_neg hm]; exact ⟨rfl, rfl, isTypeErr_none⟩

theorem decodeMembers_plain (P : Platform) (ms : List (String × JValue))
    (st : ErrorResponseState) (sv : Option Err) (hsv : IsTypeErr sv)
    (h : addressesResponse (.obj ms) = false) :
    (decodeMembers (ErrorResponseState.setMember P) ms ⟨st, sv, none⟩).val.resp = st.resp
      ∧ (decodeMembers (ErrorResponseState.setMember P) ms ⟨st, sv, none⟩).fatal = none
      ∧ IsTypeErr (decodeMembers (ErrorResponseState.setMember P) ms ⟨st, sv, none⟩).saved := by
  induction ms generalizing st sv with
  | nil => exact ⟨rfl, rfl, hsv⟩
  | cons kv rest ih =>
    obtain ⟨k, v⟩ := kv
    simp only [addressesResponse, List.any_cons, Bool.or_eq_false_iff] at h
    obtain ⟨h1, h2⟩ := h
    obtain ⟨s1, s2, s3⟩ := setMember_plain P st k v h1
    have hrest : addressesResponse (.obj rest) = false := by
      simpa [addressesResponse] using h2
    simp only [decodeMembers, s2]
    have := ih (ErrorResponseState.setMember P st k v).val _
      (isTypeErr_firstErr sv _ hsv s3) hrest
    rw [s1] at this
    exact this

theorem skipSpace_eq_nil (l : List Char) (h : skipSpace l = []) :
    ∀ c ∈ l, isSpace c = true := by
  induction l with
  | nil => intro c hc; cases hc
  | cons d l ih =>
    by_cases hd : isSpace d = true
    · simp only [skipSpace, hd, if_true] at h
      intro c hc
      rcases List.mem_cons.mp hc with rfl | hc
      · exact hd
      · exact ih h c hc
    · simp [skipSpace, hd] at h

theorem decoderReadValue_eof (data : List Char) (readErr : Option String)
    (h : decoderReadValue data readErr = .error .eof) : skipSpace data = [] := by
  unfold decoderReadValue at h
  split at h
  · cases h
  · cases h
  · split at h <;> cases h
  · cases h
  · split at h
    · cases h
    · split at h
      · assumption
      · cases h
  · split at h <;> cases h
  · cases h

/-- The decode error of a body that holds a non-space character and does not
address the response: never `io.EOF`, and the response is left alone. -/
theorem decodeErrorResponse_plain (P : Platform) (resp : Response) (e : Err)
    (hns : ∃ c ∈ resp.Body.data, isSpace c = false)
    (hfail : (decodeErrorResponse P resp).1 = some e)
    (hH : ∀ v, decoderReadValue resp.Body.data resp.BodyErr = .ok v →
      addressesResponse v = false) :
    e ≠ Err.eof ∧ (∀ msg, e ≠ Err.text msg) ∧ (∀ r, e ≠ Err.errorResponse r)
      ∧ (decodeErrorResponse P resp).2.resp = resp := by
  unfold decodeErrorResponse at hfail ⊢
  cases hrv : decoderReadValue resp.Body.data resp.BodyErr with
  | error e1 =>
    rw [hrv] at hfail
    simp only [Option.some.injEq] at hfail
    subst hfail
    refine ⟨?_, ?_, ?_, by simp⟩
    · intro he
      rw [he] at hrv
      obtain ⟨c, hc, hsp⟩ := hns
      have := skipSpace_eq_nil _ (decoderReadValue_eof _ _ hrv) c hc
      rw [this] at hsp
      cases hsp
    · intro msg he
      rw [he] at hrv
      unfold decoderReadValue at hrv
      repeat (first | cases hrv | split at hrv)
    · intro r he
      rw [he] at hrv
      unfold decoderReadValue at hrv
      repeat (first | cases hrv | split at hrv)
  | ok v =>
    rw [hrv] at hfail
    have hv := hH v hrv
    simp only at hfail ⊢
    cases v with
    | obj ms =>
      obtain ⟨d1, d2, d3⟩ := decodeMembers_plain P ms ⟨"", "", .shared, resp⟩ none
        isTypeErr_none hv
      simp only [decodeStruct] at hfail ⊢
      simp only [Decoded.err, d2] at hfail
      obtain ⟨a, b, rfl⟩ := d3 e hfail
      exact ⟨by simp, by simp, by simp, d1⟩
    | null => simp [decodeStruct, Decoded.err] at hfail
    | bool b =>
      simp [decodeStruct, Decoded.err] at hfail
      subst hfail
      exact ⟨by simp, by simp, by simp, rfl⟩
    | num l =>
      simp [decodeStruct, Decoded.err] at hfail
      subst hfail
      exact ⟨by simp, by simp, by simp, rfl⟩
    | str s =>
      simp [decodeStruct, Decoded.err] at hfail
      subst hfail
      exact ⟨by simp, by simp, by simp, rfl⟩
    | arr xs =>
      simp [decodeStruct, Decoded.err] at hfail
      subst hfail
      exact ⟨by simp, by simp, by simp, rfl⟩

/-- C5, the claim as stated fails: a body of one space is not empty and cannot
be decoded (the decoder returns `io.EOF`), yet `checkResponse` returns an
`ErrorResponse`, because it lets `io.EOF` pass. -/
theorem undecodable_blank_body_counterexample :
    (" ".data ≠ [])
      ∧ (decodeErrorResponse Platform.sample
          { StatusCode := 400, Header := [], Body := " ", BodyErr := none, bodyRead := true,
            Request := none }).1 = some Err.eof
      ∧ (checkResponse Platform.sample
          { StatusCode := 400, Header := [], Body := " ", BodyErr := none, bodyRead := false,
            Request := none }).1
        = some (.errorResponse
            ⟨⟨some { StatusCode := 400, Header := [], Body := " ", BodyErr := none,
                     bodyRead := true, Request := none }, ""⟩, ""⟩) := by
  decide

/-- C5 as amended: for every non-200 status code `c` and every body that holds
a character other than white space, cannot be decoded as the error envelope
(the decoder returns an error `e`) and holds no object under a key equal to
`HTTPResponse` up to letter case, the error returned by `checkResponse`, and so
by `makeRequest`, is the generic error with the text
`HTTP error <c>: <reason phrase of c>`; it is neither an `ErrorResponse` nor
the decode error `e`. -/
theorem undecodable_body_yields_generic_error {α : Type} (P : Platform) (c : Client)
    (cx : Context) (method path : String) (payload : Option Payload)
    (decode : Option (α → JValue → Decoded α)) (obj : α) (req : Request) (resp : Response)
    (e : Err)
    (hreq : c.newRequest P method path payload = .ok req)
    (hdo : c.httpClient { req with ctx := cx } = .ok resp)
    (hcode : resp.StatusCode ≠ 200)
    (hns : ∃ ch ∈ resp.Body.data, isSpace ch = false)
    (hfail : (decodeErrorResponse P { resp with bodyRead := true }).1 = some e)
    (hH : ∀ v, decoderReadValue resp.Body.data resp.BodyErr = .ok v →
      addressesResponse v = false) :
    (checkResponse P resp).1
        = some (.text ("HTTP error " ++ formatInt resp.StatusCode ++ ": "
            ++ StatusText resp.StatusCode))
      ∧ (c.makeRequest P (some cx) method path payload decode obj).err
        = some (.text ("HTTP error " ++ formatInt resp.StatusCode ++ ": "
            ++ StatusText resp.StatusCode))
      ∧ (∀ r, (checkResponse P resp).1 ≠ some (.errorResponse r))
      ∧ (checkResponse P resp).1 ≠ some e := by
  obtain ⟨h1, h2, -, h4⟩ :=
    decodeErrorResponse_plain P { resp with bodyRead := true } e hns hfail hH
  have hc : checkResponse P resp
      = (some (.text ("HTTP error " ++ formatInt resp.StatusCode ++ ": "
            ++ StatusText resp.StatusCode)), { resp with bodyRead := true }) := by
    unfold checkResponse
    rw [if_neg hcode]
    cases hd : decodeErrorResponse P { resp with bodyRead := true } with
    | mk oe st =>
      rw [hd] at hfail h4
      simp only at hfail h4
      subst hfail
      simp only [h4, if_pos h1]
  refine ⟨by rw [hc], ?_, ?_, ?_⟩
  · simp [Client.makeRequest, hreq, Client.request, hdo, hc]
  · intro r; rw [hc]; simp
  · rw [hc]; intro h
    simp only [Option.some.injEq] at h
    exact h2 _ h.symm

theorem undecodable_body_yields_generic_error_witness :
    ((testClient (fixedTransport 400 "Something went wrong")).makeRequest
        Platform.sample (some Context.background) "POST" "/ping" none
        (none : Option (Unit → JValue → Decoded Unit)) ()).err
      = some (.text "HTTP error 400: Bad Request") :=
  (undecodable_body_yields_generic_error Platform.sample
    (testClient (fixedTransport 400 "Something went wrong"))
    Context.background "POST" "/ping" none none ()
    { Method := "POST", URL := "https://api.porkbun.com/api/json/v3/ping",
      Header := [("Content-Type", "application/json"), ("Accept", "application/json"),
        ("User-Agent", "porkbun-go/1.0.0")],
      Body := "", ctx := Context.background }
    { StatusCode := 400, Header := [], Body := "Something went wrong", BodyErr := none,
      bodyRead := false,
      Request := some
        { Method := "POST", URL := "https://api.porkbun.com/api/json/v3/ping",
          Header := [("Content-Type", "application/json"), ("Accept", "application/json"),
            ("User-Agent", "porkbun-go/1.0.0")],
          Body := "", ctx := Context.background } }
    (Err.jsonSyntax (ScanError.invalidChar 'S'))
    (by decide) rfl (by decide) ⟨'S', by decide, by decide⟩ (by decide)
    (by intro v hv; cases hv)).2.1

/-! ## Request pipeline -/

/-- C6, the claim as stated fails: the request is built before the context is
looked at, so `DeleteRecord(nil, "%", 1)`, whose URL does not parse (`%` is not
followed by two hexadecimal digits), fails with the URL error instead of
`context must be non-nil`. -/
theorem nil_context_unparsable_url_counterexample :
    EndpointCall.path (.DeleteRecord "%" 1) = "/dns/delete/%/1"
      ∧ ((testClient (fixedTransport 200 "")).call Platform.sample none
            (.DeleteRecord "%" 1) (DeleteRecordResponse.type Platform.sample)).err
          = some (.urlParse "https://api.porkbun.com/api/json/v3/dns/delete/%/1")
      ∧ ((testClient (fixedTransport 200 "")).call Platform.sample none
            (.DeleteRecord "%" 1) (DeleteRecordResponse.type Platform.sample)).err
          ≠ some (.text "context must be non-nil") := by
  decide

/-- C6 as amended: for every endpoint call made with a nil context the
transport is never invoked and the call fails; the error is
`context must be non-nil` whenever the request can be built, and the error of
building the request otherwise. -/
theorem nil_context_fails_before_transport {α : Type} (P : Platform) (c : Client)
    (e : EndpointCall) (t : ResponseType α) :
    (c.call P none e t).sent = []
      ∧ (c.call P none e t).err ≠ none
      ∧ (∀ req, c.newRequest P "POST" e.path e.payload = .ok req →
          (c.call P none e t).err = some (.text "context must be non-nil"))
      ∧ (∀ err, c.newRequest P "POST" e.path e.payload = .error err →
          (c.call P none e t).err = some err)
      ∧ Err.Error (.text "context must be non-nil") = some "context must be non-nil" := by
  cases hreq : c.newRequest P "POST" e.path e.payload with
  | error err =>
    simp [Client.call, Client.post, Client.makeRequest, hreq, Err.Error]
  | ok req =>
    simp [Client.call, Client.post, Client.makeRequest, hreq, Client.request, Err.Error]

theorem nil_context_fails_before_transport_witness :
    ((testClient (fixedTransport 200 "")).call Platform.sample none .Ping
        (PingResponse.type Platform.sample)).err = some (.text "context must be non-nil")
      ∧ ((testClient (fixedTransport 200 "")).call Platform.sample none .Ping
        (PingResponse.type Platform.sample)).sent = [] :=
  ⟨(nil_context_fails_before_transport Platform.sample (testClient (fixedTransport 200 ""))
      .Ping (PingResponse.type Platform.sample)).2.2.1
      { Method := "POST", URL := "https://api.porkbun.com/api/json/v3/ping",
        Header := [("Content-Type", "application/json"), ("Accept", "application/json"),
          ("User-Agent", "porkbun-go/1.0.0")],
        Body := "\x7b\"secretapikey\":\"5678\",\"apikey\":\"1234\"\x7d\n",
        ctx := Context.background } (by decide),
   (nil_context_fails_before_transport Platform.sample (testClient (fixedTransport 200 ""))
      .Ping (PingResponse.type Platform.sample)).1⟩

/-! ## Codecs -/

theorem digitChar_isDigit (m : Nat) (h : m < 10) :
    isDigit (Nat.digitChar m) = true ∧ (Nat.digitChar m).toNat - 48 = m := by
  interval_cases m <;> decide

theorem digitsValue_toDigitsCore (fuel : Nat) :
    ∀ (n : Nat) (ds : List Char), n < fuel →
      ∃ k, ∀ a, digitsValue (Nat.toDigitsCore 10 fuel n ds) a = digitsValue ds (a * 10 ^ k + n) := by
  induction fuel with
  | zero => intro n ds h; omega
  | succ fuel ih =>
    intro n ds h
    obtain ⟨hd1, hd2⟩ := digitChar_isDigit (n % 10) (Nat.mod_lt _ (by decide))
    by_cases h0 : n / 10 = 0
    · refine ⟨1, fun a => ?_⟩
      simp only [Nat.toDigitsCore, h0, if_true, digitsValue, hd1, hd2]
      congr 1
      have : n % 10 = n := by omega
      omega
    · obtain ⟨k, hk⟩ := ih (n / 10) (Nat.digitChar (n % 10) :: ds) (by omega)
      refine ⟨k + 1, fun a => ?_⟩
      simp only [Nat.toDigitsCore, h0, if_false]
      rw [hk]
      simp only [digitsValue, hd1, hd2, if_true]
      congr 1
      rw [Nat.pow_succ]
      have := Nat.div_add_mod n 10
      nlinarith [Nat.div_add_mod n 10]

theorem digitsValue_repr (n : Nat) : digitsValue (Nat.repr n).data 0 = some n := by
  obtain ⟨k, hk⟩ := digitsValue_toDigitsCore (n + 1) n [] (by omega)
  have := hk 0
  simpa [Nat.repr, Nat.toDigits, digitsValue] using this
theorem digitsValue_head_isDigit (c : Char) (rest : List Char) (a n : Nat)
    (h : digitsValue (c :: rest) a = some n) : isDigit c = true := by
  by_contra hc
  simp [digitsValue, hc] at h

theorem repr_data_ne_nil (n : Nat) : (Nat.repr n).data ≠ [] := by
  have h : ∀ fuel m ds, Nat.toDigitsCore 10 (fuel + 1) m ds ≠ [] := by
    intro fuel
    induction fuel with
    | zero =>
      intro m ds
      simp only [Nat.toDigitsCore]
      split <;> simp
    | succ fuel ih =>
      intro m ds
      rw [Nat.toDigitsCore]
      split
      · simp
      · exact ih _ _
  simpa [Nat.repr, Nat.toDigits] using h n n []

theorem parseInt64_formatInt (n : Int) (h : inInt64 n) : parseInt64 (formatInt n) = some n := by
  obtain ⟨h1, h2⟩ := h
  unfold formatInt
  by_cases hn : n < 0
  · rw [if_pos hn]
    have hv := digitsValue_repr n.natAbs
    have hne := repr_data_ne_nil n.natAbs
    unfold parseInt64
    rw [String.data_append]
    cases hd : (Nat.repr n.natAbs).data with
    | nil => exact absurd hd hne
    | cons c rest =>
      rw [hd] at hv
      have hle : n.natAbs ≤ 2 ^ 63 := by omega
      simp [hv, hle]
      rw [abs_of_neg hn]; omega
  · rw [if_neg hn]
    have hv := digitsValue_repr n.toNat
    have hne := repr_data_ne_nil n.toNat
    unfold parseInt64
    cases hd : (Nat.repr n.toNat).data with
    | nil => exact absurd hd hne
    | cons c rest =>
      rw [hd] at hv
      have hdig := digitsValue_head_isDigit c rest 0 _ hv
      have hc1 : c ≠ '-' := by intro hc; rw [hc] at hdig; exact absurd hdig (by decide)
      have hc2 : c ≠ '+' := by intro hc; rw [hc] at hdig; exact absurd hdig (by decide)
      have hlt : n.toNat < 2 ^ 63 := by omega
      simp [hc1, hc2, hv, hlt]
      omega

/-- C8: `BoolString` decoding.  The JSON strings `"1"` and `"true"` decode to
true, `"0"` and `"false"` to false; a JSON string decodes exactly as
`strconv.ParseBool` reads its content (true for 1, t, T, TRUE, true, True,
false for 0, f, F, FALSE, false, False) and fails for every other string, such
as `"invalid"`; and decoding fails for every JSON value that is not a string:
a number (such as `1`), a boolean, null, an array or an object. -/
theorem boolString_decoding :
    BoolString.UnmarshalJSON "\"1\"" = .ok true
      ∧ BoolString.UnmarshalJSON "\"true\"" = .ok true
      ∧ BoolString.UnmarshalJSON "\"0\"" = .ok false
      ∧ BoolString.UnmarshalJSON "\"false\"" = .ok false
      ∧ (∀ s, BoolString.decode (.str s)
          = if s ∈ boolTrueWords then .ok true
            else if s ∈ boolFalseWords then .ok false
            else .error (.numError "ParseBool" s))
      ∧ BoolString.UnmarshalJSON "\"invalid\"" = .error (.numError "ParseBool" "invalid")
      ∧ BoolString.UnmarshalJSON "1" = .error (.unmarshalType "number" "string")
      ∧ (∀ lit, BoolString.decode (.num lit) = .error (.unmarshalType "number" "string"))
      ∧ (∀ b, BoolString.decode (.bool b) = .error (.unmarshalType "bool" "string"))
      ∧ BoolString.decode .null = .error (.numError "ParseBool" "")
      ∧ (∀ xs, BoolString.decode (.arr xs) = .error (.unmarshalType "array" "string"))
      ∧ (∀ ms, BoolString.decode (.obj ms) = .error (.unmarshalType "object" "string"))
      ∧ (∀ data v, parseDocument data.data = .ok v →
          BoolString.UnmarshalJSON data = BoolString.decode v)
      ∧ (∀ data e, parseDocument data.data = .error e →
          BoolString.UnmarshalJSON data = .error (.jsonSyntax e)) := by
  refine ⟨by decide, by decide, by decide, by decide, ?_, by decide, by decide,
    fun _ => rfl, fun _ => rfl, by decide, fun _ => rfl, fun _ => rfl, ?_, ?_⟩
  · intro s
    simp [BoolString.decode, decodeString, Decoded.err, parseBool, boolTrueWords,
      boolFalseWords]
  · intro data v h; simp [BoolString.UnmarshalJSON, h]
  · intro data e h; simp [BoolString.UnmarshalJSON, h]

/-- C9, the claim as stated fails twice: the JSON integer 9223372036854775808
does not fit Go's `int`, so decoding it is an error instead of false; and
`null`, which is not a JSON number, decodes to false without error. -/
theorem boolNumber_overflow_and_null_counterexample :
    BoolNumber.UnmarshalJSON "9223372036854775808"
        = .error (.unmarshalType "number 9223372036854775808" "int")
      ∧ BoolNumber.UnmarshalJSON "null" = .ok false := by
  decide

/-- C9 as amended: for every integer `n` in the 64-bit range of Go's `int`,
written in base 10, the decoded value is true exactly when `n = 1`, without
error; decoding an integer outside that range fails; decoding fails when the
wire value is a string (such as `"invalid"`), a boolean, an array or an object;
and `null` decodes to false. -/
theorem boolNumber_decoding (n : Int) (h : inInt64 n) :
    BoolNumber.decode (.num (formatInt n)) = .ok (decide (n = 1))
      ∧ BoolNumber.UnmarshalJSON "1" = .ok true
      ∧ BoolNumber.UnmarshalJSON "0" = .ok false
      ∧ BoolNumber.UnmarshalJSON "2" = .ok false
      ∧ BoolNumber.UnmarshalJSON "-1" = .ok false
      ∧ (∀ lit, parseInt64 lit = none →
          BoolNumber.decode (.num lit) = .error (.unmarshalType ("number " ++ lit) "int"))
      ∧ BoolNumber.UnmarshalJSON "\"invalid\"" = .error (.unmarshalType "string" "int")
      ∧ (∀ s, BoolNumber.decode (.str s) = .error (.unmarshalType "string" "int"))
      ∧ (∀ b, BoolNumber.decode (.bool b) = .error (.unmarshalType "bool" "int"))
      ∧ (∀ xs, BoolNumber.decode (.arr xs) = .error (.unmarshalType "array" "int"))
      ∧ (∀ ms, BoolNumber.decode (.obj ms) = .error (.unmarshalType "object" "int"))
      ∧ BoolNumber.decode .null = .ok false := by
  refine ⟨?_, by decide, by decide, by decide, by decide, ?_, by decide, fun _ => rfl,
    fun _ => rfl, fun _ => rfl, fun _ => rfl, by decide⟩
  · simp [BoolNumber.decode, decodeInt, parseInt64_formatInt n h, Decoded.err]
  · intro lit hl
    simp [BoolNumber.decode, decodeInt, hl, Decoded.err]

theorem boolNumber_decoding_witness :
    BoolNumber.decode (.num (formatInt (-9223372036854775808))) = .ok false :=
  (boolNumber_decoding (-9223372036854775808) (by decide)).1

/-! ## Encoding round trip -/

theorem hexVal_hexDigit (d : Nat) (h : d < 16) : hexVal (hexDigit d) = some d := by
  interval_cases d <;> decide

theorem scanString_cons_plain (fuel : Nat) (c : Char) (tail : List Char)
    (h1 : c ≠ '"') (h2 : c ≠ '\\') (h3 : ¬ c.toNat < 0x20) :
    scanString (fuel + 1) (c :: tail)
      = (scanString fuel tail).map (fun r => (c :: r.1, r.2)) := by
  simp [scanString, h1, h2, h3]

theorem scanString_simpleEscape (fuel : Nat) (e ch : Char) (tail : List Char)
    (he : e ≠ 'u') (hs : simpleEscape e = some ch) :
    scanString (fuel + 1) ('\\' :: e :: tail)
      = (scanString fuel tail).map (fun r => (ch :: r.1, r.2)) := by
  rw [scanString]
  simp [he, hs]

theorem scanString_hex (fuel : Nat) (a b c d : Char) (x y z w : Nat) (tail : List Char)
    (ha : hexVal a = some x) (hb : hexVal b = some y) (hc : hexVal c = some z)
    (hd : hexVal d = some w) (hn : ((x * 16 + y) * 16 + z) * 16 + w < 0xD800) :
    scanString (fuel + 1) ('\\' :: 'u' :: a :: b :: c :: d :: tail)
      = (scanString fuel tail).map
          (fun r => (Char.ofNat (((x * 16 + y) * 16 + z) * 16 + w) :: r.1, r.2)) := by
  rw [scanString]
  have h1 : ¬ (0xD800 ≤ ((x * 16 + y) * 16 + z) * 16 + w) := by omega
  have h2 : ¬ (0xDC00 ≤ ((x * 16 + y) * 16 + z) * 16 + w) := by omega
  simp [scanHex4, ha, hb, hc, hd, h1, h2]

theorem scanString_escapeChar (fuel : Nat) (c : Char) (tail : List Char) :
    scanString (fuel + 1) (escapeChar c ++ tail)
      = (scanString fuel tail).map (fun r => (c :: r.1, r.2)) := by
  unfold escapeChar
  split
  · next h => subst h; exact scanString_simpleEscape fuel _ _ tail (by decide) (by decide)
  split
  · next h => subst h; exact scanString_simpleEscape fuel _ _ tail (by decide) (by decide)
  split
  · next h => subst h; exact scanString_simpleEscape fuel _ _ tail (by decide) (by decide)
  split
  · next h => subst h; exact scanString_simpleEscape fuel _ _ tail (by decide) (by decide)
  split
  · next h => subst h; exact scanString_simpleEscape fuel _ _ tail (by decide) (by decide)
  split
  · next h => subst h; exact scanString_simpleEscape fuel _ _ tail (by decide) (by decide)
  split
  · next h => subst h; exact scanString_simpleEscape fuel _ _ tail (by decide) (by decide)
  split
  · next hq hb _ _ _ _ _ h =>
    have hlt : c.toNat < 64 := by
      rcases h with h | h | h | h
      · omega
      · subst h; decide
      · subst h; decide
      · subst h; decide
    have e := scanString_hex fuel '0' '0' (hexDigit (c.toNat / 16)) (hexDigit (c.toNat % 16))
      0 0 (c.toNat / 16) (c.toNat % 16) tail (by decide) (by decide)
      (hexVal_hexDigit _ (by omega)) (hexVal_hexDigit _ (by omega)) (by omega)
    have hv : ((0 * 16 + 0) * 16 + c.toNat / 16) * 16 + c.toNat % 16 = c.toNat := by omega
    rw [hv, Char.ofNat_toNat] at e
    exact e
  split
  · next h =>
    subst h
    exact scanString_hex fuel '2' '0' '2' '8' 2 0 2 8 tail (by decide) (by decide) (by decide)
      (by decide) (by decide)
  split
  · next h =>
    subst h
    exact scanString_hex fuel '2' '0' '2' '9' 2 0 2 9 tail (by decide) (by decide) (by decide)
      (by decide) (by decide)
  · next hq hb _ _ _ _ _ h _ _ =>
    exact scanString_cons_plain fuel c tail hq hb (fun hh => h (Or.inl hh))

theorem scanString_quoted (s : List Char) (fuel : Nat) (rest : List Char)
    (hf : s.length < fuel) :
    scanString fuel ((s.map escapeChar).flatten ++ '"' :: rest) = .ok (s, rest) := by
  induction s generalizing fuel with
  | nil =>
    cases fuel with
    | zero => simp at hf
    | succ fuel => simp [scanString]
  | cons c s ih =>
    cases fuel with
    | zero => simp at hf
    | succ fuel =>
      simp only [List.map_cons, List.flatten_cons, List.append_assoc]
      rw [scanString_escapeChar, ih fuel (by simpa using hf)]
      rfl

/-! ### Number literals -/

theorem digitsValue_all_digits (l : List Char) (a v : Nat) (h : digitsValue l a = some v) :
    ∀ c ∈ l, isDigit c = true := by
  induction l generalizing a with
  | nil => intro c hc; cases hc
  | cons d l ih =>
    have hd := digitsValue_head_isDigit d l a v h
    simp only [digitsValue, hd, if_true] at h
    intro c hc
    rcases List.mem_cons.mp hc with rfl | hc
    · exact hd
    · exact ih _ h c hc

theorem repr_all_digits (n : Nat) : ∀ c ∈ (Nat.repr n).data, isDigit c = true :=
  digitsValue_all_digits _ 0 n (digitsValue_repr n)

theorem digitChar_ne_zero (m : Nat) (h : m < 10) (h0 : m ≠ 0) : Nat.digitChar m ≠ '0' := by
  interval_cases m <;> first | exact absurd rfl h0 | decide

theorem toDigitsCore_head (fuel : Nat) :
    ∀ (n : Nat) (ds : List Char), n < fuel → n ≠ 0 →
      (Nat.toDigitsCore 10 fuel n ds).head? ≠ some '0' := by
  induction fuel with
  | zero => intro n ds h; omega
  | succ fuel ih =>
    intro n ds h hn
    by_cases h0 : n / 10 = 0
    · simp only [Nat.toDigitsCore, h0, if_true, List.head?_cons]
      have : n % 10 = n := by omega
      rw [this]
      intro hh
      exact digitChar_ne_zero n (by omega) hn (Option.some.inj hh)
    · simp only [Nat.toDigitsCore, h0, if_false]
      exact ih _ _ (by omega) h0

theorem repr_head (n : Nat) (hn : n ≠ 0) : (Nat.repr n).data.head? ≠ some '0' := by
  have := toDigitsCore_head (n + 1) n [] (by omega) hn
  simpa [Nat.repr, Nat.toDigits] using this

theorem spanDigits_append (ds : List Char) (d : Char) (r : List Char)
    (hds : ∀ c ∈ ds, isDigit c = true) (hd : isDigit d = false) :
    spanDigits (ds ++ d :: r) = (ds, d :: r) := by
  induction ds with
  | nil => simp [spanDigits, hd]
  | cons c ds ih =>
    have hc := hds c (List.mem_cons_self _ _)
    have := ih (fun x hx => hds x (List.mem_cons_of_mem _ hx))
    simp [spanDigits, hc, this]

theorem scanFraction_end (d : Char) (r : List Char) (h : d ≠ '.') :
    scanFraction (d :: r) = .ok ([], d :: r) := by
  unfold scanFraction
  split
  · next heq => simp at heq; exact absurd heq.1 h
  · rfl

theorem scanExponent_end (d : Char) (r : List Char) (h1 : d ≠ 'e') (h2 : d ≠ 'E') :
    scanExponent (d :: r) = .ok ([], d :: r) := by
  simp [scanExponent, h1, h2]

theorem scanIntPart_repr (n : Nat) (d : Char) (r : List Char) (hd : isDigit d = false) :
    scanIntPart ((Nat.repr n).data ++ d :: r) = .ok ((Nat.repr n).data, d :: r) := by
  by_cases hn : n = 0
  · subst hn
    have : (Nat.repr 0).data = ['0'] := by decide
    rw [this]
    simp [scanIntPart]
  · have hall := repr_all_digits n
    have hhead := repr_head n hn
    cases hdata : (Nat.repr n).data with
    | nil => exact absurd hdata (repr_data_ne_nil n)
    | cons c ds =>
      rw [hdata] at hall hhead
      have hc0 : c ≠ '0' := by
        intro h; apply hhead; simp [h]
      have hc := hall c (List.mem_cons_self _ _)
      have hsp := spanDigits_append ds d r (fun x hx => hall x (List.mem_cons_of_mem _ hx)) hd
      simp [scanIntPart, hc0, hc, hsp]

theorem scanNumber_formatInt (n : Int) (d : Char) (r : List Char) (hd : endsNumber d) :
    scanNumber ((formatInt n).data ++ d :: r) = .ok ((formatInt n).data, d :: r) := by
  obtain ⟨h1, h2, h3, h4⟩ := hd
  unfold formatInt
  by_cases hn : n < 0
  · rw [if_pos hn, String.data_append]
    have : ("-" : String).data = ['-'] := rfl
    rw [this]
    simp only [List.cons_append, List.nil_append, scanNumber]
    rw [scanIntPart_repr _ d r h1]
    simp only
    rw [scanFraction_end d r h2]
    simp only
    rw [scanExponent_end d r h3 h4]
    simp [Except.map]
  · rw [if_neg hn]
    have hall := repr_all_digits n.toNat
    cases hdata : (Nat.repr n.toNat).data with
    | nil => exact absurd hdata (repr_data_ne_nil _)
    | cons c ds =>
      have hc := hall c (by rw [hdata]; exact List.mem_cons_self _ _)
      have hcm : c ≠ '-' := by intro h; rw [h] at hc; exact absurd hc (by decide)
      have hi := scanIntPart_repr n.toNat d r h1
      rw [hdata] at hi
      unfold scanNumber
      split
      · next heq => simp at heq; exact absurd heq.1 hcm
      · rw [hi]
        simp only
        rw [scanFraction_end d r h2]
        simp only
        rw [scanExponent_end d r h3 h4]
        simp [Except.map]

/-! ### Values, elements and members -/

theorem escape_length (s : List Char) : s.length ≤ ((s.map escapeChar).flatten).length := by
  induction s with
  | nil => simp
  | cons c s ih =>
    have hc : 1 ≤ (escapeChar c).length := by
      unfold escapeChar
      repeat' split
      all_goals simp
    simp only [List.map_cons, List.flatten_cons, List.length_append, List.length_cons]
    omega

theorem parseValue_str (fuel depth : Nat) (s : String) (rest : List Char) :
    parseValue (fuel + 1) depth (quoteString s ++ rest) = .ok (.str s, rest) := by
  have hq : quoteString s ++ rest = '"' :: ((s.data.map escapeChar).flatten ++ '"' :: rest) := by
    simp [quoteString]
  rw [hq, parseValue]
  have hsk : skipSpace ('"' :: ((s.data.map escapeChar).flatten ++ '"' :: rest))
      = '"' :: ((s.data.map escapeChar).flatten ++ '"' :: rest) := by
    simp [skipSpace, isSpace]
  rw [hsk]
  simp only
  rw [scanString_quoted s.data _ rest (by
    have := escape_length s.data
    simp only [List.length_append, List.length_cons]
    omega)]
  simp [Except.map]

theorem parseValue_null (fuel depth : Nat) (rest : List Char) :
    parseValue (fuel + 1) depth ("null".data ++ rest) = .ok (.null, rest) := by
  have : "null".data ++ rest = 'n' :: 'u' :: 'l' :: 'l' :: rest := rfl
  rw [this, parseValue]
  simp [skipSpace, isSpace, scanLiteral, Except.map, isDigit]

theorem parseValue_int (fuel depth : Nat) (n : Int) (d : Char) (r : List Char)
    (hd : endsNumber d) :
    parseValue (fuel + 1) depth ((formatInt n).data ++ d :: r)
      = .ok (.num (formatInt n), d :: r) := by
  have hsc := scanNumber_formatInt n d r hd
  have hne : (formatInt n).data ≠ [] := by
    unfold formatInt
    split
    · simp [String.data_append]
    · exact repr_data_ne_nil _
  cases hdata : (formatInt n).data with
  | nil => exact absurd hdata hne
  | cons c cs =>
    rw [hdata] at hsc
    have hc : c = '-' ∨ isDigit c = true := by
      unfold formatInt at hdata
      split at hdata
      · left
        rw [String.data_append] at hdata
        have : ("-" : String).data = ['-'] := rfl
        rw [this] at hdata
        simp at hdata
        exact hdata.1.symm
      · right
        exact repr_all_digits _ c (by rw [hdata]; exact List.mem_cons_self _ _)
    have hsp : isSpace c = false := by
      rcases hc with rfl | hc
      · decide
      · unfold isSpace
        unfold isDigit at hc
        simp only [Bool.and_eq_true, decide_eq_true_eq] at hc
        have h0 : (48 : Nat) ≤ c.toNat := by
          have := hc.1; exact this
        have e1 : c ≠ ' ' := by rintro rfl; revert h0; decide
        have e2 : c ≠ '\t' := by rintro rfl; revert h0; decide
        have e3 : c ≠ '\r' := by rintro rfl; revert h0; decide
        have e4 : c ≠ '\n' := by rintro rfl; revert h0; decide
        simp [e1, e2, e3, e4]
    have h1 : c ≠ '{' := by
      rcases hc with rfl | hc
      · decide
      · rintro rfl; exact absurd hc (by decide)
    have h2 : c ≠ '[' := by
      rcases hc with rfl | hc
      · decide
      · rintro rfl; exact absurd hc (by decide)
    have h3 : c ≠ '"' := by
      rcases hc with rfl | hc
      · decide
      · rintro rfl; exact absurd hc (by decide)
    rw [List.cons_append, parseValue]
    have hsk : skipSpace (c :: (cs ++ d :: r)) = c :: (cs ++ d :: r) := by
      simp [skipSpace, hsp]
    rw [hsk]
    simp only [h1, h2, h3, if_false]
    rw [if_pos hc]
    rw [← List.cons_append, hsc]
    simp [Except.map, ← hdata]

theorem parseElements_strs (depth : Nat) (l : List String) :
    ∀ (fuel : Nat) (rest : List Char), l.length < fuel →
      parseElements fuel depth (JValue.renderElements (l.map JValue.str) ++ rest)
        = .ok (l.map JValue.str, rest) := by
  induction l with
  | nil =>
    intro fuel rest hf
    cases fuel with
    | zero => omega
    | succ fuel =>
      simp [JValue.renderElements, parseElements, skipSpace, isSpace]
  | cons s l ih =>
    intro fuel rest hf
    cases fuel with
    | zero => omega
    | succ fuel =>
      cases fuel with
      | zero => simp at hf
      | succ fuel =>
        simp only [List.map_cons, JValue.renderElements, JValue.render, List.cons_append,
          List.append_assoc]
        rw [parseElements]
        have hsk : ∀ t, skipSpace (',' :: t) = ',' :: t := by
          intro t; simp [skipSpace, isSpace]
        rw [hsk]
        simp only [if_true]
        rw [parseValue_str]
        simp only
        rw [ih (fuel + 1) rest (by simpa using hf)]
        simp [Except.map]

theorem parseValue_strs (fuel depth : Nat) (l : List String) (rest : List Char)
    (hf : l.length + 1 ≤ fuel) (hd : depth < maxNestingDepth) :
    parseValue (fuel + 1) depth ((JValue.arr (l.map JValue.str)).render ++ rest)
      = .ok (.arr (l.map JValue.str), rest) := by
  cases l with
  | nil =>
    have : (JValue.arr ([].map JValue.str)).render ++ rest = '[' :: ']' :: rest := rfl
    rw [this, parseValue]
    simp [skipSpace, isSpace, hd]
  | cons s l =>
    cases fuel with
    | zero => simp at hf
    | succ fuel =>
      simp only [List.map_cons, JValue.render, List.cons_append, List.append_assoc]
      rw [parseValue]
      have hsk : ∀ t, skipSpace ('[' :: t) = '[' :: t := by
        intro t; simp [skipSpace, isSpace]
      rw [hsk]
      have hq : quoteString s ++ (JValue.renderElements (l.map JValue.str) ++ rest)
          = '"' :: ((s.data.map escapeChar).flatten ++ '"' ::
              (JValue.renderElements (l.map JValue.str) ++ rest)) := by
        simp [quoteString]
      have hsk2 : skipSpace (quoteString s ++ (JValue.renderElements (l.map JValue.str) ++ rest))
          = '"' :: ((s.data.map escapeChar).flatten ++ '"' ::
              (JValue.renderElements (l.map JValue.str) ++ rest)) := by
        rw [hq]; simp [skipSpace, isSpace]
      have hne1 : ('[' : Char) ≠ '{' := by decide
      simp only [hne1, if_false, if_true, hd, hsk2]
      have hne2 : ('"' : Char) ≠ ']' := by decide
      simp only [hne2, if_false]
      rw [← hq, parseValue_str]
      simp only
      rw [parseElements_strs (depth + 1) l (fuel + 1) rest (by simp at hf; omega)]
      simp [Except.map]

theorem endsValue_endsNumber (d : Char) (h : endsValue d) : endsNumber d := by
  rcases h with rfl | rfl | rfl <;> exact ⟨by decide, by decide, by decide, by decide⟩

theorem parseValue_flat (v : JValue) (hv : FlatValue v) (fuel depth : Nat) (d : Char)
    (r : List Char) (hf : vsize v ≤ fuel) (hd : depth < maxNestingDepth) (he : endsValue d) :
    parseValue fuel depth (v.render ++ d :: r) = .ok (v, d :: r) := by
  cases fuel with
  | zero => cases hv <;> simp [vsize] at hf
  | succ fuel =>
    cases hv with
    | str s => simpa [JValue.render] using parseValue_str fuel depth s (d :: r)
    | null => simpa [JValue.render] using parseValue_null fuel depth (d :: r)
    | int n =>
      simpa [JValue.render] using parseValue_int fuel depth n d r (endsValue_endsNumber d he)
    | strs l =>
      exact parseValue_strs fuel depth l (d :: r) (by simp [vsize] at hf; omega) hd

theorem parseMembers_flat (depth : Nat) (hd : depth < maxNestingDepth)
    (ms : List (String × JValue)) :
    ∀ (k : String) (v : JValue) (fuel : Nat) (rest : List Char),
      FlatValue v → (∀ kv ∈ ms, FlatValue kv.2) → msize ((k, v) :: ms) ≤ fuel →
      parseMembers fuel depth
          (quoteString k ++ ':' :: (v.render ++ (JValue.renderMembers ms ++ rest)))
        = .ok ((k, v) :: ms, rest) := by
  induction ms with
  | nil =>
    intro k v fuel rest hv _ hf
    cases fuel with
    | zero => simp [msize] at hf
    | succ fuel =>
      have hq : quoteString k ++ ':' :: (v.render ++ (JValue.renderMembers [] ++ rest))
          = '"' :: ((k.data.map escapeChar).flatten ++ '"' ::
              (':' :: (v.render ++ ('}' :: rest)))) := by
        simp [quoteString, JValue.renderMembers]
      rw [hq, parseMembers]
      have hsk : ∀ t, skipSpace ('"' :: t) = '"' :: t := by
        intro t; simp [skipSpace, isSpace]
      rw [hsk]
      simp only [if_true]
      rw [scanString_quoted k.data _ _ (by
        have := escape_length k.data
        simp only [List.length_append, List.length_cons]
        omega)]
      have hsk2 : ∀ t, skipSpace (':' :: t) = ':' :: t := by
        intro t; simp [skipSpace, isSpace]
      simp only [hsk2, if_true]
      rw [parseValue_flat v hv fuel depth '}' rest (by simp [msize] at hf; omega) hd
        (Or.inr (Or.inl rfl))]
      have hsk3 : ∀ t, skipSpace ('}' :: t) = '}' :: t := by
        intro t; simp [skipSpace, isSpace]
      simp [hsk3]
  | cons kv ms ih =>
    obtain ⟨k2, v2⟩ := kv
    intro k v fuel rest hv hms hf
    cases fuel with
    | zero => simp [msize] at hf
    | succ fuel =>
      have hq : quoteString k ++ ':' :: (v.render ++
            (JValue.renderMembers ((k2, v2) :: ms) ++ rest))
          = '"' :: ((k.data.map escapeChar).flatten ++ '"' ::
              (':' :: (v.render ++ (',' :: (quoteString k2 ++ ':' ::
                (v2.render ++ (JValue.renderMembers ms ++ rest))))))) := by
        simp [quoteString, JValue.renderMembers]
      rw [hq, parseMembers]
      have hsk : ∀ t, skipSpace ('"' :: t) = '"' :: t := by
        intro t; simp [skipSpace, isSpace]
      rw [hsk]
      simp only [if_true]
      rw [scanString_quoted k.data _ _ (by
        have := escape_length k.data
        simp only [List.length_append, List.length_cons]
        omega)]
      have hsk2 : ∀ t, skipSpace (':' :: t) = ':' :: t := by
        intro t; simp [skipSpace, isSpace]
      simp only [hsk2, if_true]
      rw [parseValue_flat v hv fuel depth ',' _ (by simp [msize] at hf; omega) hd (Or.inl rfl)]
      have hsk3 : ∀ t, skipSpace (',' :: t) = ',' :: t := by
        intro t; simp [skipSpace, isSpace]
      simp only [hsk3, if_true]
      rw [ih k2 v2 fuel rest (hms _ (List.mem_cons_self _ _))
        (fun kv h => hms kv (List.mem_cons_of_mem _ h)) (by simp [msize] at hf ⊢; omega)]
      simp [Except.map]

theorem parseValue_flat_object (fuel : Nat) (k : String) (v : JValue)
    (ms : List (String × JValue)) (rest : List Char)
    (hv : FlatValue v) (hms : ∀ kv ∈ ms, FlatValue kv.2) (hf : msize ((k, v) :: ms) ≤ fuel) :
    parseValue (fuel + 1) 0 ((JValue.obj ((k, v) :: ms)).render ++ rest)
      = .ok (.obj ((k, v) :: ms), rest) := by
  have hq : (JValue.obj ((k, v) :: ms)).render ++ rest
      = '{' :: (quoteString k ++ ':' :: (v.render ++ (JValue.renderMembers ms ++ rest))) := by
    simp [JValue.render]
  rw [hq, parseValue]
  have hsk : ∀ t, skipSpace ('{' :: t) = '{' :: t := by
    intro t; simp [skipSpace, isSpace]
  rw [hsk]
  have hq2 : quoteString k ++ ':' :: (v.render ++ (JValue.renderMembers ms ++ rest))
      = '"' :: ((k.data.map escapeChar).flatten ++ '"' ::
          (':' :: (v.render ++ (JValue.renderMembers ms ++ rest)))) := by
    simp [quoteString]
  have hsk2 : skipSpace (quoteString k ++ ':' :: (v.render ++ (JValue.renderMembers ms ++ rest)))
      = '"' :: ((k.data.map escapeChar).flatten ++ '"' ::
          (':' :: (v.render ++ (JValue.renderMembers ms ++ rest)))) := by
    rw [hq2]; simp [skipSpace, isSpace]
  have hd : (0 : Nat) < maxNestingDepth := by decide
  have hne : ('"' : Char) ≠ '}' := by decide
  simp only [if_true, hd, hsk2, hne, if_false]
  rw [← hq2, parseMembers_flat (0 + 1) (by decide) ms k v fuel rest hv hms hf]
  simp [Except.map]

theorem quoteString_length (s : String) : 2 ≤ (quoteString s).length := by
  simp [quoteString]

theorem renderElements_length (l : List JValue) : l.length + 1 ≤ (JValue.renderElements l).length := by
  induction l with
  | nil => simp [JValue.renderElements]
  | cons x l ih => simp [JValue.renderElements]; omega

theorem vsize_le_render (v : JValue) (hv : FlatValue v) : vsize v ≤ v.render.length := by
  cases hv with
  | str s => have := quoteString_length s; simp [vsize, JValue.render]; omega
  | null => decide
  | int n =>
    have hne : (formatInt n).data ≠ [] := by
      unfold formatInt
      split
      · simp [String.data_append]
      · exact repr_data_ne_nil _
    simp only [vsize, JValue.render]
    exact List.length_pos.mpr hne
  | strs l =>
    cases l with
    | nil => decide
    | cons s l =>
      have h1 := quoteString_length s
      have h2 := renderElements_length (l.map JValue.str)
      simp [vsize, JValue.render] at h2 ⊢
      omega

theorem msize_le_render (ms : List (String × JValue)) (h : ∀ kv ∈ ms, FlatValue kv.2) :
    msize ms ≤ (JValue.renderMembers ms).length := by
  induction ms with
  | nil => simp [msize, JValue.renderMembers]
  | cons kv ms ih =>
    obtain ⟨k, v⟩ := kv
    have h1 := vsize_le_render v (h _ (List.mem_cons_self _ _))
    have h2 := ih (fun kv hk => h kv (List.mem_cons_of_mem _ hk))
    have h3 := quoteString_length k
    simp [msize, JValue.renderMembers]
    omega

/-- The encoder's text of an object with flat members, followed by the newline
`Encode` appends, parses back to the same object. -/
theorem parseDocument_render_flat (k : String) (v : JValue) (ms : List (String × JValue))
    (hv : FlatValue v) (hms : ∀ kv ∈ ms, FlatValue kv.2) :
    parseDocument ((JValue.obj ((k, v) :: ms)).render ++ ['\n'])
      = .ok (.obj ((k, v) :: ms)) := by
  unfold parseDocument
  have hf : msize ((k, v) :: ms) ≤ ((JValue.obj ((k, v) :: ms)).render ++ ['\n']).length := by
    have h1 := vsize_le_render v hv
    have h2 := msize_le_render ms hms
    have h3 := quoteString_length k
    simp [msize, JValue.render]
    omega
  rw [parseValue_flat_object _ k v ms ['\n'] hv hms hf]
  simp [skipSpace, isSpace]

theorem own_omitEmpty (key s : String) (h1 : key ≠ "apikey") (h2 : key ≠ "secretapikey") :
    ∀ kv ∈ omitEmpty key s, OwnMember kv := by
  intro kv h
  unfold omitEmpty at h
  split at h
  · cases h
  · simp at h; subst h; exact ⟨FlatValue.str _, h1, h2⟩

theorem own_omitNil (key : String) (s : Option String) (h1 : key ≠ "apikey")
    (h2 : key ≠ "secretapikey") : ∀ kv ∈ omitNil key s, OwnMember kv := by
  intro kv h
  cases s with
  | none => cases h
  | some v => simp [omitNil] at h; subst h; exact ⟨FlatValue.str _, h1, h2⟩

theorem own_append (a b : List (String × JValue)) (ha : ∀ kv ∈ a, OwnMember kv)
    (hb : ∀ kv ∈ b, OwnMember kv) : ∀ kv ∈ a ++ b, OwnMember kv := by
  intro kv h
  rcases List.mem_append.mp h with h | h
  · exact ha kv h
  · exact hb kv h

theorem own_cons (k : String) (v : JValue) (b : List (String × JValue)) (hv : FlatValue v)
    (h1 : k ≠ "apikey") (h2 : k ≠ "secretapikey")
    (hb : ∀ kv ∈ b, OwnMember kv) : ∀ kv ∈ (k, v) :: b, OwnMember kv := by
  intro kv h
  rcases List.mem_cons.mp h with rfl | h
  · exact ⟨hv, h1, h2⟩
  · exact hb kv h

theorem own_nil : ∀ kv ∈ ([] : List (String × JValue)), OwnMember kv := by
  intro kv h; cases h

theorem own_ownMembers (r : CredentialRequest) : ∀ kv ∈ r.ownMembers, OwnMember kv := by
  cases r with
  | ping b => exact own_nil
  | listDomains b s i =>
    exact own_append _ _ (own_omitNil _ _ (by decide) (by decide))
      (own_omitNil _ _ (by decide) (by decide))
  | getNameServers b => exact own_nil
  | updateNameServers b ns =>
    cases ns with
    | none => exact own_cons _ _ _ FlatValue.null (by decide) (by decide) own_nil
    | some l => exact own_cons _ _ _ (FlatValue.strs l) (by decide) (by decide) own_nil
  | getDomainURLForwarding b => exact own_nil
  | addDomainUrlForward b f =>
    cases f with
    | none => exact own_nil
    | some f =>
      exact own_cons _ _ _ (FlatValue.str _) (by decide) (by decide)
        (own_cons _ _ _ (FlatValue.str _) (by decide) (by decide)
          (own_cons _ _ _ (FlatValue.str _) (by decide) (by decide)
            (own_cons _ _ _ (FlatValue.str _) (by decide) (by decide)
              (own_cons _ _ _ (FlatValue.str _) (by decide) (by decide) own_nil))))
  | deleteDomainUrlForward b => exact own_nil
  | getRecords b => exact own_nil
  | createRecord b r =>
    cases r with
    | none => exact own_nil
    | some r =>
      show ∀ kv ∈ DnsRecord.members r, OwnMember kv
      unfold DnsRecord.members
      refine own_append _ _ (own_append _ _ (own_append _ _ (own_append _ _ ?_ ?_)
        (own_omitEmpty _ _ (by decide) (by decide))) (own_omitEmpty _ _ (by decide) (by decide)))
        (own_omitEmpty _ _ (by decide) (by decide))
      · cases r.ID with
        | none => exact own_nil
        | some n => exact own_cons _ _ _ (FlatValue.int n) (by decide) (by decide) own_nil
      · exact own_cons _ _ _ (FlatValue.str _) (by decide) (by decide)
          (own_cons _ _ _ (FlatValue.str _) (by decide) (by decide)
            (own_cons _ _ _ (FlatValue.str _) (by decide) (by decide) own_nil))
  | editRecord b r =>
    cases r with
    | none => exact own_nil
    | some r =>
      show ∀ kv ∈ EditRecord.members r, OwnMember kv
      unfold EditRecord.members
      refine own_append _ _ (own_append _ _ ?_ (own_omitEmpty _ _ (by decide) (by decide)))
        (own_omitEmpty _ _ (by decide) (by decide))
      exact own_cons _ _ _ (FlatValue.str _) (by decide) (by decide)
          (own_cons _ _ _ (FlatValue.str _) (by decide) (by decide)
            (own_cons _ _ _ (FlatValue.str _) (by decide) (by decide) own_nil))
  | editRecordType b r =>
    cases r with
    | none => exact own_nil
    | some r =>
      show ∀ kv ∈ EditTypeRecord.members r, OwnMember kv
      unfold EditTypeRecord.members
      refine own_append _ _ (own_append _ _ ?_ (own_omitEmpty _ _ (by decide) (by decide)))
        (own_omitEmpty _ _ (by decide) (by decide))
      exact own_cons _ _ _ (FlatValue.str _) (by decide) (by decide) own_nil
  | deleteRecord b => exact own_nil
  | sslRetrieve b => exact own_nil

theorem objectGet_none (key : String) (ms : List (String × JValue))
    (h : ∀ kv ∈ ms, kv.1 ≠ key) : objectGet key ms = none := by
  induction ms with
  | nil => rfl
  | cons kv ms ih =>
    obtain ⟨k, v⟩ := kv
    have h1 : k ≠ key := h (k, v) (List.mem_cons_self _ _)
    simp [objectGet, ih (fun kv hk => h kv (List.mem_cons_of_mem _ hk)), h1]

theorem members_eq (r : CredentialRequest) :
    r.members = ("secretapikey", .str r.base.SecretApiKey) :: ("apikey", .str r.base.Apikey)
      :: r.ownMembers := by
  cases r <;> rfl

theorem ownMembers_setCredentials (r : CredentialRequest) (a s : String) :
    (r.SetCredentials a s).ownMembers = r.ownMembers := by
  cases r <;> rfl

theorem base_setCredentials (r : CredentialRequest) (a s : String) :
    (r.SetCredentials a s).base = { SecretApiKey := s, Apikey := a } := by
  cases r <;> rfl

theorem newRequest_ok (P : Platform) (c : Client) (method path : String)
    (payload : Option Payload) (req : Request)
    (h : c.newRequest P method path payload = .ok req) :
    ∃ body, (match payload with
        | none => Except.ok ""
        | some p => encodePayload c.apiKey c.secret p) = .ok body
      ∧ P.parseURL (c.baseURL ++ path) = none
      ∧ req = { Method := if method = "" then "GET" else method, URL := c.baseURL ++ path,
                Header := [("Content-Type", "application/json"), ("Accept", "application/json"),
                  ("User-Agent", formatUserAgent c.userAgent)],
                Body := body, ctx := .background } := by
  unfold Client.newRequest at h
  split at h
  · cases h
  · next body hbody =>
    refine ⟨body, hbody, ?_⟩
    split at h
    · cases h
    · next rq hrq =>
      unfold httpNewRequest at hrq
      by_cases htok : ¬ ((if method = "" then "GET" else method).data.all isTokenChar) = true
      · rw [if_pos htok] at hrq; cases hrq
      · rw [if_neg htok] at hrq
        cases hp : P.parseURL (c.baseURL ++ path) with
        | some e => rw [hp] at hrq; cases hrq
        | none =>
          rw [hp] at hrq
          simp only [Except.ok.injEq] at hrq h
          subst hrq
          exact ⟨rfl, h.symm⟩

/-- C7: for every client with API key `a` and secret key `s` and every
credential-bearing request value, whatever its credential fields held before,
the body `newRequest` serializes parses back as a JSON object that holds the
string `a` under `apikey` and the string `s` under `secretapikey` (first the
member `secretapikey`, then `apikey`, then the members of the request itself,
unchanged); and `SetCredentials(a, s)` sets exactly `Apikey = a` and
`SecretApiKey = s`.  Strings are Unicode text. -/
theorem credentials_round_trip (P : Platform) (c : Client) (method path : String)
    (r : CredentialRequest) (req : Request)
    (hreq : c.newRequest P method path (some (.credential r)) = .ok req) :
    parseDocument req.Body.data
        = .ok (.obj (("secretapikey", .str c.secret) :: ("apikey", .str c.apiKey)
            :: r.ownMembers))
      ∧ objectGet "apikey"
          (("secretapikey", .str c.secret) :: ("apikey", .str c.apiKey) :: r.ownMembers)
        = some (.str c.apiKey)
      ∧ objectGet "secretapikey"
          (("secretapikey", .str c.secret) :: ("apikey", .str c.apiKey) :: r.ownMembers)
        = some (.str c.secret)
      ∧ (BaseRequest.SetCredentials r.base c.apiKey c.secret).Apikey = c.apiKey
      ∧ (BaseRequest.SetCredentials r.base c.apiKey c.secret).SecretApiKey = c.secret
      ∧ (r.SetCredentials c.apiKey c.secret).base
          = { SecretApiKey := c.secret, Apikey := c.apiKey }
      ∧ (r.SetCredentials c.apiKey c.secret).ownMembers = r.ownMembers := by
  have hown := own_ownMembers r
  have hbody : req.Body
      = String.mk ((JValue.obj (r.SetCredentials c.apiKey c.secret).members).render ++ ['\n']) := by
    obtain ⟨body, hb, -, hr⟩ := newRequest_ok P c method path _ req hreq
    simp only [encodePayload, Except.ok.injEq] at hb
    rw [hr, ← hb]
  have hmem : (r.SetCredentials c.apiKey c.secret).members
      = ("secretapikey", .str c.secret) :: ("apikey", .str c.apiKey) :: r.ownMembers := by
    rw [members_eq, base_setCredentials, ownMembers_setCredentials]
  have hno1 : objectGet "apikey" r.ownMembers = none :=
    objectGet_none _ _ (fun kv h => (hown kv h).2.1)
  have hno2 : objectGet "secretapikey" r.ownMembers = none :=
    objectGet_none _ _ (fun kv h => (hown kv h).2.2)
  refine ⟨?_, ?_, ?_, rfl, rfl, base_setCredentials r _ _, ownMembers_setCredentials r _ _⟩
  · rw [hbody, hmem]
    exact parseDocument_render_flat _ _ _ (FlatValue.str _)
      (fun kv h => by
        rcases List.mem_cons.mp h with rfl | h
        · exact FlatValue.str _
        · exact (hown kv h).1)
  · simp [objectGet, hno1]
  · simp [objectGet, hno2]

theorem credentials_round_trip_witness :
    parseDocument
        "\x7b\"secretapikey\":\"5678\",\"apikey\":\"1234\",\"start\":\"1000\"\x7d\n".data
      = .ok (.obj [("secretapikey", .str "5678"), ("apikey", .str "1234"),
          ("start", .str "1000")]) :=
  (credentials_round_trip Platform.sample (testClient (fixedTransport 200 "")) "POST"
    "/domain/listAll" (.listDomains ⟨"old-secret", "old-key"⟩ (some "1000") none)
    { Method := "POST", URL := "https://api.porkbun.com/api/json/v3/domain/listAll",
      Header := [("Content-Type", "application/json"), ("Accept", "application/json"),
        ("User-Agent", "porkbun-go/1.0.0")],
      Body := "\x7b\"secretapikey\":\"5678\",\"apikey\":\"1234\",\"start\":\"1000\"\x7d\n",
      ctx := Context.background }
    (by decide)).1

/-! ## Domain decoding -/

theorem isDigit_ne_space (c : Char) (h : isDigit c = true) : c ≠ ' ' := by
  rintro rfl; exact absurd h (by decide)

theorem timeParse_layout (y1 y2 y3 y4 m1 m2 d1 d2 h1 h2 n1 n2 s1 s2 : Char)
    (hy1 : isDigit y1 = true) (hy2 : isDigit y2 = true) (hy3 : isDigit y3 = true)
    (hy4 : isDigit y4 = true) (hm1 : isDigit m1 = true) (hm2 : isDigit m2 = true)
    (hd1 : isDigit d1 = true) (hd2 : isDigit d2 = true) (hh1 : isDigit h1 = true)
    (hh2 : isDigit h2 = true) (hn1 : isDigit n1 = true) (hn2 : isDigit n2 = true)
    (hs1 : isDigit s1 = true) (hs2 : isDigit s2 = true)
    (hmonth : 1 ≤ twoDigits m1 m2 ∧ twoDigits m1 m2 ≤ 12)
    (hday : 1 ≤ twoDigits d1 d2
      ∧ twoDigits d1 d2 ≤ daysIn (twoDigits m1 m2) (fourDigits y1 y2 y3 y4))
    (hhour : twoDigits h1 h2 < 24) (hmin : twoDigits n1 n2 < 60)
    (hsec : twoDigits s1 s2 < 60) :
    timeParse (String.mk [y1, y2, y3, y4, '-', m1, m2, '-', d1, d2, ' ', h1, h2, ':', n1, n2,
        ':', s1, s2])
      = .ok ⟨fourDigits y1 y2 y3 y4, twoDigits m1 m2, twoDigits d1 d2, twoDigits h1 h2,
          twoDigits n1 n2, twoDigits s1 s2, 0⟩ := by
  have hsp := isDigit_ne_space h1 hh1
  unfold twoDigits at hmonth hday hhour hmin hsec
  unfold fourDigits at hday
  have e1 : ¬ ((m1.toNat - 48) * 10 + (m2.toNat - 48) = 0
      ∨ 12 < (m1.toNat - 48) * 10 + (m2.toNat - 48)) := by omega
  have e2 : ¬ (24 ≤ (h1.toNat - 48) * 10 + (h2.toNat - 48)) := by omega
  have e3 : ¬ (60 ≤ (n1.toNat - 48) * 10 + (n2.toNat - 48)) := by omega
  have e4 : ¬ (60 ≤ (s1.toNat - 48) * 10 + (s2.toNat - 48)) := by omega
  have e5 : ¬ ((d1.toNat - 48) * 10 + (d2.toNat - 48) < 1
      ∨ daysIn ((m1.toNat - 48) * 10 + (m2.toNat - 48))
          ((((y1.toNat - 48) * 10 + (y2.toNat - 48)) * 10 + (y3.toNat - 48)) * 10
            + (y4.toNat - 48)) < (d1.toNat - 48) * 10 + (d2.toNat - 48)) := by omega
  simp only [timeParse, getYear, hy1, hy2, hy3, hy4, Bool.and_self, if_true, skipChar,
    Option.bind, getnum, hm1, hm2, e1, if_false, hd1, hd2, skipSpaces, cutspace, hsp, hh1, hh2,
    e2, hn1, hn2, e3, hs1, hs2, e4, fractionalSecond, ne_eq, not_true_eq_false, e5,
    twoDigits, fourDigits]


theorem setMember_createDate (aux : DomainAux) (k : String) (w : JValue)
    (hk : keyMatches "createDate" k = false) :
    (DomainAux.setMember aux k w).val.CreateDate = aux.CreateDate := by
  unfold DomainAux.setMember
  rw [if_neg (by simp [hk])]
  split_ifs <;> rfl

/-- C10, the claim as stated fails.  A `createDate` that does not match the
format does not always give an error beginning `error parsing CreateDate`: the
fields are stored before the dates are parsed, and with `securityLock` holding
`"maybe"` the error is that of `strconv.ParseBool`.  And decoding succeeds for
dates that are not of the fixed form: `time.Parse` accepts a fractional second
after the seconds and an hour of one digit. -/
theorem domain_dates_counterexample :
    isLayoutText "bad" = false
      ∧ (unmarshalDomain "\x7b\"createDate\":\"bad\",\"securityLock\":\"maybe\"\x7d"
          Domain.zero).2 = some (.numError "ParseBool" "maybe")
      ∧ isLayoutText "2023-01-01 12:00:00.5" = false
      ∧ isLayoutText "2024-01-01 1:00:00" = false
      ∧ (unmarshalDomain
          "\x7b\"createDate\":\"2023-01-01 12:00:00.5\",\"expireDate\":\"2024-01-01 1:00:00\"\x7d"
          Domain.zero).2 = none := by
  decide

/-- C10 as amended: decoding a `Domain` succeeds only if both `createDate` and
`expireDate` are accepted by `time.Parse` for the layout `2006-01-02 15:04:05`,
and the decoded dates are the parsed ones; every text of the fixed form
`YYYY-MM-DD HH:MM:SS` that denotes an existing date and time is accepted
(`2023-01-01 12:00:00` parses); when the fields of the JSON object are stored
without error and `createDate` is not accepted (including when it is absent,
the empty text) the decode fails with `error parsing CreateDate: ` followed by
the parse error, and when `createDate` is accepted but `expireDate` is not
(e.g. `invalid-date`) with `error parsing ExpireDate: ` followed by the parse
error. -/
theorem domain_decode_dates (d : Domain) (v : JValue) :
    ((Domain.UnmarshalJSON d v).2 = none →
        timeParse (decodeDomainAux d v).val.CreateDate
            = .ok (Domain.UnmarshalJSON d v).1.CreateDate
          ∧ timeParse (decodeDomainAux d v).val.ExpireDate
            = .ok (Domain.UnmarshalJSON d v).1.ExpireDate)
      ∧ (∀ e, (decodeDomainAux d v).err = none → v ≠ .null →
          timeParse (decodeDomainAux d v).val.CreateDate = .error e →
          (Domain.UnmarshalJSON d v).2 = some (.wrapped "error parsing CreateDate: " e))
      ∧ (∀ t e, (decodeDomainAux d v).err = none → v ≠ .null →
          timeParse (decodeDomainAux d v).val.CreateDate = .ok t →
          timeParse (decodeDomainAux d v).val.ExpireDate = .error e →
          (Domain.UnmarshalJSON d v).2 = some (.wrapped "error parsing ExpireDate: " e))
      ∧ (∀ ms, (∀ kv ∈ ms, keyMatches "createDate" kv.1 = false) →
          (decodeDomainAux d (.obj ms)).val.CreateDate = "")
      ∧ timeParse "" = .error (.timeParse "")
      ∧ timeParse "invalid-date" = .error (.timeParse "invalid-date")
      ∧ timeParse "2023-01-01 12:00:00" = .ok ⟨2023, 1, 1, 12, 0, 0, 0⟩
      ∧ (∀ y1 y2 y3 y4 m1 m2 d1 d2 h1 h2 n1 n2 s1 s2 : Char,
          isLayoutText (String.mk [y1, y2, y3, y4, '-', m1, m2, '-', d1, d2, ' ', h1, h2, ':',
            n1, n2, ':', s1, s2]) = true →
          1 ≤ twoDigits m1 m2 ∧ twoDigits m1 m2 ≤ 12 →
          1 ≤ twoDigits d1 d2
            ∧ twoDigits d1 d2 ≤ daysIn (twoDigits m1 m2) (fourDigits y1 y2 y3 y4) →
          twoDigits h1 h2 < 24 → twoDigits n1 n2 < 60 → twoDigits s1 s2 < 60 →
          timeParse (String.mk [y1, y2, y3, y4, '-', m1, m2, '-', d1, d2, ' ', h1, h2, ':',
              n1, n2, ':', s1, s2])
            = .ok ⟨fourDigits y1 y2 y3 y4, twoDigits m1 m2, twoDigits d1 d2, twoDigits h1 h2,
                twoDigits n1 n2, twoDigits s1 s2, 0⟩) := by
  refine ⟨?_, ?_, ?_, ?_, by decide, by decide, by decide, ?_⟩
  · intro h
    unfold Domain.UnmarshalJSON at h ⊢
    cases haux : (decodeDomainAux d v).err with
    | some e => rw [haux] at h; simp at h
    | none =>
      rw [haux] at h
      simp only at h ⊢
      cases v with
      | null => simp at h
      | bool b =>
        cases h1 : timeParse (decodeDomainAux d (.bool b)).val.CreateDate with
        | error e => rw [h1] at h; simp at h
        | ok t1 =>
          cases h2 : timeParse (decodeDomainAux d (.bool b)).val.ExpireDate with
          | error e => rw [h1, h2] at h; simp at h
          | ok t2 => simp
      | num l =>
        cases h1 : timeParse (decodeDomainAux d (.num l)).val.CreateDate with
        | error e => rw [h1] at h; simp at h
        | ok t1 =>
          cases h2 : timeParse (decodeDomainAux d (.num l)).val.ExpireDate with
          | error e => rw [h1, h2] at h; simp at h
          | ok t2 => simp
      | str s =>
        cases h1 : timeParse (decodeDomainAux d (.str s)).val.CreateDate with
        | error e => rw [h1] at h; simp at h
        | ok t1 =>
          cases h2 : timeParse (decodeDomainAux d (.str s)).val.ExpireDate with
          | error e => rw [h1, h2] at h; simp at h
          | ok t2 => simp
      | arr xs =>
        cases h1 : timeParse (decodeDomainAux d (.arr xs)).val.CreateDate with
        | error e => rw [h1] at h; simp at h
        | ok t1 =>
          cases h2 : timeParse (decodeDomainAux d (.arr xs)).val.ExpireDate with
          | error e => rw [h1, h2] at h; simp at h
          | ok t2 => simp
      | obj ms =>
        cases h1 : timeParse (decodeDomainAux d (.obj ms)).val.CreateDate with
        | error e => rw [h1] at h; simp at h
        | ok t1 =>
          cases h2 : timeParse (decodeDomainAux d (.obj ms)).val.ExpireDate with
          | error e => rw [h1, h2] at h; simp at h
          | ok t2 => simp
  · intro e haux hv h1
    unfold Domain.UnmarshalJSON
    rw [haux]
    cases v <;> first | exact absurd rfl hv | simp [h1]
  · intro t e haux hv h1 h2
    unfold Domain.UnmarshalJSON
    rw [haux]
    cases v <;> first | exact absurd rfl hv | simp [h1, h2]
  · intro ms hms
    unfold decodeDomainAux
    simp only [decodeStruct]
    have key : ∀ (ms : List (String × JValue)) (st : Decoded DomainAux),
        (∀ kv ∈ ms, keyMatches "createDate" kv.1 = false) →
        (decodeMembers DomainAux.setMember ms st).val.CreateDate = st.val.CreateDate := by
      intro ms
      induction ms with
      | nil => intro st _; rfl
      | cons kv rest ih =>
        intro st h
        obtain ⟨k, w⟩ := kv
        have hk : keyMatches "createDate" k = false := h (k, w) (List.mem_cons_self _ _)
        simp only [decodeMembers]
        split
        · rfl
        · rw [ih _ (fun kv hkv => h kv (List.mem_cons_of_mem _ hkv))]
          exact setMember_createDate st.val k w hk
    exact key ms _ hms
  · intro y1 y2 y3 y4 m1 m2 d1 d2 h1 h2 n1 n2 s1 s2 hl hmonth hday hhour hmin hsec
    simp only [isLayoutText, Bool.and_eq_true, beq_self_eq_true, and_true] at hl
    obtain ⟨⟨⟨⟨⟨⟨⟨⟨⟨⟨⟨⟨⟨a1, a2⟩, a3⟩, a4⟩, a5⟩, a6⟩, a7⟩, a8⟩, a9⟩, a10⟩, a11⟩, a12⟩, a13⟩, a14⟩ := hl
    exact timeParse_layout y1 y2 y3 y4 m1 m2 d1 d2 h1 h2 n1 n2 s1 s2 a1 a2 a3 a4 a5 a6 a7 a8
      a9 a10 a11 a12 a13 a14 hmonth hday hhour hmin hsec

theorem domain_decode_dates_witness :
    (unmarshalDomain
        "\x7b\"createDate\":\"2024-01-01 12:00:00\",\"expireDate\":\"invalid-date\"\x7d"
        Domain.zero).2
      = some (.wrapped "error parsing ExpireDate: " (.timeParse "invalid-date")) :=
  (domain_decode_dates Domain.zero
    (.obj [("createDate", .str "2024-01-01 12:00:00"), ("expireDate", .str "invalid-date")])).2.2.1
    ⟨2024, 1, 1, 12, 0, 0, 0⟩ (.timeParse "invalid-date") (by decide) (by simp) (by decide)
    (by decide)

/-! ## DNS records and pricing -/

theorem dnsAux_setMember_fatal (aux : DnsRecordAux) (k : String) (v : JValue) :
    (DnsRecordAux.setMember aux k v).fatal = none := by
  unfold DnsRecordAux.setMember
  split_ifs <;> rfl

theorem dnsAux_setMember_id (aux : DnsRecordAux) (k : String) (v : JValue) :
    (DnsRecordAux.setMember aux k v).val.ID
        = (if keyMatches "id" k then (decodeStringPtr aux.ID v).val else aux.ID)
      ∧ (DnsRecordAux.setMember aux k v).val.Alias.ID = aux.Alias.ID := by
  unfold DnsRecordAux.setMember
  split_ifs <;> exact ⟨rfl, rfl⟩

theorem dnsAux_members (ms : List (String × JValue)) :
    ∀ st : Decoded DnsRecordAux, st.fatal = none →
      (decodeMembers DnsRecordAux.setMember ms st).val.ID = storeLastPtr "id" ms st.val.ID
        ∧ (decodeMembers DnsRecordAux.setMember ms st).val.Alias.ID = st.val.Alias.ID := by
  induction ms with
  | nil => intro st _; exact ⟨rfl, rfl⟩
  | cons kv rest ih =>
    intro st hst
    obtain ⟨k, v⟩ := kv
    simp only [decodeMembers, hst, storeLastPtr]
    obtain ⟨h1, h2⟩ := dnsAux_setMember_id st.val k v
    obtain ⟨i1, i2⟩ := ih ⟨(DnsRecordAux.setMember st.val k v).val,
      firstErr st.saved (DnsRecordAux.setMember st.val k v).saved,
      (DnsRecordAux.setMember st.val k v).fatal⟩ (dnsAux_setMember_fatal _ _ _)
    simp only at i1 i2
    rw [i1, i2, h1, h2]
    exact ⟨rfl, rfl⟩

theorem storeLastPtr_filter (name : String) (ms : List (String × JValue)) (cur : Option String) :
    storeLastPtr name ms cur = storeLastPtr name (membersFor name ms) cur := by
  induction ms generalizing cur with
  | nil => rfl
  | cons kv rest ih =>
    obtain ⟨k, v⟩ := kv
    by_cases hk : keyMatches name k = true
    · simp [membersFor, List.filter_cons, hk, storeLastPtr] at ih ⊢
      exact ih _
    · simp [membersFor, List.filter_cons, hk, storeLastPtr] at ih ⊢
      exact ih _

theorem storeLastPtr_single (name : String) (ms : List (String × JValue)) (cur : Option String)
    (k : String) (v : JValue) (h : membersFor name ms = [(k, v)]) :
    storeLastPtr name ms cur = (decodeStringPtr cur v).val := by
  have hk : keyMatches name k = true := by
    have hm : (k, v) ∈ membersFor name ms := by rw [h]; simp
    simpa using (List.mem_filter.mp hm).2
  rw [storeLastPtr_filter, h]
  simp [storeLastPtr, hk]

/-- C11, the claim as stated fails: with `"id": null` the field is present and
not parseable, yet the decode succeeds and the ID stays absent; and with `id`
absent the decode still fails when another field does not fit
(`"name": 5`). -/
theorem dnsRecord_id_counterexample :
    unmarshalDnsRecord "\x7b\"id\":null,\"name\":\"www\"\x7d" DnsRecord.zero
        = (⟨none, "www", "", "", "", "", ""⟩, none)
      ∧ (unmarshalDnsRecord "\x7b\"name\":5\x7d" DnsRecord.zero).2
        = some (.unmarshalType "number" "string") := by
  decide

/-- C11 as amended: for a JSON object whose members are stored into the record
without error, when no key equals `id` (up to letter case) or the one that does
holds `null`, the decode succeeds and the ID is left as it was (absent for a
new record); when `id` is a JSON string holding the base-10 form of a 64-bit
signed integer `n`, the decode succeeds and the ID is `n`; when `id` is a JSON
string that `strconv.ParseInt(_, 10, 64)` rejects (e.g. `abc`, the empty
string, `9223372036854775808`) the decode fails with that error. -/
theorem dnsRecord_id_decoding (d : DnsRecord) (ms : List (String × JValue))
    (hok : (decodeDnsRecordAux d (.obj ms)).err = none) :
    (membersFor "id" ms = [] →
        (DnsRecord.UnmarshalJSON d (.obj ms)).2 = none
          ∧ (DnsRecord.UnmarshalJSON d (.obj ms)).1.ID = d.ID)
      ∧ (∀ k, membersFor "id" ms = [(k, .null)] →
        (DnsRecord.UnmarshalJSON d (.obj ms)).2 = none
          ∧ (DnsRecord.UnmarshalJSON d (.obj ms)).1.ID = d.ID)
      ∧ (∀ k n, inInt64 n → membersFor "id" ms = [(k, .str (formatInt n))] →
        (DnsRecord.UnmarshalJSON d (.obj ms)).2 = none
          ∧ (DnsRecord.UnmarshalJSON d (.obj ms)).1.ID = some n)
      ∧ (∀ k s, membersFor "id" ms = [(k, .str s)] → parseInt64 s = none →
        (DnsRecord.UnmarshalJSON d (.obj ms)).2 = some (.numError "ParseInt" s))
      ∧ parseInt64 "abc" = none ∧ parseInt64 "" = none
      ∧ parseInt64 "9223372036854775808" = none
      ∧ parseInt64 "9223372036854775807" = some 9223372036854775807
      ∧ parseInt64 "-9223372036854775808" = some (-9223372036854775808) := by
  obtain ⟨hid, hal⟩ := dnsAux_members ms ⟨⟨none, d⟩, none, none⟩ rfl
  have hid2 : (decodeDnsRecordAux d (.obj ms)).val.ID = storeLastPtr "id" ms none := hid
  have hal2 : (decodeDnsRecordAux d (.obj ms)).val.Alias.ID = d.ID := hal
  refine ⟨?_, ?_, ?_, ?_, by decide, by decide, by decide, by decide, by decide⟩
  · intro h
    have hn : (decodeDnsRecordAux d (.obj ms)).val.ID = none := by
      rw [hid2, storeLastPtr_filter, h]; rfl
    unfold DnsRecord.UnmarshalJSON
    rw [hok]
    simp only [hn]
    exact ⟨trivial, hal2⟩
  · intro k h
    have hn : (decodeDnsRecordAux d (.obj ms)).val.ID = none := by
      rw [hid2, storeLastPtr_single "id" ms none k .null h]; rfl
    unfold DnsRecord.UnmarshalJSON
    rw [hok]
    simp only [hn]
    exact ⟨trivial, hal2⟩
  · intro k n hn h
    have hs : (decodeDnsRecordAux d (.obj ms)).val.ID = some (formatInt n) := by
      rw [hid2, storeLastPtr_single "id" ms none k _ h]; rfl
    unfold DnsRecord.UnmarshalJSON
    rw [hok]
    simp only [hs, parseInt64_formatInt n hn]
    exact ⟨trivial, trivial⟩
  · intro k s h hp
    have hs : (decodeDnsRecordAux d (.obj ms)).val.ID = some s := by
      rw [hid2, storeLastPtr_single "id" ms none k _ h]; rfl
    unfold DnsRecord.UnmarshalJSON
    rw [hok]
    simp only [hs, hp]

theorem dnsRecord_id_decoding_witness :
    (DnsRecord.UnmarshalJSON DnsRecord.zero
        (.obj [("id", .str (formatInt 421766139)), ("name", .str "www")])).1.ID
      = some 421766139 :=
  ((dnsRecord_id_decoding DnsRecord.zero
      [("id", .str (formatInt 421766139)), ("name", .str "www")] (by decide)).2.2.1
    "id" 421766139 (by decide) rfl).2

/-- C14: `DnsRecordType.IsValid` is true exactly for the twelve strings A, MX,
CNAME, ALIAS, TXT, NS, AAAA, SRV, TLSA, CAA, HTTPS, SVCB, compared as they are
(case-sensitive); it is false for every other string, among them `INVALID`,
the empty string and the lower-case `a`. -/
theorem recordType_isValid_iff (rt : String) :
    (DnsRecordType.IsValid rt = true ↔ rt ∈ recordTypeNames)
      ∧ recordTypeNames.length = 12
      ∧ DnsRecordType.IsValid "A" = true
      ∧ DnsRecordType.IsValid "INVALID" = false
      ∧ DnsRecordType.IsValid "" = false
      ∧ DnsRecordType.IsValid "a" = false
      ∧ DnsRecordType.IsValid "A " = false := by
  refine ⟨?_, by decide, by decide, by decide, by decide, by decide, by decide⟩
  simp [DnsRecordType.IsValid, recordTypeNames]

theorem coupon_decode_json (cp : Coupon) (h1 : inInt64 cp.MaxPerUser) (h2 : inInt64 cp.Amount) :
    Coupon.decode Coupon.zero (couponJSON cp) = ⟨cp, none, none⟩ := by
  have k11 : keyMatches "code" "code" = true := by decide
  have k21 : keyMatches "code" "max_per_user" = false := by decide
  have k22 : keyMatches "max_per_user" "max_per_user" = true := by decide
  have k31 : keyMatches "code" "first_year_only" = false := by decide
  have k32 : keyMatches "max_per_user" "first_year_only" = false := by decide
  have k33 : keyMatches "first_year_only" "first_year_only" = true := by decide
  have k41 : keyMatches "code" "type" = false := by decide
  have k42 : keyMatches "max_per_user" "type" = false := by decide
  have k43 : keyMatches "first_year_only" "type" = false := by decide
  have k44 : keyMatches "type" "type" = true := by decide
  have k51 : keyMatches "code" "amount" = false := by decide
  have k52 : keyMatches "max_per_user" "amount" = false := by decide
  have k53 : keyMatches "first_year_only" "amount" = false := by decide
  have k54 : keyMatches "type" "amount" = false := by decide
  have k55 : keyMatches "amount" "amount" = true := by decide
  simp [Coupon.decode, couponJSON, decodeStruct, decodeMembers, Coupon.setMember, decodeString,
    decodeInt, parseInt64_formatInt _ h1, parseInt64_formatInt _ h2, firstErr, Coupon.zero,
    k11, k21, k22, k31, k32, k33, k41, k42, k43, k44, k51, k52, k53, k54, k55]

theorem mapSet_append {α : Type} (k : String) (v : α) (m : GoMap α)
    (h : k ∉ m.map Prod.fst) : mapSet k v m = m ++ [(k, v)] := by
  induction m with
  | nil => rfl
  | cons kv rest ih =>
    obtain ⟨k2, w⟩ := kv
    simp only [List.map_cons, List.mem_cons, not_or] at h
    have hne : k2 ≠ k := fun e => h.1 e.symm
    simp [mapSet, hne, ih h.2]

theorem decodeMapMembers_coupons (entries : List (String × Coupon)) :
    ∀ (m : GoMap Coupon) (sv : Option Err),
      ((m ++ entries).map Prod.fst).Nodup →
      (∀ kv ∈ entries, inInt64 kv.2.MaxPerUser ∧ inInt64 kv.2.Amount) →
      decodeMapMembers Coupon.decode Coupon.zero
          (entries.map (fun kv => (kv.1, couponJSON kv.2))) ⟨m, sv, none⟩
        = ⟨m ++ entries, sv, none⟩ := by
  induction entries with
  | nil => intro m sv _ _; simp [decodeMapMembers]
  | cons kv rest ih =>
    intro m sv hnd hint
    obtain ⟨k, cp⟩ := kv
    obtain ⟨h1, h2⟩ := hint (k, cp) (List.mem_cons_self _ _)
    have hk : k ∉ m.map Prod.fst := by
      intro hm
      rw [List.map_append, List.nodup_append] at hnd
      exact hnd.2.2 hm (by simp)
    simp only [List.map_cons, decodeMapMembers, coupon_decode_json cp h1 h2,
      firstErr_none_right, mapSet_append k cp m hk]
    have := ih (m ++ [(k, cp)]) sv (by simpa using hnd)
      (fun kv h => hint kv (List.mem_cons_of_mem _ h))
    simpa using this

/-- C12: `Coupons` decoding tries the object shape first and the empty-array
shape second.  A JSON object keyed by `k` distinct coupon codes, each holding a
coupon record (the five fields, the numbers within 64 bits), decodes to the
mapping with exactly those `k` entries; the empty array decodes to the nil
mapping; every non-empty array (e.g. `[1,2]`) fails with the error
`coupons field has an unexpected type`. -/
theorem coupons_decoding (c : Option (GoMap Coupon)) (entries : List (String × Coupon))
    (hkeys : (entries.map Prod.fst).Nodup)
    (hint : ∀ kv ∈ entries, inInt64 kv.2.MaxPerUser ∧ inInt64 kv.2.Amount) :
    Coupons.UnmarshalJSON c (.obj (entries.map (fun kv => (kv.1, couponJSON kv.2))))
        = (some entries, none)
      ∧ (∀ key, mapGet key entries = (entries.find? (fun kv => kv.1 == key)).map Prod.snd)
      ∧ Coupons.UnmarshalJSON c (.arr []) = (none, none)
      ∧ (∀ x xs, Coupons.UnmarshalJSON c (.arr (x :: xs))
          = (c, some (.text "coupons field has an unexpected type")))
      ∧ unmarshalCoupons "[]" c = (none, none)
      ∧ unmarshalCoupons "[1,2]" c = (c, some (.text "coupons field has an unexpected type"))
      ∧ Err.Error (.text "coupons field has an unexpected type")
          = some "coupons field has an unexpected type" := by
  refine ⟨?_, ?_, by simp [Coupons.UnmarshalJSON, decodeMap, decodeAnySlice, Decoded.err],
    ?_, ?_, ?_, rfl⟩
  · have h := decodeMapMembers_coupons entries [] none (by simpa using hkeys) hint
    simp only [List.nil_append] at h
    simp [Coupons.UnmarshalJSON, decodeMap, h, Decoded.err]
  · intro key
    induction entries with
    | nil => rfl
    | cons kv rest ih =>
      obtain ⟨k, cp⟩ := kv
      by_cases hk : k = key
      · simp [mapGet, hk]
      · have := ih (List.Nodup.of_cons (by simpa using hkeys))
          (fun kv h => hint kv (List.mem_cons_of_mem _ h))
        simp [mapGet, hk, this]
  · intro x xs
    simp [Coupons.UnmarshalJSON, decodeMap, decodeAnySlice, Decoded.err, JValue.kind]
  · simp [unmarshalCoupons, unmarshal, Coupons.decode, Coupons.UnmarshalJSON, decodeMap,
      decodeAnySlice, Decoded.err, show parseDocument "[]".data = .ok (.arr []) from rfl]
  · simp [unmarshalCoupons, unmarshal, Coupons.decode, Coupons.UnmarshalJSON, decodeMap,
      decodeAnySlice, Decoded.err, JValue.kind,
      show parseDocument "[1,2]".data = .ok (.arr [.num "1", .num "2"]) from rfl]

theorem coupons_decoding_witness :
    Coupons.UnmarshalJSON none
        (.obj [("AWESOMENESS", couponJSON ⟨"AWESOMENESS", 1, "yes", "amount", 100⟩)])
      = (some [("AWESOMENESS", ⟨"AWESOMENESS", 1, "yes", "amount", 100⟩)], none) :=
  (coupons_decoding none [("AWESOMENESS", ⟨"AWESOMENESS", 1, "yes", "amount", 100⟩)]
    (by decide) (by decide)).1

theorem decodeMembers_fatal_none {α : Type} (step : α → String → JValue → Decoded α)
    (hstep : ∀ a k v, (step a k v).fatal = none) (ms : List (String × JValue)) :
    ∀ st : Decoded α, st.fatal = none → (decodeMembers step ms st).fatal = none := by
  induction ms with
  | nil => intro st h; exact h
  | cons kv rest ih =>
    intro st h
    obtain ⟨k, v⟩ := kv
    simp only [decodeMembers, h]
    exact ih _ (hstep _ _ _)

theorem coupon_decode_fatal (c : Coupon) (v : JValue) : (Coupon.decode c v).fatal = none := by
  unfold Coupon.decode
  cases v with
  | obj ms =>
    exact decodeMembers_fatal_none _ (by
      intro a k w; unfold Coupon.setMember; split_ifs <;> rfl) ms _ rfl
  | _ => rfl

theorem firstErr_ne_none_left (x y : Option Err) (h : x ≠ none) : firstErr x y ≠ none := by
  cases x with
  | none => exact absurd rfl h
  | some e => simp [firstErr]

theorem firstErr_ne_none_right (x y : Option Err) (h : y ≠ none) : firstErr x y ≠ none := by
  cases x with
  | none => simpa [firstErr] using h
  | some e => simp [firstErr]

theorem decodeMapMembers_saved (ms : List (String × JValue)) :
    ∀ d : Decoded (GoMap Coupon), d.fatal = none →
      (d.saved ≠ none ∨ ∃ kv ∈ ms, (Coupon.decode Coupon.zero kv.2).saved ≠ none) →
      (decodeMapMembers Coupon.decode Coupon.zero ms d).saved ≠ none := by
  induction ms with
  | nil =>
    intro d _ h
    rcases h with h | ⟨kv, hkv, _⟩
    · exact h
    · cases hkv
  | cons kv rest ih =>
    intro d hd h
    obtain ⟨k, v⟩ := kv
    simp only [decodeMapMembers, hd, coupon_decode_fatal]
    apply ih _ rfl
    rcases h with h | ⟨kv, hkv, hs⟩
    · exact Or.inl (firstErr_ne_none_left _ _ h)
    · rcases List.mem_cons.mp hkv with rfl | hkv
      · exact Or.inl (firstErr_ne_none_right _ _ hs)
      · exact Or.inr ⟨kv, hkv, hs⟩

theorem coupon_decode_scalar (v : JValue) (h : isScalarOrArray v = true) :
    (Coupon.decode Coupon.zero v).saved ≠ none := by
  cases v <;> simp [isScalarOrArray] at h <;> simp [Coupon.decode, decodeStruct]

/-- C13, the claim as stated fails: `null` is accepted and gives the nil
mapping, and an object holding `null` under a coupon code is accepted too (the
entry is the zero coupon). -/
theorem coupons_null_counterexample :
    unmarshalCoupons "null" none = (none, none)
      ∧ unmarshalCoupons "\x7b\"A\":null\x7d" none = (some [("A", Coupon.zero)], none) := by
  decide

/-- C13 as amended: `Coupons` decoding accepts a JSON object that can be stored
into a map of coupon records, the empty JSON array, and `null`; a string, a
number, a boolean, a non-empty array, and an object that cannot be stored into
such a map (in particular one holding a string, number, boolean or array under
some key) is the decode error `coupons field has an unexpected type`. -/
theorem coupons_accepted_shapes (c : Option (GoMap Coupon)) :
    (∀ s, Coupons.UnmarshalJSON c (.str s)
        = (c, some (.text "coupons field has an unexpected type")))
      ∧ (∀ lit, Coupons.UnmarshalJSON c (.num lit)
        = (c, some (.text "coupons field has an unexpected type")))
      ∧ (∀ b, Coupons.UnmarshalJSON c (.bool b)
        = (c, some (.text "coupons field has an unexpected type")))
      ∧ (∀ x xs, Coupons.UnmarshalJSON c (.arr (x :: xs))
        = (c, some (.text "coupons field has an unexpected type")))
      ∧ (∀ ms,
          (decodeMap "map[string]porkbun.Coupon" Coupon.decode Coupon.zero none (.obj ms)).err
            ≠ none →
          Coupons.UnmarshalJSON c (.obj ms)
            = (c, some (.text "coupons field has an unexpected type")))
      ∧ (∀ ms, (∃ kv ∈ ms, isScalarOrArray kv.2 = true) →
          Coupons.UnmarshalJSON c (.obj ms)
            = (c, some (.text "coupons field has an unexpected type")))
      ∧ (∀ ms,
          (decodeMap "map[string]porkbun.Coupon" Coupon.decode Coupon.zero none (.obj ms)).err
            = none →
          (Coupons.UnmarshalJSON c (.obj ms)).2 = none)
      ∧ Coupons.UnmarshalJSON c (.arr []) = (none, none)
      ∧ Coupons.UnmarshalJSON c .null = (none, none) := by
  have hobj : ∀ ms,
      (decodeMap "map[string]porkbun.Coupon" Coupon.decode Coupon.zero none (.obj ms)).err
        ≠ none →
      Coupons.UnmarshalJSON c (.obj ms)
        = (c, some (.text "coupons field has an unexpected type")) := by
    intro ms h
    unfold Coupons.UnmarshalJSON
    cases he : (decodeMap "map[string]porkbun.Coupon" Coupon.decode Coupon.zero none
        (.obj ms)).err with
    | none => exact absurd he h
    | some e => simp [decodeAnySlice, Decoded.err]
  refine ⟨?_, ?_, ?_, ?_, hobj, ?_, ?_, ?_, ?_⟩
  · intro s; simp [Coupons.UnmarshalJSON, decodeMap, decodeAnySlice, Decoded.err]
  · intro l; simp [Coupons.UnmarshalJSON, decodeMap, decodeAnySlice, Decoded.err]
  · intro b; simp [Coupons.UnmarshalJSON, decodeMap, decodeAnySlice, Decoded.err]
  · intro x xs
    simp [Coupons.UnmarshalJSON, decodeMap, decodeAnySlice, Decoded.err, JValue.kind]
  · intro ms ⟨kv, hkv, hs⟩
    apply hobj
    have hsv := decodeMapMembers_saved ms ⟨[], none, none⟩ rfl
      (Or.inr ⟨kv, hkv, coupon_decode_scalar kv.2 hs⟩)
    simp only [decodeMap, Decoded.err, Option.getD_none]
    split
    · simp
    · exact hsv
  · intro ms h
    unfold Coupons.UnmarshalJSON
    rw [h]
  · simp [Coupons.UnmarshalJSON, decodeMap, decodeAnySlice, Decoded.err]
  · simp [Coupons.UnmarshalJSON, decodeMap, Decoded.err]

/-! ## Endpoint paths, headers and base URL -/

theorem slash_literal (a b x : String) (h : b = a ++ "/") : a ++ ("/" ++ x) = b ++ x := by
  subst h
  rw [String.append_assoc]

/-- What the transport has been handed after an endpoint call: nothing, or the
one request built by `newRequest` for the path and request value of the method,
sent with the method `POST` and the context of the caller. -/
theorem call_sent {α : Type} (P : Platform) (c : Client) (ctx : Option Context)
    (e : EndpointCall) (t : ResponseType α) :
    (c.call P ctx e t).sent = []
      ∨ ∃ cx req, ctx = some cx ∧ c.newRequest P "POST" e.path e.payload = .ok req
          ∧ (c.call P ctx e t).sent = [{ req with ctx := cx }] := by
  cases hreq : c.newRequest P "POST" e.path e.payload with
  | error err =>
    left
    simp only [Client.call, Client.post, Client.makeRequest, hreq]
  | ok req =>
    cases ctx with
    | none =>
      left
      simp [Client.call, Client.post, Client.makeRequest, hreq, Client.request]
    | some cx =>
      right
      refine ⟨cx, req, rfl, rfl, ?_⟩
      simp only [Client.call, Client.post, Client.makeRequest, hreq, Client.request]
      repeat' split
      all_goals rfl

theorem call_sent_built {α : Type} (P : Platform) (c : Client) (cx : Context)
    (e : EndpointCall) (t : ResponseType α) (req : Request)
    (h : c.newRequest P "POST" e.path e.payload = .ok req) :
    (c.call P (some cx) e t).sent
      = [{ Method := "POST", URL := c.baseURL ++ e.path, Header := req.Header,
           Body := req.Body, ctx := cx }] := by
  obtain ⟨body, _, _, hreq⟩ := newRequest_ok P c "POST" _ _ req h
  have hs : (c.call P (some cx) e t).sent = [{ req with ctx := cx }] := by
    simp only [Client.call, Client.post, Client.makeRequest, h, Client.request]
    repeat' split
    all_goals rfl
  rw [hs, hreq]
  simp

/-- C15: for every domain `d`, `GetRecords` posts to `/dns/retrieve/d` when the
record id is absent and to `/dns/retrieve/d/<id in base 10>` when it is present:
called with a context, and the request being built, it hands the transport
exactly one request, with the method `POST` and the base URL followed by that
path (and no request it ever hands over is another one); `example.com` with id
421766139 gives `/dns/retrieve/example.com/421766139`. -/
theorem getRecords_path (d : String) :
    EndpointCall.path (.GetRecords d none) = "/dns/retrieve/" ++ d
      ∧ (∀ n : Int, EndpointCall.path (.GetRecords d (some n))
            = "/dns/retrieve/" ++ d ++ "/" ++ formatInt n)
      ∧ (∀ {α : Type} (P : Platform) (c : Client) (ctx : Option Context) (id : Option Int)
            (t : ResponseType α) (req : Request),
          req ∈ (c.call P ctx (.GetRecords d id) t).sent →
            req.Method = "POST"
              ∧ req.URL = c.baseURL ++ EndpointCall.path (.GetRecords d id))
      ∧ EndpointCall.path (.GetRecords "example.com" (some 421766139))
          = "/dns/retrieve/example.com/421766139"
      ∧ formatInt 9223372036854775807 = "9223372036854775807"
      ∧ formatInt (-9223372036854775808) = "-9223372036854775808"
      ∧ (∀ (P : Platform) (c : Client) (cx : Context) (req : Request),
          c.newRequest P "POST" (EndpointCall.path (.GetRecords d none))
              (EndpointCall.payload (.GetRecords d none)) = .ok req →
          (c.endpoint P (some cx) (.GetRecords d none)).sent
            = [{ Method := "POST", URL := c.baseURL ++ ("/dns/retrieve/" ++ d),
                 Header := req.Header, Body := req.Body, ctx := cx }])
      ∧ (∀ (P : Platform) (c : Client) (cx : Context) (n : Int) (req : Request),
          c.newRequest P "POST" (EndpointCall.path (.GetRecords d (some n)))
              (EndpointCall.payload (.GetRecords d (some n))) = .ok req →
          (c.endpoint P (some cx) (.GetRecords d (some n))).sent
            = [{ Method := "POST",
                 URL := c.baseURL ++ ("/dns/retrieve/" ++ d ++ "/" ++ formatInt n),
                 Header := req.Header, Body := req.Body, ctx := cx }]) := by
  have p1 : EndpointCall.path (.GetRecords d none) = "/dns/retrieve/" ++ d := by
    simp [EndpointCall.path, dnsPath, buildPathSegments, Scalar.format, String.append_assoc]
    exact slash_literal _ _ _ (by decide)
  have p2 : ∀ n : Int, EndpointCall.path (.GetRecords d (some n))
      = "/dns/retrieve/" ++ d ++ "/" ++ formatInt n := by
    intro n
    simp [EndpointCall.path, dnsPath, buildPathSegments, Scalar.format, String.append_assoc]
    exact slash_literal _ _ _ (by decide)
  refine ⟨p1, p2, ?_, by decide, by decide, by decide, ?_, ?_⟩
  · intro α P c ctx id t req hmem
    rcases call_sent P c ctx (.GetRecords d id) t with h | ⟨cx, rq, _, hrq, h⟩
    · rw [h] at hmem; cases hmem
    · rw [h] at hmem
      obtain ⟨body, _, _, hreq⟩ := newRequest_ok P c "POST" _ _ rq hrq
      simp only [List.mem_singleton] at hmem
      subst hmem
      subst hreq
      exact ⟨by simp, rfl⟩
  · intro P c cx req hreq
    unfold Client.endpoint
    rw [call_sent_built P c cx _ _ req hreq, p1]
  · intro P c cx n req hreq
    unfold Client.endpoint
    rw [call_sent_built P c cx _ _ req hreq, p2]

theorem getRecords_path_witness :
    ((testClient (fixedTransport 200 "\x7b\x7d")).endpoint Platform.sample (some .background)
        (.GetRecords "example.com" (some 421766139))).sent
      = [{ Method := "POST",
           URL := "https://api.porkbun.com/api/json/v3/dns/retrieve/example.com/421766139",
           Header := [("Content-Type", "application/json"), ("Accept", "application/json"),
             ("User-Agent", "porkbun-go/1.0.0")],
           Body := "\x7b\"secretapikey\":\"5678\",\"apikey\":\"1234\"\x7d\n",
           ctx := Context.background }] :=
  (getRecords_path "example.com").2.2.2.2.2.2.2 Platform.sample
    (testClient (fixedTransport 200 "\x7b\x7d")) .background 421766139
    { Method := "POST",
      URL := "https://api.porkbun.com/api/json/v3/dns/retrieve/example.com/421766139",
      Header := [("Content-Type", "application/json"), ("Accept", "application/json"),
        ("User-Agent", "porkbun-go/1.0.0")],
      Body := "\x7b\"secretapikey\":\"5678\",\"apikey\":\"1234\"\x7d\n",
      ctx := Context.background } (by decide)

/-- C16: for every domain `d`, record type `t` and optional subdomain `s`,
`GetRecordsByType`, `EditRecordByType` and `DeleteRecordByType` post to
`/dns/<action>/d/t` when `s` is absent and to `/dns/<action>/d/t/s` when it is
present, with the actions `retrieveByNameType`, `editByNameType` and
`deleteByNameType`: called with a context, and the request being built, each
hands the transport exactly one request, with the method `POST` and the base
URL followed by that path; `example.com`, `ALIAS`, `www` gives
`/dns/retrieveByNameType/example.com/ALIAS/www`. -/
theorem byNameType_paths (d t : String) :
    EndpointCall.path (.GetRecordsByType d t none) = "/dns/retrieveByNameType/" ++ d ++ "/" ++ t
      ∧ (∀ s, EndpointCall.path (.GetRecordsByType d t (some s))
            = "/dns/retrieveByNameType/" ++ d ++ "/" ++ t ++ "/" ++ s)
      ∧ (∀ r, EndpointCall.path (.EditRecordByType d t none r)
            = "/dns/editByNameType/" ++ d ++ "/" ++ t)
      ∧ (∀ s r, EndpointCall.path (.EditRecordByType d t (some s) r)
            = "/dns/editByNameType/" ++ d ++ "/" ++ t ++ "/" ++ s)
      ∧ EndpointCall.path (.DeleteRecordByType d t none) = "/dns/deleteByNameType/" ++ d ++ "/" ++ t
      ∧ (∀ s, EndpointCall.path (.DeleteRecordByType d t (some s))
            = "/dns/deleteByNameType/" ++ d ++ "/" ++ t ++ "/" ++ s)
      ∧ (∀ {α : Type} (P : Platform) (c : Client) (ctx : Option Context) (e : EndpointCall)
            (rt : ResponseType α) (req : Request),
          req ∈ (c.call P ctx e rt).sent →
            req.Method = "POST" ∧ req.URL = c.baseURL ++ e.path)
      ∧ EndpointCall.path (.GetRecordsByType "example.com" "ALIAS" (some "www"))
          = "/dns/retrieveByNameType/example.com/ALIAS/www"
      ∧ (∀ (P : Platform) (c : Client) (cx : Context) (s : Option String) (req : Request),
          c.newRequest P "POST" (EndpointCall.path (.GetRecordsByType d t s))
              (EndpointCall.payload (.GetRecordsByType d t s)) = .ok req →
          (c.endpoint P (some cx) (.GetRecordsByType d t s)).sent
            = [{ Method := "POST",
                 URL := c.baseURL ++ (match s with
                   | none => "/dns/retrieveByNameType/" ++ d ++ "/" ++ t
                   | some sub => "/dns/retrieveByNameType/" ++ d ++ "/" ++ t ++ "/" ++ sub),
                 Header := req.Header, Body := req.Body, ctx := cx }])
      ∧ (∀ (P : Platform) (c : Client) (cx : Context) (s : Option String)
            (r : Option EditTypeRecord) (req : Request),
          c.newRequest P "POST" (EndpointCall.path (.EditRecordByType d t s r))
              (EndpointCall.payload (.EditRecordByType d t s r)) = .ok req →
          (c.endpoint P (some cx) (.EditRecordByType d t s r)).sent
            = [{ Method := "POST",
                 URL := c.baseURL ++ (match s with
                   | none => "/dns/editByNameType/" ++ d ++ "/" ++ t
                   | some sub => "/dns/editByNameType/" ++ d ++ "/" ++ t ++ "/" ++ sub),
                 Header := req.Header, Body := req.Body, ctx := cx }])
      ∧ (∀ (P : Platform) (c : Client) (cx : Context) (s : Option String) (req : Request),
          c.newRequest P "POST" (EndpointCall.path (.DeleteRecordByType d t s))
              (EndpointCall.payload (.DeleteRecordByType d t s)) = .ok req →
          (c.endpoint P (some cx) (.DeleteRecordByType d t s)).sent
            = [{ Method := "POST",
                 URL := c.baseURL ++ (match s with
                   | none => "/dns/deleteByNameType/" ++ d ++ "/" ++ t
                   | some sub => "/dns/deleteByNameType/" ++ d ++ "/" ++ t ++ "/" ++ sub),
                 Header := req.Header, Body := req.Body, ctx := cx }]) := by
  have g1 : EndpointCall.path (.GetRecordsByType d t none)
      = "/dns/retrieveByNameType/" ++ d ++ "/" ++ t := by
    simp [EndpointCall.path, dnsPath, buildPathSegments, Scalar.format, String.append_assoc,
      strPtr]
    exact slash_literal _ _ _ (by decide)
  have g2 : ∀ s, EndpointCall.path (.GetRecordsByType d t (some s))
      = "/dns/retrieveByNameType/" ++ d ++ "/" ++ t ++ "/" ++ s := by
    intro s
    simp [EndpointCall.path, dnsPath, buildPathSegments, Scalar.format, String.append_assoc,
      strPtr]
    exact slash_literal _ _ _ (by decide)
  have e1 : ∀ r, EndpointCall.path (.EditRecordByType d t none r)
      = "/dns/editByNameType/" ++ d ++ "/" ++ t := by
    intro r
    simp [EndpointCall.path, dnsPath, buildPathSegments, Scalar.format, String.append_assoc,
      strPtr]
    exact slash_literal _ _ _ (by decide)
  have e2 : ∀ s r, EndpointCall.path (.EditRecordByType d t (some s) r)
      = "/dns/editByNameType/" ++ d ++ "/" ++ t ++ "/" ++ s := by
    intro s r
    simp [EndpointCall.path, dnsPath, buildPathSegments, Scalar.format, String.append_assoc,
      strPtr]
    exact slash_literal _ _ _ (by decide)
  have d1 : EndpointCall.path (.DeleteRecordByType d t none)
      = "/dns/deleteByNameType/" ++ d ++ "/" ++ t := by
    simp [EndpointCall.path, dnsPath, buildPathSegments, Scalar.format, String.append_assoc,
      strPtr]
    exact slash_literal _ _ _ (by decide)
  have d2 : ∀ s, EndpointCall.path (.DeleteRecordByType d t (some s))
      = "/dns/deleteByNameType/" ++ d ++ "/" ++ t ++ "/" ++ s := by
    intro s
    simp [EndpointCall.path, dnsPath, buildPathSegments, Scalar.format, String.append_assoc,
      strPtr]
    exact slash_literal _ _ _ (by decide)
  refine ⟨g1, g2, e1, e2, d1, d2, ?_, by decide, ?_, ?_, ?_⟩
  · intro α P c ctx e rt req hmem
    rcases call_sent P c ctx e rt with h | ⟨cx, rq, _, hrq, h⟩
    · rw [h] at hmem; cases hmem
    · rw [h] at hmem
      obtain ⟨body, _, _, hreq⟩ := newRequest_ok P c "POST" _ _ rq hrq
      simp only [List.mem_singleton] at hmem
      subst hmem
      subst hreq
      exact ⟨by simp, rfl⟩
  · intro P c cx s req hreq
    unfold Client.endpoint
    rw [call_sent_built P c cx _ _ req hreq]
    cases s with
    | none => rw [g1]
    | some sub => rw [g2]
  · intro P c cx s r req hreq
    unfold Client.endpoint
    rw [call_sent_built P c cx _ _ req hreq]
    cases s with
    | none => rw [e1]
    | some sub => rw [e2]
  · intro P c cx s req hreq
    unfold Client.endpoint
    rw [call_sent_built P c cx _ _ req hreq]
    cases s with
    | none => rw [d1]
    | some sub => rw [d2]

theorem byNameType_paths_witness :
    ((testClient (fixedTransport 200 "\x7b\x7d")).endpoint Platform.sample (some .background)
        (.GetRecordsByType "example.com" "ALIAS" (some "www"))).sent
      = [{ Method := "POST",
           URL := "https://api.porkbun.com/api/json/v3/dns/retrieveByNameType/example.com/ALIAS/www",
           Header := [("Content-Type", "application/json"), ("Accept", "application/json"),
             ("User-Agent", "porkbun-go/1.0.0")],
           Body := "\x7b\"secretapikey\":\"5678\",\"apikey\":\"1234\"\x7d\n",
           ctx := Context.background }] :=
  (byNameType_paths "example.com" "ALIAS").2.2.2.2.2.2.2.2.1 Platform.sample
    (testClient (fixedTransport 200 "\x7b\x7d")) .background (some "www")
    { Method := "POST",
      URL := "https://api.porkbun.com/api/json/v3/dns/retrieveByNameType/example.com/ALIAS/www",
      Header := [("Content-Type", "application/json"), ("Accept", "application/json"),
        ("User-Agent", "porkbun-go/1.0.0")],
      Body := "\x7b\"secretapikey\":\"5678\",\"apikey\":\"1234\"\x7d\n",
      ctx := Context.background } (by decide)

/-- C17: every request built by `newRequest` carries exactly the headers
`Content-Type: application/json`, `Accept: application/json` and `User-Agent`,
and the `User-Agent` is the default `porkbun-go/1.0.0` when the configured agent
is the empty string and `<custom> porkbun-go/1.0.0` otherwise. -/
theorem newRequest_headers (P : Platform) (c : Client) (method path : String)
    (payload : Option Payload) (req : Request)
    (h : c.newRequest P method path payload = .ok req) :
    req.Header = [("Content-Type", "application/json"), ("Accept", "application/json"),
        ("User-Agent", formatUserAgent c.userAgent)]
      ∧ (c.userAgent = "" → formatUserAgent c.userAgent = "porkbun-go/1.0.0")
      ∧ (c.userAgent ≠ "" →
          formatUserAgent c.userAgent = c.userAgent ++ " " ++ "porkbun-go/1.0.0")
      ∧ defaultUserAgent = "porkbun-go/1.0.0" := by
  obtain ⟨body, _, _, hreq⟩ := newRequest_ok P c method path payload req h
  subst hreq
  refine ⟨rfl, ?_, ?_, by decide⟩
  · intro hu
    rw [hu]
    decide
  · intro hu
    have hd : defaultUserAgent = "porkbun-go/1.0.0" := by decide
    simp [formatUserAgent, hu, hd]

theorem newRequest_headers_witness :
    ({ Method := "POST", URL := "https://api.porkbun.com/api/json/v3/ping",
       Header := [("Content-Type", "application/json"), ("Accept", "application/json"),
         ("User-Agent", "custom-agent porkbun-go/1.0.0")],
       Body := "", ctx := Context.background } : Request).Header
      = [("Content-Type", "application/json"), ("Accept", "application/json"),
          ("User-Agent", formatUserAgent "custom-agent")] :=
  (newRequest_headers Platform.sample
    { testClient (fixedTransport 200 "") with userAgent := "custom-agent" } "POST" "/ping" none
    { Method := "POST", URL := "https://api.porkbun.com/api/json/v3/ping",
      Header := [("Content-Type", "application/json"), ("Accept", "application/json"),
        ("User-Agent", "custom-agent porkbun-go/1.0.0")],
      Body := "", ctx := Context.background } (by decide)).1

/-- C18: for every `Options` value `o` and every path `p`, each request built by
a client made with `NewClient(o)` has as URL the base URL followed by `p`, the
base URL being `https://api-ipv4.porkbun.com/api/json/v3` when `o.IPv4Only` is
true and `https://api.porkbun.com/api/json/v3` otherwise; `NewClient` stores
`o.ApiKey`, `o.SecretApiKey` and `o.UserAgent` unchanged. -/
theorem newClient_base_url (P : Platform) (dc : HTTPClient) (o : Options) (method p : String)
    (payload : Option Payload) (req : Request)
    (h : (NewClient dc o).newRequest P method p payload = .ok req) :
    req.URL = (if o.IPv4Only then "https://api-ipv4.porkbun.com/api/json/v3"
        else "https://api.porkbun.com/api/json/v3") ++ p
      ∧ (NewClient dc o).baseURL = (if o.IPv4Only then "https://api-ipv4.porkbun.com/api/json/v3"
        else "https://api.porkbun.com/api/json/v3")
      ∧ (NewClient dc o).apiKey = o.ApiKey
      ∧ (NewClient dc o).secret = o.SecretApiKey
      ∧ (NewClient dc o).userAgent = o.UserAgent := by
  obtain ⟨body, _, _, hreq⟩ := newRequest_ok P (NewClient dc o) method p payload req h
  subst hreq
  have hb : (NewClient dc o).baseURL = (if o.IPv4Only then
      "https://api-ipv4.porkbun.com/api/json/v3" else "https://api.porkbun.com/api/json/v3") := by
    cases hv : o.IPv4Only <;> simp [NewClient, hv] <;> decide
  exact ⟨by rw [← hb], hb, rfl, rfl, rfl⟩

theorem newClient_base_url_witness :
    ({ Method := "POST", URL := "https://api-ipv4.porkbun.com/api/json/v3/ping",
       Header := [("Content-Type", "application/json"), ("Accept", "application/json"),
         ("User-Agent", "porkbun-go/1.0.0")],
       Body := "", ctx := Context.background } : Request).URL
      = (if (true : Bool) then "https://api-ipv4.porkbun.com/api/json/v3"
          else "https://api.porkbun.com/api/json/v3") ++ "/ping" :=
  (newClient_base_url Platform.sample (fixedTransport 200 "")
    { HttpClient := none, ApiKey := "1234", SecretApiKey := "5678", IPv4Only := true,
      UserAgent := "" } "POST" "/ping" none
    { Method := "POST", URL := "https://api-ipv4.porkbun.com/api/json/v3/ping",
      Header := [("Content-Type", "application/json"), ("Accept", "application/json"),
        ("User-Agent", "porkbun-go/1.0.0")],
      Body := "", ctx := Context.background } (by decide)).1

/-- C19: `ErrorResponse.Error()` is `Error: <message>` when no transport
response is attached or the attached response has no request, and otherwise
`<method> <url>: <status code> <message>`; for a 500 response with the message
`Internal Server Error` the text ends with `500 Internal Server Error`. -/
theorem errorResponse_error_text (r : ErrorResponse) :
    (r.BaseResponse.HTTPResponse = none → r.Error = "Error: " ++ r.Message)
      ∧ (∀ resp, r.BaseResponse.HTTPResponse = some resp → resp.Request = none →
          r.Error = "Error: " ++ r.Message)
      ∧ (∀ resp req, r.BaseResponse.HTTPResponse = some resp → resp.Request = some req →
          r.Error = req.Method ++ " " ++ req.URL ++ ": " ++ formatInt resp.StatusCode ++ " "
            ++ r.Message)
      ∧ (∀ resp req, r.BaseResponse.HTTPResponse = some resp → resp.Request = some req →
          resp.StatusCode = 500 → r.Message = "Internal Server Error" →
          r.Error = req.Method ++ " " ++ req.URL ++ ": " ++ "500 Internal Server Error")
      ∧ Err.Error (.errorResponse r) = some r.Error := by
  refine ⟨?_, ?_, ?_, ?_, rfl⟩
  · intro h; simp [ErrorResponse.Error, h]
  · intro resp h hr; simp [ErrorResponse.Error, h, hr]
  · intro resp req h hr; simp [ErrorResponse.Error, h, hr]
  · intro resp req h hr hc hm
    have h500 : formatInt 500 = "500" := by decide
    simp [ErrorResponse.Error, h, hr, hc, hm, h500, String.append_assoc]

/-! ## The shared body of the endpoint methods, case by case -/

theorem checkResponse_ok (P : Platform) (resp : Response) (h : resp.StatusCode = 200) :
    checkResponse P resp = (none, resp) := by
  simp [checkResponse, h]

theorem checkResponse_err (P : Platform) (resp : Response) (h : resp.StatusCode ≠ 200) :
    ∃ e r, checkResponse P resp = (some e, r) := by
  unfold checkResponse
  rw [if_neg h]
  rcases hd : decodeErrorResponse P { resp with bodyRead := true } with ⟨_ | err, st⟩
  · exact ⟨_, _, rfl⟩
  · simp only
    split_ifs
    · exact ⟨_, _, rfl⟩
    · exact ⟨_, _, rfl⟩

theorem call_build_error {α : Type} (P : Platform) (c : Client) (ctx : Option Context)
    (e : EndpointCall) (t : ResponseType α) (err : Err)
    (h : c.newRequest P "POST" e.path e.payload = .error err) :
    (c.call P ctx e t).response = untouched e t ∧ (c.call P ctx e t).err = some err
      ∧ (c.call P ctx e t).sent = [] := by
  simp [Client.call, Client.post, Client.makeRequest, h, untouched]

theorem call_nil_context {α : Type} (P : Platform) (c : Client)
    (e : EndpointCall) (t : ResponseType α) (req : Request)
    (h : c.newRequest P "POST" e.path e.payload = .ok req) :
    (c.call P none e t).response = untouched e t
      ∧ (c.call P none e t).err = some (.text "context must be non-nil")
      ∧ (c.call P none e t).sent = [] := by
  simp [Client.call, Client.post, Client.makeRequest, h, Client.request, untouched]

theorem call_transport_error {α : Type} (P : Platform) (c : Client) (cx : Context)
    (e : EndpointCall) (t : ResponseType α) (req : Request) (err : Err)
    (h : c.newRequest P "POST" e.path e.payload = .ok req)
    (hd : c.httpClient { req with ctx := cx } = .error err) :
    (c.call P (some cx) e t).response = untouched e t
      ∧ (c.call P (some cx) e t).err = some err
      ∧ (c.call P (some cx) e t).sent = [{ req with ctx := cx }] := by
  simp [Client.call, Client.post, Client.makeRequest, h, Client.request, hd, untouched]

theorem call_status_error {α : Type} (P : Platform) (c : Client) (cx : Context)
    (e : EndpointCall) (t : ResponseType α) (req : Request) (resp : Response)
    (h : c.newRequest P "POST" e.path e.payload = .ok req)
    (hd : c.httpClient { req with ctx := cx } = .ok resp) (hs : resp.StatusCode ≠ 200) :
    (c.call P (some cx) e t).response = untouched e t
      ∧ (c.call P (some cx) e t).err = (checkResponse P resp).1
      ∧ (checkResponse P resp).1 ≠ none
      ∧ (c.call P (some cx) e t).sent = [{ req with ctx := cx }] := by
  obtain ⟨er, r, hc⟩ := checkResponse_err P resp hs
  simp [Client.call, Client.post, Client.makeRequest, h, Client.request, hd, hc, untouched]

theorem call_body_error {α : Type} (P : Platform) (c : Client) (cx : Context)
    (e : EndpointCall) (t : ResponseType α) (req : Request) (resp : Response) (m : String)
    (h : c.newRequest P "POST" e.path e.payload = .ok req)
    (hd : c.httpClient { req with ctx := cx } = .ok resp) (hs : resp.StatusCode = 200)
    (hb : resp.BodyErr = some m) :
    (c.call P (some cx) e t).response = untouched e t
      ∧ (c.call P (some cx) e t).err = some (.transport m)
      ∧ (c.call P (some cx) e t).sent = [{ req with ctx := cx }] := by
  simp [Client.call, Client.post, Client.makeRequest, h, Client.request, hd,
    checkResponse_ok P resp hs, hb, untouched]

theorem call_decode_error {α : Type} (P : Platform) (c : Client) (cx : Context)
    (e : EndpointCall) (t : ResponseType α) (req : Request) (resp : Response) (er : Err)
    (h : c.newRequest P "POST" e.path e.payload = .ok req)
    (hd : c.httpClient { req with ctx := cx } = .ok resp) (hs : resp.StatusCode = 200)
    (hb : resp.BodyErr = none) (hu : (unmarshal t.decode resp.Body t.zero).2 = some er) :
    (c.call P (some cx) e t).response
        = (if e = .ListPricing then none else some (unmarshal t.decode resp.Body t.zero).1)
      ∧ (c.call P (some cx) e t).err = some er
      ∧ (c.call P (some cx) e t).sent = [{ req with ctx := cx }] := by
  simp [Client.call, Client.post, Client.makeRequest, h, Client.request, hd,
    checkResponse_ok P resp hs, hb, hu]

theorem call_success {α : Type} (P : Platform) (c : Client) (cx : Context)
    (e : EndpointCall) (t : ResponseType α) (req : Request) (resp : Response)
    (h : c.newRequest P "POST" e.path e.payload = .ok req)
    (hd : c.httpClient { req with ctx := cx } = .ok resp) (hs : resp.StatusCode = 200)
    (hb : resp.BodyErr = none) (hu : (unmarshal t.decode resp.Body t.zero).2 = none) :
    (c.call P (some cx) e t).response
        = some (t.attach (unmarshal t.decode resp.Body t.zero).1
            (some { resp with bodyRead := true }))
      ∧ (c.call P (some cx) e t).err = none
      ∧ (c.call P (some cx) e t).sent = [{ req with ctx := cx }] := by
  simp [Client.call, Client.post, Client.makeRequest, h, Client.request, hd,
    checkResponse_ok P resp hs, hb, hu]

/-- A call without error went all the way: a context was given, the request
was built and sent once, the transport answered with status 200 and a readable
body, and the body was decoded without error. -/
theorem call_ok_inv {α : Type} (P : Platform) (c : Client) (ctx : Option Context)
    (e : EndpointCall) (t : ResponseType α) (hok : (c.call P ctx e t).err = none) :
    ∃ cx req resp, ctx = some cx ∧ c.newRequest P "POST" e.path e.payload = .ok req
      ∧ c.httpClient { req with ctx := cx } = .ok resp ∧ resp.StatusCode = 200
      ∧ resp.BodyErr = none ∧ (unmarshal t.decode resp.Body t.zero).2 = none := by
  cases h : c.newRequest P "POST" e.path e.payload with
  | error err => rw [(call_build_error P c ctx e t err h).2.1] at hok; cases hok
  | ok req =>
    cases ctx with
    | none => rw [(call_nil_context P c e t req h).2.1] at hok; cases hok
    | some cx =>
      cases hd : c.httpClient { req with ctx := cx } with
      | error err => rw [(call_transport_error P c cx e t req err h hd).2.1] at hok; cases hok
      | ok resp =>
        by_cases hs : resp.StatusCode = 200
        · cases hb : resp.BodyErr with
          | some m => rw [(call_body_error P c cx e t req resp m h hd hs hb).2.1] at hok; cases hok
          | none =>
            cases hu : (unmarshal t.decode resp.Body t.zero).2 with
            | some er =>
              rw [(call_decode_error P c cx e t req resp er h hd hs hb hu).2.1] at hok; cases hok
            | none => exact ⟨cx, req, resp, rfl, rfl, hd, hs, hb, hu⟩
        · have := call_status_error P c cx e t req resp h hd hs
          rw [this.2.1] at hok
          exact absurd hok this.2.2.1

theorem attach_after_unmarshal (P : Platform) (e : EndpointCall) (raw : String)
    (x : Option Response) :
    (((e.responseType P).attach
        (unmarshal (e.responseType P).decode raw (e.responseType P).zero).1 x).base).HTTPResponse
      = x := by
  cases e <;>
    (simp only [unmarshal]
     split <;>
       simp [EndpointCall.responseType, ResponseType.lift, TypedResponse.base,
         PingResponse.type, ListDomainsResponse.type, GetNameServersResponse.type,
         UpdateNameServersResponse.type, GetDomainURLForwardingResponse.type,
         AddDomainUrlForwardResponse.type, DeleteDomainUrlForwardResponse.type,
         GetRecordsResponse.type, CreateRecordResponse.type, EditRecordResponse.type,
         DeleteRecordResponse.type, SslRetrieveResponse.type, PricingResponse.type])

/-- C20: for every endpoint method, when the call succeeds the transport
answered exactly one request, with status 200, and the `HTTPResponse` of the
typed result is that response (its body consumed), so its status code is 200
and its headers are the ones the transport delivered. -/
theorem success_attaches_transport_response (P : Platform) (c : Client)
    (ctx : Option Context) (e : EndpointCall) (hok : (c.endpoint P ctx e).err = none) :
    ∃ req resp r, (c.endpoint P ctx e).sent = [req] ∧ c.httpClient req = .ok resp
      ∧ (c.endpoint P ctx e).response = some r
      ∧ r.base.HTTPResponse = some { resp with bodyRead := true }
      ∧ (∃ out, r.base.HTTPResponse = some out ∧ out.StatusCode = 200
          ∧ out.Header = resp.Header ∧ out.Body = resp.Body ∧ out.Request = resp.Request) := by
  obtain ⟨cx, req, resp, hctx, hreq, hd, hs, hb, hu⟩ :=
    call_ok_inv P c ctx e (e.responseType P) hok
  subst hctx
  obtain ⟨h1, _, h3⟩ := call_success P c cx e (e.responseType P) req resp hreq hd hs hb hu
  refine ⟨{ req with ctx := cx }, resp, _, h3, hd, h1, attach_after_unmarshal P e _ _, ?_⟩
  exact ⟨{ resp with bodyRead := true }, attach_after_unmarshal P e _ _, hs, rfl, rfl, rfl⟩

theorem success_attaches_transport_response_witness :
    ∃ r, ((testClient (serverTransport 200 [("Content-Type", "application/json")]
              "\x7b\"status\":\"SUCCESS\",\"yourIp\":\"192.0.2.1\"\x7d")).endpoint
            Platform.sample (some .background) .Ping).response = some r
      ∧ ∃ out, r.base.HTTPResponse = some out ∧ out.StatusCode = 200
          ∧ out.Header = [("Content-Type", "application/json")] := by
  obtain ⟨req, resp, r, _, hd, hr, _, out, ho, hs, hh, _⟩ :=
    success_attaches_transport_response Platform.sample
      (testClient (serverTransport 200 [("Content-Type", "application/json")]
        "\x7b\"status\":\"SUCCESS\",\"yourIp\":\"192.0.2.1\"\x7d"))
      (some .background) .Ping (by decide)
  refine ⟨r, hr, out, ho, hs, ?_⟩
  rw [hh]
  simp only [testClient, serverTransport, Except.ok.injEq] at hd
  rw [← hd]

/-! ## Attached responses, partial results and the transport -/

/-- C21, where the code departs from the claim: `checkResponse` points the
`ErrorResponse` at the transport response and then decodes the body into that
same struct, whose field `HTTPResponse` is exported and untagged.  The body
`HTTPResponse: null` of a 500 answer sets the pointer back to nil: the
`ErrorResponse` the call returns has no transport response attached, and
`Error()` falls back to its short form. -/
theorem error_response_detached_by_body :
    (checkResponse Platform.sample
        { StatusCode := 500, Header := [], Body := "\x7b\"HTTPResponse\":null\x7d",
          BodyErr := none, bodyRead := false, Request := none }).1
        = some (.errorResponse ⟨⟨none, ""⟩, ""⟩)
      ∧ ((testClient (fixedTransport 500 "\x7b\"HTTPResponse\":null,\"message\":\"boom\"\x7d")).endpoint
            Platform.sample (some .background) .Ping).err
          = some (.errorResponse ⟨⟨none, ""⟩, "boom"⟩)
      ∧ Err.Error (.errorResponse ⟨⟨none, ""⟩, "boom"⟩) = some "Error: boom" := by
  decide

/-- C22, the claim as stated fails: for the 200 body of the claim, returned to
`GetNameServers`, the error comes with a result whose `Status` is already
`SUCCESS`. -/
theorem partial_result_counterexample :
    ((testClient (fixedTransport 200
          "\x7b\"status\":\"SUCCESS\",\"ns\":\"not-a-list\"\x7d")).endpoint
        Platform.sample (some .background) (.GetNameServers "example.com")).response
        = some (.getNameServers ⟨⟨none, "SUCCESS"⟩, none⟩)
      ∧ ((testClient (fixedTransport 200
          "\x7b\"status\":\"SUCCESS\",\"ns\":\"not-a-list\"\x7d")).endpoint
        Platform.sample (some .background) (.GetNameServers "example.com")).err
        = some (.unmarshalType "string" "porkbun.NameServers") := by
  decide

/-- C22 as amended: an endpoint call ends in one of three ways.  Without error,
the result is the fully decoded response with the transport response attached.
With an error raised before the decoder stores anything (no context, request
not built, transport error, status other than 200, unreadable body, or a body
that is not a JSON document), the result is the zero response, nil for
`ListPricing`: no decoded data, no attached response.  With a status 200 body
that is a JSON document the response type cannot hold, the error comes with
the result as the decoder left it, which may hold decoded fields. -/
theorem endpoint_outcomes (P : Platform) (c : Client) (ctx : Option Context)
    (e : EndpointCall) :
    ((c.endpoint P ctx e).err = none
        ∧ ∃ (resp : Response) (v : JValue), parseDocument resp.Body.data = .ok v
          ∧ ((e.responseType P).decode (e.responseType P).zero v).err = none
          ∧ (c.endpoint P ctx e).response
              = some ((e.responseType P).attach
                  ((e.responseType P).decode (e.responseType P).zero v).val
                  (some { resp with bodyRead := true })))
      ∨ ((c.endpoint P ctx e).err ≠ none
        ∧ (c.endpoint P ctx e).response = untouched e (e.responseType P)
        ∧ (e ≠ .ListPricing →
            (c.endpoint P ctx e).response = some (e.responseType P).zero
              ∧ (e.responseType P).zero.base = ⟨none, ""⟩))
      ∨ (∃ (cx : Context) (req : Request) (resp : Response) (v : JValue) (er : Err), ctx = some cx
        ∧ c.newRequest P "POST" e.path e.payload = .ok req
        ∧ c.httpClient { req with ctx := cx } = .ok resp ∧ resp.StatusCode = 200
        ∧ parseDocument resp.Body.data = .ok v
        ∧ ((e.responseType P).decode (e.responseType P).zero v).err = some er
        ∧ (c.endpoint P ctx e).err = some er
        ∧ (c.endpoint P ctx e).response
            = (if e = .ListPricing then none
                else some ((e.responseType P).decode (e.responseType P).zero v).val)) := by
  have hzero : (e.responseType P).zero.base = ⟨none, ""⟩ := by cases e <;> rfl
  have early : ∀ er, (c.endpoint P ctx e).err = some er →
      (c.endpoint P ctx e).response = untouched e (e.responseType P) →
      ((c.endpoint P ctx e).err ≠ none
        ∧ (c.endpoint P ctx e).response = untouched e (e.responseType P)
        ∧ (e ≠ .ListPricing →
            (c.endpoint P ctx e).response = some (e.responseType P).zero
              ∧ (e.responseType P).zero.base = ⟨none, ""⟩)) := by
    intro er h1 h2
    refine ⟨by rw [h1]; simp, h2, ?_⟩
    intro hne
    rw [h2]
    exact ⟨by simp [untouched, hne], hzero⟩
  unfold Client.endpoint at *
  cases h : c.newRequest P "POST" e.path e.payload with
  | error err =>
    have := call_build_error P c ctx e (e.responseType P) err h
    exact Or.inr (Or.inl (early err this.2.1 this.1))
  | ok req =>
    cases ctx with
    | none =>
      have := call_nil_context P c e (e.responseType P) req h
      exact Or.inr (Or.inl (early _ this.2.1 this.1))
    | some cx =>
      cases hd : c.httpClient { req with ctx := cx } with
      | error err =>
        have := call_transport_error P c cx e (e.responseType P) req err h hd
        exact Or.inr (Or.inl (early _ this.2.1 this.1))
      | ok resp =>
        by_cases hs : resp.StatusCode = 200
        · cases hb : resp.BodyErr with
          | some m =>
            have := call_body_error P c cx e (e.responseType P) req resp m h hd hs hb
            exact Or.inr (Or.inl (early _ this.2.1 this.1))
          | none =>
            cases hp : parseDocument resp.Body.data with
            | error se =>
              have hu : (unmarshal (e.responseType P).decode resp.Body (e.responseType P).zero)
                  = ((e.responseType P).zero, some (.jsonSyntax se)) := by
                simp [unmarshal, hp]
              have := call_decode_error P c cx e (e.responseType P) req resp _ h hd hs hb
                (by rw [hu])
              refine Or.inr (Or.inl (early _ this.2.1 ?_))
              rw [this.1, hu]
              rfl
            | ok v =>
              have hu : (unmarshal (e.responseType P).decode resp.Body (e.responseType P).zero)
                  = (((e.responseType P).decode (e.responseType P).zero v).val,
                      ((e.responseType P).decode (e.responseType P).zero v).err) := by
                simp [unmarshal, hp]
              cases he : ((e.responseType P).decode (e.responseType P).zero v).err with
              | none =>
                have := call_success P c cx e (e.responseType P) req resp h hd hs hb
                  (by rw [hu]; exact he)
                refine Or.inl ⟨this.2.1, resp, v, hp, he, ?_⟩
                rw [this.1, hu]
              | some er =>
                have := call_decode_error P c cx e (e.responseType P) req resp er h hd hs hb
                  (by rw [hu]; exact he)
                refine Or.inr (Or.inr ⟨cx, req, resp, v, er, rfl, rfl, hd, hs, hp, he,
                  this.2.1, ?_⟩)
                rw [this.1, hu]
        · have := call_status_error P c cx e (e.responseType P) req resp h hd hs
          cases hc : (checkResponse P resp).1 with
          | none => exact absurd hc this.2.2.1
          | some er => exact Or.inr (Or.inl (early er (by rw [this.2.1, hc]) this.1))

/-- C23: every endpoint call hands at most one request to the transport; none
without a context or when the request cannot be built, and exactly one when a
context is supplied and the request builds.  When the transport returns an
error for that request, the call returns this very error and the transport has
been invoked once. -/
theorem transport_invoked_at_most_once (P : Platform) (c : Client) (ctx : Option Context)
    (e : EndpointCall) :
    (c.endpoint P ctx e).sent.length ≤ 1
      ∧ (ctx = none → (c.endpoint P ctx e).sent = [])
      ∧ (∀ err, c.newRequest P "POST" e.path e.payload = .error err →
          (c.endpoint P ctx e).sent = [])
      ∧ (∀ cx req, ctx = some cx → c.newRequest P "POST" e.path e.payload = .ok req →
          (c.endpoint P ctx e).sent = [{ req with ctx := cx }])
      ∧ (∀ cx req err, ctx = some cx → c.newRequest P "POST" e.path e.payload = .ok req →
          c.httpClient { req with ctx := cx } = .error err →
          (c.endpoint P ctx e).err = some err
            ∧ (c.endpoint P ctx e).sent.length = 1) := by
  have hsent := call_sent P c ctx e (e.responseType P)
  unfold Client.endpoint
  refine ⟨?_, ?_, ?_, ?_, ?_⟩
  · rcases hsent with h | ⟨cx, req, _, _, h⟩ <;> rw [h] <;> simp
  · intro hc
    rcases hsent with h | ⟨cx, req, hcx, _, _⟩
    · exact h
    · rw [hc] at hcx; cases hcx
  · intro err herr
    exact (call_build_error P c ctx e (e.responseType P) err herr).2.2
  · intro cx req hcx hreq
    rcases hsent with h | ⟨cx2, req2, hcx2, hreq2, h⟩
    · subst hcx
      cases hd : c.httpClient { req with ctx := cx } with
      | error err =>
        rw [(call_transport_error P c cx e (e.responseType P) req err hreq hd).2.2] at h
        cases h
      | ok resp =>
        exfalso
        by_cases hs : resp.StatusCode = 200
        · cases hb : resp.BodyErr with
          | some m =>
            rw [(call_body_error P c cx e (e.responseType P) req resp m hreq hd hs hb).2.2] at h
            cases h
          | none =>
            cases hu : (unmarshal (e.responseType P).decode resp.Body
                (e.responseType P).zero).2 with
            | some er =>
              rw [(call_decode_error P c cx e (e.responseType P) req resp er hreq hd hs hb
                hu).2.2] at h
              cases h
            | none =>
              rw [(call_success P c cx e (e.responseType P) req resp hreq hd hs hb hu).2.2] at h
              cases h
        · rw [(call_status_error P c cx e (e.responseType P) req resp hreq hd hs).2.2.2] at h
          cases h
    · rw [hcx] at hcx2
      rw [hreq] at hreq2
      cases hcx2
      cases hreq2
      exact h
  · intro cx req err hcx hreq hd
    subst hcx
    have := call_transport_error P c cx e (e.responseType P) req err hreq hd
    exact ⟨this.2.1, by rw [this.2.2]; rfl⟩

/-- C26: with a nil decode target and status 200, `request` returns the
transport response as it received it, with no error, whatever the body holds;
the body has not been read from. -/
theorem request_nil_target {α : Type} (P : Platform) (c : Client) (cx : Context)
    (req : Request) (obj : α) (resp : Response)
    (hd : c.httpClient { req with ctx := cx } = .ok resp) (hs : resp.StatusCode = 200) :
    (c.request P (some cx) req none obj).resp = some resp
      ∧ (c.request P (some cx) req none obj).err = none
      ∧ (c.request P (some cx) req none obj).sent = [{ req with ctx := cx }]
      ∧ (∀ r, (c.request P (some cx) req none obj).resp = some r →
          r.bodyRead = resp.bodyRead ∧ r.Body = resp.Body) := by
  have h : c.request P (some cx) req none obj
      = ⟨some resp, none, obj, [{ req with ctx := cx }]⟩ := by
    simp [Client.request, hd, checkResponse_ok P resp hs]
  rw [h]
  refine ⟨rfl, rfl, rfl, ?_⟩
  intro r hr
  simp only [Option.some.injEq] at hr
  subst hr
  exact ⟨rfl, rfl⟩

theorem request_nil_target_witness :
    ((testClient (fixedTransport 200 "Invalid JSON")).request Platform.sample
        (some .background)
        { Method := "GET", URL := "https://api.porkbun.com/api/json/v3/test", Header := [],
          Body := "", ctx := .background } none ()).resp
      = some { StatusCode := 200, Header := [], Body := "Invalid JSON", BodyErr := none,
               bodyRead := false,
               Request := some { Method := "GET",
                                 URL := "https://api.porkbun.com/api/json/v3/test",
                                 Header := [], Body := "", ctx := .background } } :=
  (request_nil_target Platform.sample (testClient (fixedTransport 200 "Invalid JSON"))
    .background
    { Method := "GET", URL := "https://api.porkbun.com/api/json/v3/test", Header := [],
      Body := "", ctx := .background } ()
    { StatusCode := 200, Header := [], Body := "Invalid JSON", BodyErr := none,
      bodyRead := false,
      Request := some { Method := "GET", URL := "https://api.porkbun.com/api/json/v3/test",
                        Header := [], Body := "", ctx := .background } }
    (by decide) (by decide)).1

/-- C28: for every status code other than 200 and an empty response body,
`makeRequest` returns an `ErrorResponse` with empty `Status` and `Message`,
pointing at the transport response, and not the generic `HTTP error` value. -/
theorem empty_body_yields_error_response {α : Type} (P : Platform) (c : Client)
    (cx : Context) (method path : String) (payload : Option Payload)
    (dec : Option (α → JValue → Decoded α)) (obj : α) (req : Request) (resp : Response)
    (hreq : c.newRequest P method path payload = .ok req)
    (hd : c.httpClient { req with ctx := cx } = .ok resp)
    (hs : resp.StatusCode ≠ 200) (hbody : resp.Body = "") (hbe : resp.BodyErr = none) :
    (c.makeRequest P (some cx) method path payload dec obj).err
        = some (.errorResponse ⟨⟨some { resp with bodyRead := true }, ""⟩, ""⟩)
      ∧ (c.makeRequest P (some cx) method path payload dec obj).resp = none
      ∧ (c.makeRequest P (some cx) method path payload dec obj).err
          ≠ some (.text ("HTTP error " ++ formatInt resp.StatusCode ++ ": "
              ++ StatusText resp.StatusCode)) := by
  have hdec : decodeErrorResponse P { resp with bodyRead := true }
      = (some .eof, ⟨"", "", .shared, { resp with bodyRead := true }⟩) := by
    simp only [decodeErrorResponse, hbody, hbe]
    rfl
  have hc : checkResponse P resp
      = (some (.errorResponse ⟨⟨some { resp with bodyRead := true }, ""⟩, ""⟩),
          { resp with bodyRead := true }) := by
    unfold checkResponse
    rw [if_neg hs, hdec]
    simp [ErrorResponseState.toErrorResponse]
  simp [Client.makeRequest, hreq, Client.request, hd, hc]

theorem empty_body_yields_error_response_witness :
    ((testClient (fixedTransport 404 "")).makeRequest Platform.sample (some .background)
        "GET" "/test" none (none : Option (Unit → JValue → Decoded Unit)) ()).err
      = some (.errorResponse ⟨⟨some
          { StatusCode := 404, Header := [], Body := "", BodyErr := none, bodyRead := true,
            Request := some { Method := "GET",
                              URL := "https://api.porkbun.com/api/json/v3/test",
                              Header := [("Content-Type", "application/json"),
                                ("Accept", "application/json"),
                                ("User-Agent", "porkbun-go/1.0.0")],
                              Body := "", ctx := .background } }, ""⟩, ""⟩) :=
  (empty_body_yields_error_response Platform.sample (testClient (fixedTransport 404 ""))
    .background "GET" "/test" none none ()
    { Method := "GET", URL := "https://api.porkbun.com/api/json/v3/test",
      Header := [("Content-Type", "application/json"), ("Accept", "application/json"),
        ("User-Agent", "porkbun-go/1.0.0")],
      Body := "", ctx := .background }
    { StatusCode := 404, Header := [], Body := "", BodyErr := none, bodyRead := false,
      Request := some { Method := "GET", URL := "https://api.porkbun.com/api/json/v3/test",
                        Header := [("Content-Type", "application/json"),
                          ("Accept", "application/json"),
                          ("User-Agent", "porkbun-go/1.0.0")],
                        Body := "", ctx := .background } }
    (by decide) (by decide) (by decide) rfl rfl).1

/-! ## Bodies that are not JSON documents -/

theorem parseDocument_blank (data : List Char) (h : skipSpace data = []) :
    parseDocument data = .error .endOfInput := by
  simp [parseDocument, parseValue, h]

/-- C24, the claim as stated fails: a body cut inside a literal is rejected, but
not with `unexpected end of JSON input`.  At the end of the input the scanner
is fed a space, which `tru` does not accept: the message is that of an invalid
character. -/
theorem truncated_literal_counterexample :
    ((testClient (fixedTransport 200 "\x7b\"ok\":tru")).endpoint Platform.sample
        (some .background) .Ping).err = some (.jsonSyntax .endInToken)
      ∧ parseDocument "\x7b\"ok\":true\x7d".data = .ok (.obj [("ok", .bool true)])
      ∧ some (Err.jsonSyntax .endInToken) ≠ some (Err.jsonSyntax .endOfInput)
      ∧ Err.Error (.jsonSyntax .endInToken) ≠ some "unexpected end of JSON input" := by
  refine ⟨by decide, rfl, by decide, by decide⟩

/-- C24 as amended: for a status-200 response and a non-nil decode target, a
body that is not a JSON document (empty, cut short, or not JSON at all) never
yields success: the call returns the syntax error of `json.Unmarshal` and the
untouched result.  The message is `unexpected end of JSON input` for an empty
body, a body of white space, and a body that ends between tokens or inside a
string, such as the example of the claim. -/
theorem non_json_body_is_decode_error (P : Platform) (c : Client) (cx : Context)
    (e : EndpointCall) (req : Request) (resp : Response)
    (hreq : c.newRequest P "POST" e.path e.payload = .ok req)
    (hd : c.httpClient { req with ctx := cx } = .ok resp) (hs : resp.StatusCode = 200)
    (hbe : resp.BodyErr = none) :
    (∀ se, parseDocument resp.Body.data = .error se →
        (c.endpoint P (some cx) e).err = some (.jsonSyntax se)
          ∧ (c.endpoint P (some cx) e).response = untouched e (e.responseType P))
      ∧ (skipSpace resp.Body.data = [] →
          (c.endpoint P (some cx) e).err = some (.jsonSyntax .endOfInput))
      ∧ Err.Error (.jsonSyntax .endOfInput) = some "unexpected end of JSON input"
      ∧ parseDocument "".data = .error .endOfInput
      ∧ parseDocument "\x7b\"status\":\"SUCCESS".data = .error .endOfInput
      ∧ parseDocument "\x7b\"status\":".data = .error .endOfInput
      ∧ parseDocument "Invalid JSON".data = .error (.invalidChar 'I') := by
  have main : ∀ se, parseDocument resp.Body.data = .error se →
      (c.endpoint P (some cx) e).err = some (.jsonSyntax se)
        ∧ (c.endpoint P (some cx) e).response = untouched e (e.responseType P) := by
    intro se hp
    have hu : (unmarshal (e.responseType P).decode resp.Body (e.responseType P).zero)
        = ((e.responseType P).zero, some (.jsonSyntax se)) := by
      simp [unmarshal, hp]
    have := call_decode_error P c cx e (e.responseType P) req resp _ hreq hd hs hbe
      (by rw [hu])
    unfold Client.endpoint
    refine ⟨this.2.1, ?_⟩
    rw [this.1, hu]
    rfl
  refine ⟨main, ?_, rfl, rfl, rfl, rfl, rfl⟩
  intro hblank
  exact (main _ (parseDocument_blank _ hblank)).1

theorem non_json_body_is_decode_error_witness :
    ((testClient (fixedTransport 200 "\x7b\"status\":\"SUCCESS")).endpoint Platform.sample
        (some .background) .Ping).err = some (.jsonSyntax .endOfInput) :=
  ((non_json_body_is_decode_error Platform.sample
      (testClient (fixedTransport 200 "\x7b\"status\":\"SUCCESS")) .background .Ping
      { Method := "POST", URL := "https://api.porkbun.com/api/json/v3/ping",
        Header := [("Content-Type", "application/json"), ("Accept", "application/json"),
          ("User-Agent", "porkbun-go/1.0.0")],
        Body := "\x7b\"secretapikey\":\"5678\",\"apikey\":\"1234\"\x7d\n",
        ctx := Context.background }
      { StatusCode := 200, Header := [], Body := "\x7b\"status\":\"SUCCESS", BodyErr := none,
        bodyRead := false,
        Request := some
          { Method := "POST", URL := "https://api.porkbun.com/api/json/v3/ping",
            Header := [("Content-Type", "application/json"), ("Accept", "application/json"),
              ("User-Agent", "porkbun-go/1.0.0")],
            Body := "\x7b\"secretapikey\":\"5678\",\"apikey\":\"1234\"\x7d\n",
            ctx := Context.background } }
      (by decide) (by decide) (by decide) rfl).1 .endOfInput rfl).1

/-! ## Request bodies of the DNS methods -/

theorem credential_body_parses (P : Platform) (c : Client) (method path : String)
    (r : CredentialRequest) (req : Request)
    (hreq : c.newRequest P method path (some (.credential r)) = .ok req) :
    parseDocument req.Body.data
      = .ok (.obj (("secretapikey", .str c.secret) :: ("apikey", .str c.apiKey)
          :: r.ownMembers)) := by
  have hown := own_ownMembers r
  have hbody : req.Body
      = String.mk ((JValue.obj (r.SetCredentials c.apiKey c.secret).members).render ++ ['\n']) := by
    obtain ⟨body, hb, -, hr⟩ := newRequest_ok P c method path _ req hreq
    simp only [encodePayload, Except.ok.injEq] at hb
    rw [hr, ← hb]
  have hmem : (r.SetCredentials c.apiKey c.secret).members
      = ("secretapikey", .str c.secret) :: ("apikey", .str c.apiKey) :: r.ownMembers := by
    rw [members_eq, base_setCredentials, ownMembers_setCredentials]
  rw [hbody, hmem]
  exact parseDocument_render_flat _ _ _ (FlatValue.str _)
    (fun kv h => by
      rcases List.mem_cons.mp h with rfl | h
      · exact FlatValue.str _
      · exact (hown kv h).1)

/-- C27: the body `CreateRecord` sends for a `DnsRecord` with absent ID is a
flat JSON object with the members `secretapikey`, `apikey`, `name`, `type` and
`content` (present even when empty), followed by `ttl`, `prio` and `notes`,
each exactly when it is not empty; `EditRecord` sends `secretapikey`, `apikey`,
`name`, `type`, `content` and the non-empty ones of `ttl` and `prio`.
Injecting the credentials changes the two credential fields only. -/
theorem record_request_bodies (P : Platform) (c : Client) (domain : String) :
    (∀ (r : DnsRecord) (req : Request), r.ID = none →
        c.newRequest P "POST" (EndpointCall.path (.CreateRecord domain (some r)))
            (EndpointCall.payload (.CreateRecord domain (some r))) = .ok req →
        parseDocument req.Body.data
          = .ok (.obj ([("secretapikey", .str c.secret), ("apikey", .str c.apiKey),
              ("name", .str r.Name), ("type", .str r.Type_), ("content", .str r.Content)]
              ++ (if r.TTL = "" then [] else [("ttl", .str r.TTL)])
              ++ (if r.Prio = "" then [] else [("prio", .str r.Prio)])
              ++ (if r.Notes = "" then [] else [("notes", .str r.Notes)]))))
      ∧ (∀ (id : Int) (r : EditRecord) (req : Request),
        c.newRequest P "POST" (EndpointCall.path (.EditRecord domain id (some r)))
            (EndpointCall.payload (.EditRecord domain id (some r))) = .ok req →
        parseDocument req.Body.data
          = .ok (.obj ([("secretapikey", .str c.secret), ("apikey", .str c.apiKey),
              ("name", .str r.Name), ("type", .str r.Type_), ("content", .str r.Content)]
              ++ (if r.TTL = "" then [] else [("ttl", .str r.TTL)])
              ++ (if r.Prio = "" then [] else [("prio", .str r.Prio)]))))
      ∧ (∀ (b : BaseRequest) (r : Option DnsRecord) (a s : String),
          (CredentialRequest.createRecord b r).SetCredentials a s
            = .createRecord { SecretApiKey := s, Apikey := a } r)
      ∧ (∀ (b : BaseRequest) (r : Option EditRecord) (a s : String),
          (CredentialRequest.editRecord b r).SetCredentials a s
            = .editRecord { SecretApiKey := s, Apikey := a } r) := by
  refine ⟨?_, ?_, fun _ _ _ _ => rfl, fun _ _ _ _ => rfl⟩
  · intro r req hid hreq
    simp only [EndpointCall.payload] at hreq
    rw [credential_body_parses P c "POST" _ _ req hreq]
    simp [CredentialRequest.ownMembers, CredentialRequest.members, BaseRequest.members,
      embedded, DnsRecord.members, hid, omitEmpty]
  · intro id r req hreq
    simp only [EndpointCall.payload] at hreq
    rw [credential_body_parses P c "POST" _ _ req hreq]
    simp [CredentialRequest.ownMembers, CredentialRequest.members, BaseRequest.members,
      embedded, EditRecord.members, omitEmpty]

/-! ## DNS records: encoding against decoding -/

theorem decodeMembers_saved_some {α : Type} (step : α → String → JValue → Decoded α)
    (hstep : ∀ a k v, (step a k v).fatal = none) (ms : List (String × JValue)) :
    ∀ (st : Decoded α) (er : Err), st.fatal = none → st.saved = some er →
      (decodeMembers step ms st).saved = some er := by
  induction ms with
  | nil => intro st er _ h; exact h
  | cons kv rest ih =>
    intro st er hf hs
    obtain ⟨k, v⟩ := kv
    simp only [decodeMembers, hf]
    exact ih _ er (hstep _ _ _) (by simp [hs, firstErr])

theorem parseDocument_render_object (k : String) (v : JValue) (ms : List (String × JValue))
    (hv : FlatValue v) (hms : ∀ kv ∈ ms, FlatValue kv.2) :
    parseDocument (JValue.obj ((k, v) :: ms)).render = .ok (.obj ((k, v) :: ms)) := by
  unfold parseDocument
  have hf : msize ((k, v) :: ms) ≤ ((JValue.obj ((k, v) :: ms)).render).length := by
    have h1 := vsize_le_render v hv
    have h2 := msize_le_render ms hms
    have h3 := quoteString_length k
    simp [msize, JValue.render]
    omega
  have h := parseValue_flat_object _ k v ms [] hv hms hf
  rw [List.append_nil] at h
  rw [h]
  rfl

theorem flat_omitEmpty (key s : String) : ∀ kv ∈ omitEmpty key s, FlatValue kv.2 := by
  intro kv h
  unfold omitEmpty at h
  split at h
  · cases h
  · simp only [List.mem_singleton] at h
    subst h
    exact FlatValue.str _

theorem dnsRecord_members_flat (r : DnsRecord) : ∀ kv ∈ r.members, FlatValue kv.2 := by
  intro kv h
  unfold DnsRecord.members at h
  simp only [List.mem_append, List.mem_cons, List.mem_singleton, List.not_mem_nil,
    or_false] at h
  rcases h with (((h | h) | h) | h) | h
  · cases hid : r.ID with
    | none => rw [hid] at h; cases h
    | some n =>
      rw [hid] at h
      simp only [List.mem_singleton] at h
      subst h
      exact FlatValue.int n
  · rcases h with rfl | rfl | rfl <;> exact FlatValue.str _
  · exact flat_omitEmpty _ _ kv h
  · exact flat_omitEmpty _ _ kv h
  · exact flat_omitEmpty _ _ kv h

theorem dnsRecord_decode_members (r : DnsRecord) (hid : r.ID = none) :
    DnsRecord.UnmarshalJSON DnsRecord.zero (.obj r.members) = (r, none) := by
  have k_id_name : keyMatches "id" "name" = false := by decide
  have k_name_name : keyMatches "name" "name" = true := by decide
  have k_id_type : keyMatches "id" "type" = false := by decide
  have k_name_type : keyMatches "name" "type" = false := by decide
  have k_type_type : keyMatches "type" "type" = true := by decide
  have k_id_content : keyMatches "id" "content" = false := by decide
  have k_name_content : keyMatches "name" "content" = false := by decide
  have k_type_content : keyMatches "type" "content" = false := by decide
  have k_content_content : keyMatches "content" "content" = true := by decide
  have k_id_ttl : keyMatches "id" "ttl" = false := by decide
  have k_name_ttl : keyMatches "name" "ttl" = false := by decide
  have k_type_ttl : keyMatches "type" "ttl" = false := by decide
  have k_content_ttl : keyMatches "content" "ttl" = false := by decide
  have k_ttl_ttl : keyMatches "ttl" "ttl" = true := by decide
  have k_id_prio : keyMatches "id" "prio" = false := by decide
  have k_name_prio : keyMatches "name" "prio" = false := by decide
  have k_type_prio : keyMatches "type" "prio" = false := by decide
  have k_content_prio : keyMatches "content" "prio" = false := by decide
  have k_ttl_prio : keyMatches "ttl" "prio" = false := by decide
  have k_prio_prio : keyMatches "prio" "prio" = true := by decide
  have k_id_notes : keyMatches "id" "notes" = false := by decide
  have k_name_notes : keyMatches "name" "notes" = false := by decide
  have k_type_notes : keyMatches "type" "notes" = false := by decide
  have k_content_notes : keyMatches "content" "notes" = false := by decide
  have k_ttl_notes : keyMatches "ttl" "notes" = false := by decide
  have k_prio_notes : keyMatches "prio" "notes" = false := by decide
  have k_notes_notes : keyMatches "notes" "notes" = true := by decide
  obtain ⟨id, name, ty, content, ttl, prio, notes⟩ := r
  simp only at hid
  subst hid
  by_cases h1 : ttl = "" <;> by_cases h2 : prio = "" <;> by_cases h3 : notes = "" <;>
    simp [DnsRecord.UnmarshalJSON, decodeDnsRecordAux, decodeStruct, DnsRecord.members,
      omitEmpty, h1, h2, h3, decodeMembers, DnsRecordAux.setMember, decodeString,
      decodeStringAs, firstErr, Decoded.err, DnsRecord.zero, k_id_name, k_name_name, k_id_type, k_name_type, k_type_type, k_id_content, k_name_content, k_type_content, k_content_content, k_id_ttl, k_name_ttl, k_type_ttl, k_content_ttl, k_ttl_ttl, k_id_prio, k_name_prio, k_type_prio, k_content_prio, k_ttl_prio, k_prio_prio, k_id_notes, k_name_notes, k_type_notes, k_content_notes, k_ttl_notes, k_prio_notes, k_notes_notes]

theorem dnsRecord_decode_numeric_id (n : Int) (rest : List (String × JValue)) :
    (DnsRecord.UnmarshalJSON DnsRecord.zero (.obj (("id", .num (formatInt n)) :: rest))).2
      = some (.unmarshalType "number" "string") := by
  have hid : keyMatches "id" "id" = true := by decide
  have hstep : DnsRecordAux.setMember ⟨none, DnsRecord.zero⟩ "id" (.num (formatInt n))
      = ⟨⟨none, DnsRecord.zero⟩, some (.unmarshalType "number" "string"), none⟩ := by
    simp [DnsRecordAux.setMember, hid, decodeStringPtr, JValue.kind]
  have hsaved : (decodeDnsRecordAux DnsRecord.zero
      (.obj (("id", .num (formatInt n)) :: rest))).saved
      = some (.unmarshalType "number" "string") := by
    simp only [decodeDnsRecordAux, decodeStruct, decodeMembers, hstep]
    exact decodeMembers_saved_some _ dnsAux_setMember_fatal rest _ _ rfl rfl
  have hfatal : (decodeDnsRecordAux DnsRecord.zero
      (.obj (("id", .num (formatInt n)) :: rest))).fatal = none := by
    simp only [decodeDnsRecordAux, decodeStruct]
    exact decodeMembers_fatal_none _ dnsAux_setMember_fatal _ _ rfl
  have herr : (decodeDnsRecordAux DnsRecord.zero
      (.obj (("id", .num (formatInt n)) :: rest))).err
      = some (.unmarshalType "number" "string") := by
    simp [Decoded.err, hfatal, hsaved]
  simp [DnsRecord.UnmarshalJSON, herr]

/-- C29: encoding and decoding a `DnsRecord` are inverse only without an ID.
For a record with absent ID the encoder writes no `id`, the text parses back to
the members written, and decoding them into a new record gives the record
itself, without error.  For a record with a present ID the encoder writes `id`
as a JSON number first, and the decoder of `DnsRecord`, whose temporary struct
takes `id` as a string, rejects the encoding with a type error. -/
theorem dnsRecord_encode_decode (r : DnsRecord) :
    parseDocument (JValue.obj r.members).render = .ok (.obj r.members)
      ∧ (r.ID = none →
          DnsRecord.UnmarshalJSON DnsRecord.zero (.obj r.members) = (r, none)
            ∧ unmarshalDnsRecord (String.mk (JValue.obj r.members).render) DnsRecord.zero
                = (r, none))
      ∧ (∀ n, r.ID = some n →
          r.members.head? = some ("id", .num (formatInt n))
            ∧ (DnsRecord.UnmarshalJSON DnsRecord.zero (.obj r.members)).2
                = some (.unmarshalType "number" "string")
            ∧ (unmarshalDnsRecord (String.mk (JValue.obj r.members).render) DnsRecord.zero).2
                = some (.unmarshalType "number" "string")) := by
  have hne : ∃ k v ms, r.members = (k, v) :: ms := by
    cases hid : r.ID <;> simp [DnsRecord.members, hid]
  obtain ⟨k, v, ms, hm⟩ := hne
  have hflat := dnsRecord_members_flat r
  have hparse : parseDocument (JValue.obj r.members).render = .ok (.obj r.members) := by
    rw [hm] at hflat ⊢
    exact parseDocument_render_object k v ms (hflat _ (List.mem_cons_self _ _))
      (fun kv h => hflat kv (List.mem_cons_of_mem _ h))
  have htext : unmarshalDnsRecord (String.mk (JValue.obj r.members).render) DnsRecord.zero
      = ((DnsRecord.UnmarshalJSON DnsRecord.zero (.obj r.members)).1,
          (DnsRecord.UnmarshalJSON DnsRecord.zero (.obj r.members)).2) := by
    simp only [unmarshalDnsRecord, unmarshal, hparse, DnsRecord.decode, Decoded.err]
    cases (DnsRecord.UnmarshalJSON DnsRecord.zero (.obj r.members)).2 <;> rfl
  refine ⟨hparse, ?_, ?_⟩
  · intro hid
    have h := dnsRecord_decode_members r hid
    refine ⟨h, ?_⟩
    rw [htext, h]
  · intro n hid
    have hmem : r.members = ("id", .num (formatInt n)) :: (r.members).tail := by
      simp [DnsRecord.members, hid]
    refine ⟨by rw [hmem]; rfl, ?_, ?_⟩
    · rw [hmem]; exact dnsRecord_decode_numeric_id n _
    · rw [htext]
      simp only
      rw [hmem]; exact dnsRecord_decode_numeric_id n _

/-! ## Listing domains -/

theorem decodeElems_map {α β : Type} (dec : α → JValue → Decoded α) (zero : α)
    (f : β → JValue) (g : β → α) (xs : List β)
    (h : ∀ x ∈ xs, dec zero (f x) = ⟨g x, none, none⟩) :
    decodeElems dec zero (xs.map f) [] = ⟨xs.map g, none, none⟩ := by
  induction xs with
  | nil => rfl
  | cons x rest ih =>
    have hx := h x (List.mem_cons_self _ _)
    have hr := ih (fun y hy => h y (List.mem_cons_of_mem _ hy))
    simp only [List.map_cons, decodeElems, List.head?_nil, Option.getD_none, hx,
      List.tail_nil, hr, firstErr]

theorem decodeSlice_map {α β : Type} (goType : String) (dec : α → JValue → Decoded α)
    (zero : α) (f : β → JValue) (g : β → α) (xs : List β)
    (h : ∀ x ∈ xs, dec zero (f x) = ⟨g x, none, none⟩) :
    decodeSlice goType dec zero none (.arr (xs.map f)) = ⟨some ⟨xs.map g, []⟩, none, none⟩ := by
  cases xs with
  | nil => rfl
  | cons x rest =>
    have hd := decodeElems_map dec zero f g (x :: rest) h
    simp only [List.map_cons] at hd
    simp only [List.map_cons, decodeSlice, backing, hd, List.drop_nil]

theorem label_decode_json (l : Label) :
    decodeStruct "porkbun.Label" Label.setMember ⟨"", "", ""⟩ l.json = ⟨l, none, none⟩ := by
  have k_id_id : keyMatches "id" "id" = true := by decide
  have k_id_title : keyMatches "id" "title" = false := by decide
  have k_title_title : keyMatches "title" "title" = true := by decide
  have k_id_color : keyMatches "id" "color" = false := by decide
  have k_title_color : keyMatches "title" "color" = false := by decide
  have k_color_color : keyMatches "color" "color" = true := by decide
  simp [decodeStruct, Label.json, decodeMembers, Label.setMember, decodeString, firstErr,
    k_id_id, k_id_title, k_title_title, k_id_color, k_title_color, k_color_color]

theorem boolString_flag (b : Bool) :
    BoolString.decode (.str (if b then "1" else "0")) = .ok b := by
  cases b <;> decide

theorem boolNumber_flag (b : Bool) :
    BoolNumber.decode (.num (if b then "1" else "0")) = .ok b := by
  cases b <;> decide

theorem domain_decode_wire (w : DomainWire) (hw : w.datesOk = true) :
    Domain.decode Domain.zero w.json = ⟨w.toDomain, none, none⟩ := by
  have k_createDate_domain : keyMatches "createDate" "domain" = false := by decide
  have k_expireDate_domain : keyMatches "expireDate" "domain" = false := by decide
  have k_domain_domain : keyMatches "domain" "domain" = true := by decide
  have k_createDate_status : keyMatches "createDate" "status" = false := by decide
  have k_expireDate_status : keyMatches "expireDate" "status" = false := by decide
  have k_domain_status : keyMatches "domain" "status" = false := by decide
  have k_status_status : keyMatches "status" "status" = true := by decide
  have k_createDate_tld : keyMatches "createDate" "tld" = false := by decide
  have k_expireDate_tld : keyMatches "expireDate" "tld" = false := by decide
  have k_domain_tld : keyMatches "domain" "tld" = false := by decide
  have k_status_tld : keyMatches "status" "tld" = false := by decide
  have k_tld_tld : keyMatches "tld" "tld" = true := by decide
  have k_createDate_createDate : keyMatches "createDate" "createDate" = true := by decide
  have k_createDate_expireDate : keyMatches "createDate" "expireDate" = false := by decide
  have k_expireDate_expireDate : keyMatches "expireDate" "expireDate" = true := by decide
  have k_createDate_securityLock : keyMatches "createDate" "securityLock" = false := by decide
  have k_expireDate_securityLock : keyMatches "expireDate" "securityLock" = false := by decide
  have k_domain_securityLock : keyMatches "domain" "securityLock" = false := by decide
  have k_status_securityLock : keyMatches "status" "securityLock" = false := by decide
  have k_tld_securityLock : keyMatches "tld" "securityLock" = false := by decide
  have k_securityLock_securityLock : keyMatches "securityLock" "securityLock" = true := by decide
  have k_createDate_whoisPrivacy : keyMatches "createDate" "whoisPrivacy" = false := by decide
  have k_expireDate_whoisPrivacy : keyMatches "expireDate" "whoisPrivacy" = false := by decide
  have k_domain_whoisPrivacy : keyMatches "domain" "whoisPrivacy" = false := by decide
  have k_status_whoisPrivacy : keyMatches "status" "whoisPrivacy" = false := by decide
  have k_tld_whoisPrivacy : keyMatches "tld" "whoisPrivacy" = false := by decide
  have k_securityLock_whoisPrivacy : keyMatches "securityLock" "whoisPrivacy" = false := by decide
  have k_whoisPrivacy_whoisPrivacy : keyMatches "whoisPrivacy" "whoisPrivacy" = true := by decide
  have k_createDate_autoRenew : keyMatches "createDate" "autoRenew" = false := by decide
  have k_expireDate_autoRenew : keyMatches "expireDate" "autoRenew" = false := by decide
  have k_domain_autoRenew : keyMatches "domain" "autoRenew" = false := by decide
  have k_status_autoRenew : keyMatches "status" "autoRenew" = false := by decide
  have k_tld_autoRenew : keyMatches "tld" "autoRenew" = false := by decide
  have k_securityLock_autoRenew : keyMatches "securityLock" "autoRenew" = false := by decide
  have k_whoisPrivacy_autoRenew : keyMatches "whoisPrivacy" "autoRenew" = false := by decide
  have k_autoRenew_autoRenew : keyMatches "autoRenew" "autoRenew" = true := by decide
  have k_createDate_notLocal : keyMatches "createDate" "notLocal" = false := by decide
  have k_expireDate_notLocal : keyMatches "expireDate" "notLocal" = false := by decide
  have k_domain_notLocal : keyMatches "domain" "notLocal" = false := by decide
  have k_status_notLocal : keyMatches "status" "notLocal" = false := by decide
  have k_tld_notLocal : keyMatches "tld" "notLocal" = false := by decide
  have k_securityLock_notLocal : keyMatches "securityLock" "notLocal" = false := by decide
  have k_whoisPrivacy_notLocal : keyMatches "whoisPrivacy" "notLocal" = false := by decide
  have k_autoRenew_notLocal : keyMatches "autoRenew" "notLocal" = false := by decide
  have k_notLocal_notLocal : keyMatches "notLocal" "notLocal" = true := by decide
  have k_createDate_labels : keyMatches "createDate" "labels" = false := by decide
  have k_expireDate_labels : keyMatches "expireDate" "labels" = false := by decide
  have k_domain_labels : keyMatches "domain" "labels" = false := by decide
  have k_status_labels : keyMatches "status" "labels" = false := by decide
  have k_tld_labels : keyMatches "tld" "labels" = false := by decide
  have k_securityLock_labels : keyMatches "securityLock" "labels" = false := by decide
  have k_whoisPrivacy_labels : keyMatches "whoisPrivacy" "labels" = false := by decide
  have k_autoRenew_labels : keyMatches "autoRenew" "labels" = false := by decide
  have k_notLocal_labels : keyMatches "notLocal" "labels" = false := by decide
  have k_labels_labels : keyMatches "labels" "labels" = true := by decide
  obtain ⟨dm, st, tld, cd, ed, sl, wp, ar, nl, labels⟩ := w
  simp only [DomainWire.datesOk, Bool.and_eq_true] at hw
  obtain ⟨hc, he⟩ := hw
  cases hcd : timeParse cd with
  | error e => rw [hcd] at hc; cases hc
  | ok t1 =>
    cases hed : timeParse ed with
    | error e => rw [hed] at he; cases he
    | ok t2 =>
      cases labels with
      | none =>
        simp [Domain.decode, Domain.UnmarshalJSON, decodeDomainAux, decodeStruct,
          DomainWire.json, decodeMembers, DomainAux.setMember, decodeString, firstErr,
          Decoded.err, Domain.zero, decodeBoolVia, boolString_flag, boolNumber_flag,
          DomainWire.toDomain, parsedTime, hcd, hed, k_createDate_domain, k_expireDate_domain, k_domain_domain, k_createDate_status, k_expireDate_status, k_domain_status, k_status_status, k_createDate_tld, k_expireDate_tld, k_domain_tld, k_status_tld, k_tld_tld, k_createDate_createDate, k_createDate_expireDate, k_expireDate_expireDate, k_createDate_securityLock, k_expireDate_securityLock, k_domain_securityLock, k_status_securityLock, k_tld_securityLock, k_securityLock_securityLock, k_createDate_whoisPrivacy, k_expireDate_whoisPrivacy, k_domain_whoisPrivacy, k_status_whoisPrivacy, k_tld_whoisPrivacy, k_securityLock_whoisPrivacy, k_whoisPrivacy_whoisPrivacy, k_createDate_autoRenew, k_expireDate_autoRenew, k_domain_autoRenew, k_status_autoRenew, k_tld_autoRenew, k_securityLock_autoRenew, k_whoisPrivacy_autoRenew, k_autoRenew_autoRenew, k_createDate_notLocal, k_expireDate_notLocal, k_domain_notLocal, k_status_notLocal, k_tld_notLocal, k_securityLock_notLocal, k_whoisPrivacy_notLocal, k_autoRenew_notLocal, k_notLocal_notLocal, k_createDate_labels, k_expireDate_labels, k_domain_labels, k_status_labels, k_tld_labels, k_securityLock_labels, k_whoisPrivacy_labels, k_autoRenew_labels, k_notLocal_labels, k_labels_labels]
      | some ls =>
        have hl := decodeSlice_map "[]porkbun.Label"
          (decodeStruct "porkbun.Label" Label.setMember) ⟨"", "", ""⟩ Label.json id ls
          (fun l _ => label_decode_json l)
        simp only [List.map_id] at hl
        simp [Domain.decode, Domain.UnmarshalJSON, decodeDomainAux, decodeStruct,
          DomainWire.json, decodeMembers, DomainAux.setMember, decodeString, firstErr,
          Decoded.err, Domain.zero, decodeBoolVia, boolString_flag, boolNumber_flag,
          DomainWire.toDomain, parsedTime, hcd, hed, hl, k_createDate_domain, k_expireDate_domain, k_domain_domain, k_createDate_status, k_expireDate_status, k_domain_status, k_status_status, k_createDate_tld, k_expireDate_tld, k_domain_tld, k_status_tld, k_tld_tld, k_createDate_createDate, k_createDate_expireDate, k_expireDate_expireDate, k_createDate_securityLock, k_expireDate_securityLock, k_domain_securityLock, k_status_securityLock, k_tld_securityLock, k_securityLock_securityLock, k_createDate_whoisPrivacy, k_expireDate_whoisPrivacy, k_domain_whoisPrivacy, k_status_whoisPrivacy, k_tld_whoisPrivacy, k_securityLock_whoisPrivacy, k_whoisPrivacy_whoisPrivacy, k_createDate_autoRenew, k_expireDate_autoRenew, k_domain_autoRenew, k_status_autoRenew, k_tld_autoRenew, k_securityLock_autoRenew, k_whoisPrivacy_autoRenew, k_autoRenew_autoRenew, k_createDate_notLocal, k_expireDate_notLocal, k_domain_notLocal, k_status_notLocal, k_tld_notLocal, k_securityLock_notLocal, k_whoisPrivacy_notLocal, k_autoRenew_notLocal, k_notLocal_notLocal, k_createDate_labels, k_expireDate_labels, k_domain_labels, k_status_labels, k_tld_labels, k_securityLock_labels, k_whoisPrivacy_labels, k_autoRenew_labels, k_notLocal_labels, k_labels_labels]

theorem listDomains_decode_envelope (P : Platform) (ws : List DomainWire)
    (hw : ∀ w ∈ ws, w.datesOk = true) :
    (ListDomainsResponse.type P).decode (ListDomainsResponse.type P).zero (domainsEnvelope ws)
      = ⟨⟨⟨none, "SUCCESS"⟩, some ⟨ws.map DomainWire.toDomain, []⟩⟩, none, none⟩ := by
  have k1 : keyMatches "HTTPResponse" "status" = false := by decide
  have k2 : keyMatches "status" "status" = true := by decide
  have k3 : keyMatches "HTTPResponse" "domains" = false := by decide
  have k4 : keyMatches "status" "domains" = false := by decide
  have k5 : keyMatches "domains" "domains" = true := by decide
  have hs := decodeSlice_map "[]porkbun.Domain" Domain.decode Domain.zero DomainWire.json
    DomainWire.toDomain ws (fun w h => domain_decode_wire w (hw w h))
  simp [ListDomainsResponse.type, domainsEnvelope, decodeStruct, decodeMembers,
    ListDomainsResponse.setMember, BaseResponse.setMember, decodeString, firstErr, hs,
    k1, k2, k3, k4, k5]

/-- C25: for every status-200 response whose body is the success envelope with
`n` well-formed domain objects (`n ≥ 0`; the texts, two dates that `time.Parse`
accepts, the string flags `"1"` / `"0"`, the numeric flags `1` / `0`, and
optionally the labels), `ListDomains` returns no error, `Status` `SUCCESS`, the
transport response, and exactly the `n` domains in wire order with their flags
as booleans; for `n = 0` the list of domains has length zero. -/
theorem listDomains_success (P : Platform) (c : Client) (cx : Context)
    (options : Option DomainListOptions) (req : Request) (resp : Response)
    (ws : List DomainWire)
    (hreq : c.newRequest P "POST" (EndpointCall.path (.ListDomains options))
        (EndpointCall.payload (.ListDomains options)) = .ok req)
    (hd : c.httpClient { req with ctx := cx } = .ok resp) (hs : resp.StatusCode = 200)
    (hbe : resp.BodyErr = none)
    (hbody : parseDocument resp.Body.data = .ok (domainsEnvelope ws))
    (hw : ∀ w ∈ ws, w.datesOk = true) :
    (c.endpoint P (some cx) (.ListDomains options)).err = none
      ∧ (c.endpoint P (some cx) (.ListDomains options)).response
          = some (.listDomains ⟨⟨some { resp with bodyRead := true }, "SUCCESS"⟩,
              some ⟨ws.map DomainWire.toDomain, []⟩⟩)
      ∧ (ws.map DomainWire.toDomain).length = ws.length
      ∧ (∀ w ∈ ws, w.toDomain.SecurityLock = w.securityLock
          ∧ w.toDomain.WhoisPrivacy = w.whoisPrivacy ∧ w.toDomain.AutoRenew = w.autoRenew
          ∧ w.toDomain.NotLocal = w.notLocal ∧ w.toDomain.Domain_ = w.domain
          ∧ timeParse w.createDate = .ok w.toDomain.CreateDate
          ∧ timeParse w.expireDate = .ok w.toDomain.ExpireDate)
      ∧ (ws = [] → (c.endpoint P (some cx) (.ListDomains options)).response
          = some (.listDomains ⟨⟨some { resp with bodyRead := true }, "SUCCESS"⟩,
              some ⟨[], []⟩⟩)) := by
  have hdec := listDomains_decode_envelope P ws hw
  have hu : unmarshal ((EndpointCall.ListDomains options).responseType P).decode resp.Body
      ((EndpointCall.ListDomains options).responseType P).zero
      = (.listDomains ⟨⟨none, "SUCCESS"⟩, some ⟨ws.map DomainWire.toDomain, []⟩⟩, none) := by
    simp only [unmarshal, hbody, EndpointCall.responseType, ResponseType.lift, hdec]
    rfl
  have hcall := call_success P c cx (.ListDomains options)
    ((EndpointCall.ListDomains options).responseType P) req resp hreq hd hs hbe
    (by rw [hu])
  have hresp : (c.endpoint P (some cx) (.ListDomains options)).response
      = some (.listDomains ⟨⟨some { resp with bodyRead := true }, "SUCCESS"⟩,
          some ⟨ws.map DomainWire.toDomain, []⟩⟩) := by
    unfold Client.endpoint
    rw [hcall.1, hu]
    rfl
  refine ⟨hcall.2.1, hresp, by simp, ?_, ?_⟩
  · intro w hmem
    have hok := hw w hmem
    simp only [DomainWire.datesOk, Bool.and_eq_true] at hok
    refine ⟨rfl, rfl, rfl, rfl, rfl, ?_, ?_⟩
    · cases h : timeParse w.createDate with
      | error e => rw [h] at hok; exact absurd hok.1 (by simp)
      | ok t => simp [DomainWire.toDomain, parsedTime, h]
    · cases h : timeParse w.expireDate with
      | error e => rw [h] at hok; exact absurd hok.2 (by simp)
      | ok t => simp [DomainWire.toDomain, parsedTime, h]
  · intro hnil
    rw [hresp, hnil]
    rfl

set_option maxRecDepth 100000 in
theorem listDomains_success_witness :
    ((testClient (fixedTransport 200
          ("\x7b\"status\":\"SUCCESS\",\"domains\":[\x7b\"domain\":\"example.com\","
            ++ "\"status\":\"ACTIVE\",\"tld\":\"com\",\"createDate\":\"2023-01-01 12:00:00\","
            ++ "\"expireDate\":\"2024-01-01 12:00:00\",\"securityLock\":\"1\","
            ++ "\"whoisPrivacy\":\"0\",\"autoRenew\":1,\"notLocal\":0\x7d]\x7d"))).endpoint
        Platform.sample (some .background) (.ListDomains none)).response
      = some (.listDomains
          ⟨⟨some
              { StatusCode := 200, Header := [],
                Body := "\x7b\"status\":\"SUCCESS\",\"domains\":[\x7b\"domain\":\"example.com\","
                  ++ "\"status\":\"ACTIVE\",\"tld\":\"com\",\"createDate\":\"2023-01-01 12:00:00\","
                  ++ "\"expireDate\":\"2024-01-01 12:00:00\",\"securityLock\":\"1\","
                  ++ "\"whoisPrivacy\":\"0\",\"autoRenew\":1,\"notLocal\":0\x7d]\x7d",
                BodyErr := none, bodyRead := true,
                Request := some
                  { Method := "POST", URL := "https://api.porkbun.com/api/json/v3/domain/listAll",
                    Header := [("Content-Type", "application/json"),
                      ("Accept", "application/json"), ("User-Agent", "porkbun-go/1.0.0")],
                    Body := "\x7b\"secretapikey\":\"5678\",\"apikey\":\"1234\"\x7d\n",
                    ctx := Context.background } }, "SUCCESS"⟩,
            some ⟨[DomainWire.toDomain
              ⟨"example.com", "ACTIVE", "com", "2023-01-01 12:00:00", "2024-01-01 12:00:00",
                true, false, true, false, none⟩], []⟩⟩) :=
  (listDomains_success Platform.sample
    (testClient (fixedTransport 200
      ("\x7b\"status\":\"SUCCESS\",\"domains\":[\x7b\"domain\":\"example.com\","
        ++ "\"status\":\"ACTIVE\",\"tld\":\"com\",\"createDate\":\"2023-01-01 12:00:00\","
        ++ "\"expireDate\":\"2024-01-01 12:00:00\",\"securityLock\":\"1\","
        ++ "\"whoisPrivacy\":\"0\",\"autoRenew\":1,\"notLocal\":0\x7d]\x7d")))
    .background none
    { Method := "POST", URL := "https://api.porkbun.com/api/json/v3/domain/listAll",
      Header := [("Content-Type", "application/json"), ("Accept", "application/json"),
        ("User-Agent", "porkbun-go/1.0.0")],
      Body := "\x7b\"secretapikey\":\"5678\",\"apikey\":\"1234\"\x7d\n",
      ctx := Context.background }
    { StatusCode := 200, Header := [],
      Body := "\x7b\"status\":\"SUCCESS\",\"domains\":[\x7b\"domain\":\"example.com\","
        ++ "\"status\":\"ACTIVE\",\"tld\":\"com\",\"createDate\":\"2023-01-01 12:00:00\","
        ++ "\"expireDate\":\"2024-01-01 12:00:00\",\"securityLock\":\"1\","
        ++ "\"whoisPrivacy\":\"0\",\"autoRenew\":1,\"notLocal\":0\x7d]\x7d",
      BodyErr := none, bodyRead := false,
      Request := some
        { Method := "POST", URL := "https://api.porkbun.com/api/json/v3/domain/listAll",
          Header := [("Content-Type", "application/json"), ("Accept", "application/json"),
            ("User-Agent", "porkbun-go/1.0.0")],
          Body := "\x7b\"secretapikey\":\"5678\",\"apikey\":\"1234\"\x7d\n",
          ctx := Context.background } }
    [⟨"example.com", "ACTIVE", "com", "2023-01-01 12:00:00", "2024-01-01 12:00:00",
      true, false, true, false, none⟩]
    (by decide) (by decide) (by decide) rfl rfl (by decide)).2.1

/-! ## What an endpoint method returns with an error -/

theorem decodeMembers_keeps {α β : Type} (step : α → String → JValue → Decoded α)
    (proj : α → β) (ms : List (String × JValue))
    (h : ∀ kv ∈ ms, ∀ a, proj (step a kv.1 kv.2).val = proj a) :
    ∀ st : Decoded α, proj (decodeMembers step ms st).val = proj st.val := by
  induction ms with
  | nil => intro st; rfl
  | cons kv rest ih =>
    intro st
    obtain ⟨k, v⟩ := kv
    simp only [decodeMembers]
    split
    · rfl
    · rw [ih (fun kv hkv => h kv (List.mem_cons_of_mem _ hkv))]
      exact h (k, v) (List.mem_cons_self _ _) st.val

theorem decodeStruct_keeps {α β : Type} (goType : String)
    (step : α → String → JValue → Decoded α) (proj : α → β)
    (hstep : ∀ a k v, keyMatches "HTTPResponse" k = false → proj (step a k v).val = proj a)
    (cur : α) (v : JValue) (hv : noResponseKey v = true) :
    proj (decodeStruct goType step cur v).val = proj cur := by
  cases v with
  | obj ms =>
    simp only [noResponseKey, List.all_eq_true, Bool.not_eq_true'] at hv
    exact decodeMembers_keeps step proj ms (fun kv hkv a => hstep a kv.1 kv.2 (hv kv hkv)) _
  | null => rfl
  | bool b => rfl
  | num l => rfl
  | str s => rfl
  | arr xs => rfl

theorem baseResponse_setMember_keeps (P : Platform) (b : BaseResponse) (k : String) (v : JValue)
    (hk : keyMatches "HTTPResponse" k = false) :
    ∀ d, BaseResponse.setMember P b k v = some d → d.val.HTTPResponse = b.HTTPResponse := by
  intro d hd
  unfold BaseResponse.setMember at hd
  rw [if_neg (by simp [hk])] at hd
  split at hd
  · simp only [Option.some.injEq] at hd
    subst hd
    rfl
  · cases hd

theorem setMember_keeps_PingResponse (P : Platform) (r : PingResponse) (k : String) (v : JValue)
    (hk : keyMatches "HTTPResponse" k = false) :
    (PingResponse.setMember P r k v).val.BaseResponse.HTTPResponse = r.BaseResponse.HTTPResponse := by
  have hb := baseResponse_setMember_keeps P r.BaseResponse k v hk
  unfold PingResponse.setMember
  cases h : BaseResponse.setMember P r.BaseResponse k v with
  | some d => exact hb d h
  | none =>
    simp only
    split_ifs <;> rfl

theorem setMember_keeps_ListDomainsResponse (P : Platform) (r : ListDomainsResponse) (k : String) (v : JValue)
    (hk : keyMatches "HTTPResponse" k = false) :
    (ListDomainsResponse.setMember P r k v).val.BaseResponse.HTTPResponse = r.BaseResponse.HTTPResponse := by
  have hb := baseResponse_setMember_keeps P r.BaseResponse k v hk
  unfold ListDomainsResponse.setMember
  cases h : BaseResponse.setMember P r.BaseResponse k v with
  | some d => exact hb d h
  | none =>
    simp only
    split_ifs <;> rfl

theorem setMember_keeps_GetNameServersResponse (P : Platform) (r : GetNameServersResponse) (k : String) (v : JValue)
    (hk : keyMatches "HTTPResponse" k = false) :
    (GetNameServersResponse.setMember P r k v).val.BaseResponse.HTTPResponse = r.BaseResponse.HTTPResponse := by
  have hb := baseResponse_setMember_keeps P r.BaseResponse k v hk
  unfold GetNameServersResponse.setMember
  cases h : BaseResponse.setMember P r.BaseResponse k v with
  | some d => exact hb d h
  | none =>
    simp only
    split_ifs <;> rfl

theorem setMember_keeps_UpdateNameServersResponse (P : Platform) (r : UpdateNameServersResponse) (k : String) (v : JValue)
    (hk : keyMatches "HTTPResponse" k = false) :
    (UpdateNameServersResponse.setMember P r k v).val.BaseResponse.HTTPResponse = r.BaseResponse.HTTPResponse := by
  have hb := baseResponse_setMember_keeps P r.BaseResponse k v hk
  unfold UpdateNameServersResponse.setMember
  cases h : BaseResponse.setMember P r.BaseResponse k v with
  | some d => exact hb d h
  | none => rfl

theorem setMember_keeps_GetDomainURLForwardingResponse (P : Platform) (r : GetDomainURLForwardingResponse) (k : String) (v : JValue)
    (hk : keyMatches "HTTPResponse" k = false) :
    (GetDomainURLForwardingResponse.setMember P r k v).val.BaseResponse.HTTPResponse = r.BaseResponse.HTTPResponse := by
  have hb := baseResponse_setMember_keeps P r.BaseResponse k v hk
  unfold GetDomainURLForwardingResponse.setMember
  cases h : BaseResponse.setMember P r.BaseResponse k v with
  | some d => exact hb d h
  | none =>
    simp only
    split_ifs <;> rfl

theorem setMember_keeps_AddDomainUrlForwardResponse (P : Platform) (r : AddDomainUrlForwardResponse) (k : String) (v : JValue)
    (hk : keyMatches "HTTPResponse" k = false) :
    (AddDomainUrlForwardResponse.setMember P r k v).val.BaseResponse.HTTPResponse = r.BaseResponse.HTTPResponse := by
  have hb := baseResponse_setMember_keeps P r.BaseResponse k v hk
  unfold AddDomainUrlForwardResponse.setMember
  cases h : BaseResponse.setMember P r.BaseResponse k v with
  | some d => exact hb d h
  | none => rfl

theorem setMember_keeps_DeleteDomainUrlForwardResponse (P : Platform) (r : DeleteDomainUrlForwardResponse) (k : String) (v : JValue)
    (hk : keyMatches "HTTPResponse" k = false) :
    (DeleteDomainUrlForwardResponse.setMember P r k v).val.BaseResponse.HTTPResponse = r.BaseResponse.HTTPResponse := by
  have hb := baseResponse_setMember_keeps P r.BaseResponse k v hk
  unfold DeleteDomainUrlForwardResponse.setMember
  cases h : BaseResponse.setMember P r.BaseResponse k v with
  | some d => exact hb d h
  | none => rfl

theorem setMember_keeps_GetRecordsResponse (P : Platform) (r : GetRecordsResponse) (k : String) (v : JValue)
    (hk : keyMatches "HTTPResponse" k = false) :
    (GetRecordsResponse.setMember P r k v).val.BaseResponse.HTTPResponse = r.BaseResponse.HTTPResponse := by
  have hb := baseResponse_setMember_keeps P r.BaseResponse k v hk
  unfold GetRecordsResponse.setMember
  cases h : BaseResponse.setMember P r.BaseResponse k v with
  | some d => exact hb d h
  | none =>
    simp only
    split_ifs <;> rfl

theorem setMember_keeps_CreateRecordResponse (P : Platform) (r : CreateRecordResponse) (k : String) (v : JValue)
    (hk : keyMatches "HTTPResponse" k = false) :
    (CreateRecordResponse.setMember P r k v).val.BaseResponse.HTTPResponse = r.BaseResponse.HTTPResponse := by
  have hb := baseResponse_setMember_keeps P r.BaseResponse k v hk
  unfold CreateRecordResponse.setMember
  cases h : BaseResponse.setMember P r.BaseResponse k v with
  | some d => exact hb d h
  | none =>
    simp only
    split_ifs <;> rfl

theorem setMember_keeps_EditRecordResponse (P : Platform) (r : EditRecordResponse) (k : String) (v : JValue)
    (hk : keyMatches "HTTPResponse" k = false) :
    (EditRecordResponse.setMember P r k v).val.BaseResponse.HTTPResponse = r.BaseResponse.HTTPResponse := by
  have hb := baseResponse_setMember_keeps P r.BaseResponse k v hk
  unfold EditRecordResponse.setMember
  cases h : BaseResponse.setMember P r.BaseResponse k v with
  | some d => exact hb d h
  | none => rfl

theorem setMember_keeps_DeleteRecordResponse (P : Platform) (r : DeleteRecordResponse) (k : String) (v : JValue)
    (hk : keyMatches "HTTPResponse" k = false) :
    (DeleteRecordResponse.setMember P r k v).val.BaseResponse.HTTPResponse = r.BaseResponse.HTTPResponse := by
  have hb := baseResponse_setMember_keeps P r.BaseResponse k v hk
  unfold DeleteRecordResponse.setMember
  cases h : BaseResponse.setMember P r.BaseResponse k v with
  | some d => exact hb d h
  | none => rfl

theorem setMember_keeps_SslRetrieveResponse (P : Platform) (r : SslRetrieveResponse) (k : String) (v : JValue)
    (hk : keyMatches "HTTPResponse" k = false) :
    (SslRetrieveResponse.setMember P r k v).val.BaseResponse.HTTPResponse = r.BaseResponse.HTTPResponse := by
  have hb := baseResponse_setMember_keeps P r.BaseResponse k v hk
  unfold SslRetrieveResponse.setMember
  cases h : BaseResponse.setMember P r.BaseResponse k v with
  | some d => exact hb d h
  | none =>
    simp only
    split_ifs <;> rfl

theorem setMember_keeps_PricingResponse (P : Platform) (r : PricingResponse) (k : String) (v : JValue)
    (hk : keyMatches "HTTPResponse" k = false) :
    (PricingResponse.setMember P r k v).val.BaseResponse.HTTPResponse = r.BaseResponse.HTTPResponse := by
  have hb := baseResponse_setMember_keeps P r.BaseResponse k v hk
  unfold PricingResponse.setMember
  cases h : BaseResponse.setMember P r.BaseResponse k v with
  | some d => exact hb d h
  | none =>
    simp only
    split_ifs <;> rfl

theorem responseType_decode_keeps (P : Platform) (e : EndpointCall) (v : JValue)
    (hv : noResponseKey v = true) :
    (((e.responseType P).decode (e.responseType P).zero v).val.base).HTTPResponse = none := by
  cases e
  · exact decodeStruct_keeps _ (PingResponse.setMember P) (fun r => r.BaseResponse.HTTPResponse)
      (fun a k w hk => setMember_keeps_PingResponse P a k w hk) _ v hv
  · exact decodeStruct_keeps _ (ListDomainsResponse.setMember P) (fun r => r.BaseResponse.HTTPResponse)
      (fun a k w hk => setMember_keeps_ListDomainsResponse P a k w hk) _ v hv
  · exact decodeStruct_keeps _ (GetNameServersResponse.setMember P) (fun r => r.BaseResponse.HTTPResponse)
      (fun a k w hk => setMember_keeps_GetNameServersResponse P a k w hk) _ v hv
  · exact decodeStruct_keeps _ (UpdateNameServersResponse.setMember P) (fun r => r.BaseResponse.HTTPResponse)
      (fun a k w hk => setMember_keeps_UpdateNameServersResponse P a k w hk) _ v hv
  · exact decodeStruct_keeps _ (GetDomainURLForwardingResponse.setMember P) (fun r => r.BaseResponse.HTTPResponse)
      (fun a k w hk => setMember_keeps_GetDomainURLForwardingResponse P a k w hk) _ v hv
  · exact decodeStruct_keeps _ (AddDomainUrlForwardResponse.setMember P) (fun r => r.BaseResponse.HTTPResponse)
      (fun a k w hk => setMember_keeps_AddDomainUrlForwardResponse P a k w hk) _ v hv
  · exact decodeStruct_keeps _ (DeleteDomainUrlForwardResponse.setMember P) (fun r => r.BaseResponse.HTTPResponse)
      (fun a k w hk => setMember_keeps_DeleteDomainUrlForwardResponse P a k w hk) _ v hv
  · exact decodeStruct_keeps _ (GetRecordsResponse.setMember P) (fun r => r.BaseResponse.HTTPResponse)
      (fun a k w hk => setMember_keeps_GetRecordsResponse P a k w hk) _ v hv
  · exact decodeStruct_keeps _ (GetRecordsResponse.setMember P) (fun r => r.BaseResponse.HTTPResponse)
      (fun a k w hk => setMember_keeps_GetRecordsResponse P a k w hk) _ v hv
  · exact decodeStruct_keeps _ (CreateRecordResponse.setMember P) (fun r => r.BaseResponse.HTTPResponse)
      (fun a k w hk => setMember_keeps_CreateRecordResponse P a k w hk) _ v hv
  · exact decodeStruct_keeps _ (EditRecordResponse.setMember P) (fun r => r.BaseResponse.HTTPResponse)
      (fun a k w hk => setMember_keeps_EditRecordResponse P a k w hk) _ v hv
  · exact decodeStruct_keeps _ (EditRecordResponse.setMember P) (fun r => r.BaseResponse.HTTPResponse)
      (fun a k w hk => setMember_keeps_EditRecordResponse P a k w hk) _ v hv
  · exact decodeStruct_keeps _ (DeleteRecordResponse.setMember P) (fun r => r.BaseResponse.HTTPResponse)
      (fun a k w hk => setMember_keeps_DeleteRecordResponse P a k w hk) _ v hv
  · exact decodeStruct_keeps _ (DeleteRecordResponse.setMember P) (fun r => r.BaseResponse.HTTPResponse)
      (fun a k w hk => setMember_keeps_DeleteRecordResponse P a k w hk) _ v hv
  · exact decodeStruct_keeps _ (SslRetrieveResponse.setMember P) (fun r => r.BaseResponse.HTTPResponse)
      (fun a k w hk => setMember_keeps_SslRetrieveResponse P a k w hk) _ v hv
  · exact decodeStruct_keeps _ (PricingResponse.setMember P) (fun r => r.BaseResponse.HTTPResponse)
      (fun a k w hk => setMember_keeps_PricingResponse P a k w hk) _ v hv

theorem request_ok_has_response {α : Type} (P : Platform) (c : Client) (ctx : Option Context)
    (req : Request) (dec : Option (α → JValue → Decoded α)) (obj : α)
    (h : (c.request P ctx req dec obj).err = none) :
    (c.request P ctx req dec obj).resp ≠ none := by
  cases ctx with
  | none => simp [Client.request] at h
  | some cx =>
    cases hd : c.httpClient { req with ctx := cx } with
    | error err => simp [Client.request, hd] at h
    | ok resp =>
      rcases hc : checkResponse P resp with ⟨_ | er, r1⟩
      · cases dec with
        | none => simp [Client.request, hd, hc]
        | some d =>
          cases hb : r1.BodyErr with
          | some m => simp [Client.request, hd, hc, hb] at h
          | none => simp [Client.request, hd, hc, hb]
      · simp [Client.request, hd, hc] at h

theorem call_error_cases {α : Type} (P : Platform) (c : Client) (ctx : Option Context)
    (e : EndpointCall) (t : ResponseType α) (hne : (c.call P ctx e t).err ≠ none) :
    (c.call P ctx e t).response = untouched e t
      ∨ ∃ (cx : Context) (req : Request) (resp : Response) (v : JValue), ctx = some cx
        ∧ c.newRequest P "POST" e.path e.payload = .ok req
        ∧ c.httpClient { req with ctx := cx } = .ok resp ∧ resp.StatusCode = 200
        ∧ parseDocument resp.Body.data = .ok v
        ∧ (c.call P ctx e t).response
            = (if e = .ListPricing then none else some (t.decode t.zero v).val) := by
  cases h : c.newRequest P "POST" e.path e.payload with
  | error err => exact Or.inl (call_build_error P c ctx e t err h).1
  | ok req =>
    cases ctx with
    | none => exact Or.inl (call_nil_context P c e t req h).1
    | some cx =>
      cases hd : c.httpClient { req with ctx := cx } with
      | error err => exact Or.inl (call_transport_error P c cx e t req err h hd).1
      | ok resp =>
        by_cases hs : resp.StatusCode = 200
        · cases hb : resp.BodyErr with
          | some m => exact Or.inl (call_body_error P c cx e t req resp m h hd hs hb).1
          | none =>
            cases hp : parseDocument resp.Body.data with
            | error se =>
              have hu : (unmarshal t.decode resp.Body t.zero)
                  = (t.zero, some (.jsonSyntax se)) := by
                simp [unmarshal, hp]
              have := call_decode_error P c cx e t req resp _ h hd hs hb (by rw [hu])
              left
              rw [this.1, hu]
              rfl
            | ok v =>
              have hu : (unmarshal t.decode resp.Body t.zero)
                  = ((t.decode t.zero v).val, (t.decode t.zero v).err) := by
                simp [unmarshal, hp]
              cases he : (t.decode t.zero v).err with
              | none =>
                have := call_success P c cx e t req resp h hd hs hb (by rw [hu]; exact he)
                exact absurd this.2.1 hne
              | some er =>
                have := call_decode_error P c cx e t req resp er h hd hs hb
                  (by rw [hu]; exact he)
                refine Or.inr ⟨cx, req, resp, v, rfl, rfl, hd, hs, hp, ?_⟩
                rw [this.1, hu]
        · exact Or.inl (call_status_error P c cx e t req resp h hd hs).1

/-- C30, the claim as stated fails: `Ping` answered with status 200 and a body
whose `yourIp` is a number returns an error together with a result that is
neither untouched (`Status` is `SUCCESS`) nor without a response: the decoder
has stored the object under `HTTPResponse` into a new `http.Response`. -/
theorem error_result_counterexample :
    ((testClient (fixedTransport 200
          "\x7b\"HTTPResponse\":\x7b\x7d,\"status\":\"SUCCESS\",\"yourIp\":5\x7d")).endpoint
        Platform.sample (some .background) .Ping).response
        = some (.ping ⟨⟨some Response.zero, "SUCCESS"⟩, ""⟩)
      ∧ ((testClient (fixedTransport 200
          "\x7b\"HTTPResponse\":\x7b\x7d,\"status\":\"SUCCESS\",\"yourIp\":5\x7d")).endpoint
        Platform.sample (some .background) .Ping).err
        = some (.unmarshalType "number" "string") := by
  decide

/-- C30 as amended: `makeRequest` returns a response exactly when it returns no
error; the response `request` hands back together with the error of a status
other than 200 is dropped.  An endpoint method that returns an error returns a
nil result for `ListPricing` and a non-nil one for every other endpoint: the
response struct it allocated, as the decoder left it, with nothing attached by
the method.  The `HTTPResponse` of that result is nil whenever the body, if it
is a JSON object, has no member whose key selects the field `HTTPResponse`. -/
theorem makeRequest_response_xor_error (P : Platform) (c : Client) (ctx : Option Context)
    (e : EndpointCall) :
    (∀ {α : Type} (method path : String) (payload : Option Payload)
        (dec : Option (α → JValue → Decoded α)) (obj : α),
        ((c.makeRequest P ctx method path payload dec obj).err = none
          ↔ (c.makeRequest P ctx method path payload dec obj).resp ≠ none))
      ∧ (∀ {α : Type} (cx : Context) (method path : String) (payload : Option Payload)
          (dec : Option (α → JValue → Decoded α)) (obj : α) (req : Request) (resp : Response),
          c.newRequest P method path payload = .ok req →
          c.httpClient { req with ctx := cx } = .ok resp → resp.StatusCode ≠ 200 →
          (c.request P (some cx) req dec obj).resp ≠ none
            ∧ (c.request P (some cx) req dec obj).err ≠ none
            ∧ (c.makeRequest P (some cx) method path payload dec obj).resp = none
            ∧ (c.makeRequest P (some cx) method path payload dec obj).err
                = (c.request P (some cx) req dec obj).err)
      ∧ ((c.endpoint P ctx e).err ≠ none →
          ((c.endpoint P ctx e).response = none ↔ e = .ListPricing))
      ∧ ((c.endpoint P ctx e).err ≠ none →
          (∀ (cx : Context) (req : Request) (resp : Response) (v : JValue), ctx = some cx →
            c.newRequest P "POST" e.path e.payload = .ok req →
            c.httpClient { req with ctx := cx } = .ok resp →
            parseDocument resp.Body.data = .ok v → noResponseKey v = true) →
          ∀ r, (c.endpoint P ctx e).response = some r → r.base.HTTPResponse = none) := by
  refine ⟨?_, ?_, ?_, ?_⟩
  · intro α method path payload dec obj
    unfold Client.makeRequest
    cases h : c.newRequest P method path payload with
    | error err => simp
    | ok req =>
      simp only
      cases he : (c.request P ctx req dec obj).err with
      | some er => simp
      | none =>
        simp only [true_iff]
        exact request_ok_has_response P c ctx req dec obj he
  · intro α cx method path payload dec obj req resp hreq hd hs
    obtain ⟨er, r1, hc⟩ := checkResponse_err P resp hs
    have hr : c.request P (some cx) req dec obj
        = ⟨some r1, some er, obj, [{ req with ctx := cx }]⟩ := by
      simp [Client.request, hd, hc]
    simp [Client.makeRequest, hreq, hr]
  · intro hne
    unfold Client.endpoint Client.call at hne ⊢
    simp only at hne ⊢
    cases he : (c.post P ctx e.path e.payload (some (e.responseType P).decode)
        (e.responseType P).zero).err with
    | none => rw [he] at hne; exact absurd rfl hne
    | some er =>
      simp only
      by_cases hl : e = .ListPricing
      · simp [hl]
      · simp [hl]
  · intro hne hkey r hr
    have hzero : (e.responseType P).zero.base = ⟨none, ""⟩ := by cases e <;> rfl
    unfold Client.endpoint at hne hr
    rcases call_error_cases P c ctx e (e.responseType P) hne with h | ⟨cx, req, resp, v, hcx,
      hreq, hd, hs, hp, h⟩
    · rw [h] at hr
      unfold untouched at hr
      split_ifs at hr
      simp only [Option.some.injEq] at hr
      rw [← hr, hzero]
    · rw [h] at hr
      split_ifs at hr
      simp only [Option.some.injEq] at hr
      rw [← hr]
      exact responseType_decode_keeps P e v (hkey cx req resp v hcx hreq hd hp)

end Porkbun
